import Mathlib

/-!
# gaden_player: the simulation player (simulation_player.cpp)

A shallow embedding of `src/gaden_player/src/simulation_player.cpp`.

* Doubles and floats are read over an ordered field `α` with a floor function
  (`ℚ` for evaluation, `ℝ` for the analytic statements); rounding is not modelled, and a
  division by zero follows the field (`cell_size = 0` is outside the model).
* `int` values are unbounded integers; `size_t` positions of `std::string` wrap at `2^64`.
* `sqrt`, `exp` and `M_PI` of the C library are passed as a `Libm α` record.
* A decompressed frame is a list of bytes, read through a model of `std::istream` with its
  position, `eofbit` and `failbit`; `int` is four little-endian bytes, and the value of
  eight bytes read as a `double` is a parameter (`Externals.to_double`).
* A `std::map` is an association list in key order.
* An access outside a `std::vector`, a `resize` that throws and a call of `exit` leave the
  program without a defined result: the functions that can do so return `Option`, with
  `none` for these cases (and for a loop bound that is exhausted).
* Log output (`RCLCPP_INFO`, `RCLCPP_ERROR`) is not part of the state.
-/

namespace GadenPlayer

/-! ## std::string -/

/-- The value of `std::string::npos`. -/
def npos : Nat := 2 ^ 64 - 1

/-- Position of the first blank from index `i` on, for `line.find(" ")`. -/
def find_from : List Char → Nat → Nat
  | [], _ => npos
  | c :: cs, i => if c = ' ' then i else find_from cs (i + 1)

/-- The call `line.find(" ")`. -/
def find (line : List Char) : Nat := find_from line 0

/-- The call `line.substr(pos, len)` for `pos <= line.size()`. -/
def substr (line : List Char) (pos : Nat) (len : Nat) : List Char := (line.drop pos).take len

/-- The call `line.substr(pos)`. -/
def substr_from (line : List Char) (pos : Nat) : List Char := line.drop pos

/-- The call `line.erase(0, len)`. -/
def erase (line : List Char) (len : Nat) : List Char := line.drop len

/-- The `size_t` sum `pos + 1`, which is `0` at `npos`. -/
def succ_pos (pos : Nat) : Nat := (pos + 1) % 2 ^ 64

/-- The predicate `isspace` of the C locale. -/
def isspace (c : Char) : Bool :=
  c = ' ' || c = '\t' || c = '\n' || c = Char.ofNat 11 || c = Char.ofNat 12 || c = '\r'

/-- The value of a run of decimal digits. -/
def digits_value (ds : List Char) : Nat :=
  ds.foldl (fun n c => 10 * n + (c.toNat - '0'.toNat)) 0

/-- An optional sign: whether it is a minus, and the rest of the text. -/
def read_sign : List Char → Bool × List Char
  | '-' :: cs => (true, cs)
  | '+' :: cs => (false, cs)
  | cs => (false, cs)

/-- The C function `atoi`: blanks, an optional sign, then decimal digits. -/
def atoi (s : List Char) : Int :=
  let s1 := s.dropWhile isspace
  let sg := read_sign s1
  let v : Int := digits_value (sg.2.takeWhile Char.isDigit)
  if sg.1 then -v else v

/-- The decimal exponent part of a floating literal, `0` when there is none. -/
def read_exponent : List Char → Int
  | c :: cs =>
    if c = 'e' ∨ c = 'E' then
      let sg := read_sign cs
      let ds := sg.2.takeWhile Char.isDigit
      if sg.1 then -(digits_value ds : Int) else (digits_value ds : Int)
    else 0
  | [] => 0

/-- The digits `atof` converts: whether the sign is a minus, the value of the integer and
fraction digits taken together, the number of fraction digits, and the decimal exponent.
The text is blanks, an optional sign, digits with an optional fraction, an optional
exponent; without any digit the value is `0`. -/
def atof_parts (s : List Char) : Bool × Nat × Nat × Int :=
  let s1 := s.dropWhile isspace
  let sg := read_sign s1
  let ip := sg.2.takeWhile Char.isDigit
  let r1 := sg.2.dropWhile Char.isDigit
  let fp := match r1 with
    | '.' :: cs => cs.takeWhile Char.isDigit
    | _ => []
  let r2 := match r1 with
    | '.' :: cs => cs.dropWhile Char.isDigit
    | _ => r1
  if ip = [] ∧ fp = [] then (false, 0, 0, 0)
  else (sg.1, digits_value (ip ++ fp), fp.length, read_exponent r2)

/-- The C function `atof` on decimal literals, with the exact decimal value. Hexadecimal
literals, `inf` and `nan` are not modelled. -/
def atof {α : Type} [Field α] (s : List Char) : α :=
  let p := atof_parts s
  let v : α := (p.2.1 : α) / (10 : α) ^ p.2.2.1 * (10 : α) ^ p.2.2.2
  if p.1 then -v else v

/-! ## std::istream over an in-memory buffer -/

/-- A `std::stringstream` opened for reading: its bytes, the read position and the state bits. -/
structure istream where
  buf : List Char
  pos : Nat
  eofbit : Bool
  failbit : Bool
deriving DecidableEq, Repr

/-- A fresh stream over the given bytes. -/
def istream.of (bytes : List Char) : istream := ⟨bytes, 0, false, false⟩

/-- The call `good()`. -/
def istream.good (s : istream) : Bool := !s.eofbit && !s.failbit

/-- The call `read(dst, n)`, where `old` are the `n` bytes `dst` holds before the call.
Returns the bytes of `dst` after the call. A short read copies what is there and sets
`eofbit` and `failbit`; a stream that is not good reads nothing. -/
def istream.read (s : istream) (n : Nat) (old : List Char) : List Char × istream :=
  if s.good then
    let avail := (s.buf.drop s.pos).take n
    if avail.length = n then (avail, { s with pos := s.pos + n })
    else (avail ++ old.drop avail.length,
      { s with pos := s.pos + avail.length, eofbit := true, failbit := true })
  else (old, { s with failbit := true })

/-- The call `peek()`: `none` stands for `EOF`. -/
def istream.peek (s : istream) : Option Char × istream :=
  if s.good then
    match s.buf.drop s.pos with
    | [] => (none, { s with eofbit := true })
    | c :: _ => (some c, s)
  else (none, { s with failbit := true })

/-- The call `seekg(p)` with an absolute position. -/
def istream.seekg (s : istream) (p : Nat) : istream :=
  if s.failbit then { s with eofbit := false }
  else if p ≤ s.buf.length then { s with eofbit := false, pos := p }
  else { s with eofbit := false, failbit := true }

/-- The call `std::getline(s, line)`: the new content of `line` and the stream. The line
is cleared once the stream is entered; reading no character at all sets `failbit`. -/
def istream.getline (s : istream) (line : List Char) : List Char × istream :=
  if s.good then
    let rest := s.buf.drop s.pos
    let l := rest.takeWhile (fun c => c ≠ '\n')
    if l.length < rest.length then (l, { s with pos := s.pos + l.length + 1 })
    else (l, { s with pos := s.pos + l.length, eofbit := true, failbit := l.isEmpty })
  else (line, { s with failbit := true })

/-- The conversion of a stream to `bool`: `!fail()`. -/
def istream.ok (s : istream) : Bool := !s.failbit

/-- The unsigned value of little-endian bytes. -/
def le_value : List Char → Nat
  | [] => 0
  | c :: cs => c.toNat % 256 + 256 * le_value cs

/-- The `int` stored in four little-endian bytes (two's complement). -/
def to_int32 (bytes : List Char) : Int :=
  let v : Nat := le_value (bytes.take 4) % 2 ^ 32
  if v < 2 ^ 31 then (v : Int) else (v : Int) - 2 ^ 32

/-- The four little-endian bytes of an `int`. -/
def int32_bytes (v : Int) : List Char :=
  let u : Nat := (v % 2 ^ 32).toNat
  [Char.ofNat (u % 256), Char.ofNat (u / 256 % 256), Char.ofNat (u / 65536 % 256),
    Char.ofNat (u / 16777216 % 256)]

/-- The call `read((char*)&v, sizeof(int))` on an `int` variable holding `old`. -/
def istream.read_int (s : istream) (old : Int) : Int × istream :=
  let r := s.read 4 (int32_bytes old)
  (to_int32 r.1, r.2)

/-! ## std::vector and std::map -/

/-- The read `v[i]` of a `std::vector`; `none` outside the vector. -/
def vec_at {β : Type} (v : List β) (i : Int) : Option β :=
  if 0 ≤ i then v.get? i.toNat else none

/-- The write `v[i] = b` of a `std::vector`; `none` outside the vector. -/
def vec_set {β : Type} (v : List β) (i : Int) (b : β) : Option (List β) :=
  if 0 ≤ i ∧ i.toNat < v.length then some (v.set i.toNat b) else none

/-- The call `v.resize(n)` with an `int` argument: new elements are zero; a negative
argument converts to a size no vector can hold, and the call throws. -/
def vec_resize {β : Type} [Zero β] (v : List β) (n : Int) : Option (List β) :=
  if 0 ≤ n then some (v.take n.toNat ++ List.replicate (n.toNat - v.length) 0) else none

/-- The call `m.insert(pair(k, v))` of a `std::map`, kept in key order: an existing key
keeps its value. -/
def map_insert {K V : Type} [LinearOrder K] (k : K) (v : V) : List (K × V) → List (K × V)
  | [] => [(k, v)]
  | (k1, v1) :: m =>
    if k < k1 then (k, v) :: (k1, v1) :: m
    else if k = k1 then (k1, v1) :: m
    else (k1, v1) :: map_insert k v m

/-- The read `m[k]` of a `std::map` to `double`: a missing key reads as `0`. -/
def map_at {K V : Type} [DecidableEq K] [Zero V] (m : List (K × V)) (k : K) : V :=
  match m with
  | [] => 0
  | (k1, v1) :: m1 => if k = k1 then v1 else map_at m1 k

/-- The write `m[k] = v` of a `std::map`, kept in key order. -/
def map_assign {K V : Type} [LinearOrder K] (k : K) (v : V) : List (K × V) → List (K × V)
  | [] => [(k, v)]
  | (k1, v1) :: m =>
    if k < k1 then (k, v) :: (k1, v1) :: m
    else if k = k1 then (k1, v) :: m
    else (k1, v1) :: map_assign k v m

/-! ## Data model -/

/-- A triple of coordinates (`Gaden::Vector3`, `Gaden::Vector3i`). -/
structure Vector3 (β : Type) where
  x : β
  y : β
  z : β

/-- Modelled from the spec: `Gaden::EnvironmentDescription`, declared outside this
repository part. Bounding box, cell counts, cell size and one occupancy code per cell
(0 free, 1 obstacle, 2 outlet). -/
structure EnvironmentDescription (α : Type) where
  min_coord : Vector3 α
  max_coord : Vector3 α
  num_cells : Vector3 Int
  cell_size : α
  Env : List Nat

/-- Modelled from the spec: the class `Filament` of the missing header, built by
`Filament(x, y, z, stdDev)`. -/
structure Filament (α : Type) where
  x : α
  y : α
  z : α
  sigma : α

/-- The functions and the constant of the C library the player calls. -/
structure Libm (α : Type) where
  sqrt : α → α
  exp : α → α
  pi : α

/-- The result codes of `Gaden::readEnvFile`. -/
inductive ReadResult where
  | OK
  | NO_FILE
  | READING_FAILED
deriving DecidableEq, Repr

/-- What the player takes from outside this file: the occupancy reader
`Gaden::readEnvFile(occupancyFile, envDesc)`, the table `gasTypesByCode` of the missing
header, the value of eight bytes read as a `double`, and the value a `double` variable
holds after a short read overwrote its leading bytes. -/
structure Externals (α : Type) where
  readEnvFile : EnvironmentDescription α → ReadResult × EnvironmentDescription α
  gasTypesByCode : Int → List Char
  to_double : List Char → α
  overlay_double : α → List Char → α

/-- The files of the simulation folders: the decompressed payload of
`<dir>/iteration_<n>` and the doubles of `<dir>/wind/wind_iteration_<k>`; `none` is a
file that cannot be opened. A wind file is taken as a whole number of doubles. -/
structure Files (α : Type) where
  frame : List Char → Int → Option (List Char)
  wind : List Char → Int → Option (List α)

/-- The members of `sim_obj` (declared in the missing header `simulation_player.h`) as the
functions of the player read and write them. `activeFilaments` is a `std::map` from the
filament index to the filament. -/
structure sim_obj (α : Type) where
  gas_type : List Char
  simulation_filename : List Char
  source_pos_x : α
  source_pos_y : α
  source_pos_z : α
  load_wind_data : Bool
  first_reading : Bool
  filament_log : Bool
  envDesc : EnvironmentDescription α
  C : List α
  U : List α
  V : List α
  W : List α
  activeFilaments : List (Int × Filament α)
  total_moles_in_filament : α
  num_moles_all_gases_in_cm3 : α
  last_wind_idx : Int

/-- The values the locals of `load_binary_file` hold before anything is read into them. -/
structure Locals (α : Type) where
  gt : Int
  wind_index : Int
  filament_index : Int
  x : α
  y : α
  z : α
  stdDev : α

section model

variable {α : Type} [LinearOrderedField α] [FloorRing α]

/-- The call `read((char*)&d, sizeof(double))` on a `double` variable holding `old`. -/
def istream.read_double (E : Externals α) (s : istream) (old : α) : α × istream :=
  let r := s.read 8 []
  if r.1.length = 8 then (E.to_double r.1, r.2)
  else if r.1 = [] then (old, r.2)
  else (E.overlay_double old r.1, r.2)

/-- The constructor `sim_obj::sim_obj`: `raw` gives the members it does not set, `found`
says whether the simulation folder exists (the constructor exits when it does not). The
vectors and the map start empty. -/
def sim_obj.create (raw : sim_obj α) (filepath : List Char) (load_wind_info : Bool)
    (found : Bool) : Option (sim_obj α) :=
  if found then
    some { raw with
      gas_type := "unknown".toList
      simulation_filename := filepath
      source_pos_x := 0
      source_pos_y := 0
      source_pos_z := 0
      load_wind_data := load_wind_info
      first_reading := true
      filament_log := false
      envDesc := { raw.envDesc with Env := [] }
      C := []
      U := []
      V := []
      W := []
      activeFilaments := [] }
  else none

/-- The function `sim_obj::indexFrom3D`. -/
def indexFrom3D (env : EnvironmentDescription α) (x y z : Int) : Int :=
  x + y * env.num_cells.x + z * env.num_cells.x * env.num_cells.y

/-- The function `sim_obj::configure_environment`: `none` when a resize throws or the
occupancy file cannot be read (`exit(-1)`). -/
def configure_environment (E : Externals α) (s : sim_obj α) : Option (sim_obj α) :=
  let n := s.envDesc.num_cells.x * s.envDesc.num_cells.y * s.envDesc.num_cells.z
  match vec_resize s.C n with
  | none => none
  | some c =>
    let sized : Option (sim_obj α) :=
      if s.load_wind_data then
        match vec_resize s.U n, vec_resize s.V n, vec_resize s.W n with
        | some u, some v, some w => some { s with C := c, U := u, V := v, W := w }
        | _, _, _ => none
      else some { s with C := c }
    match sized with
    | none => none
    | some s1 =>
      let r := E.readEnvFile s1.envDesc
      if r.1 = ReadResult.OK then some { s1 with envDesc := r.2 } else none

/-- The function `sim_obj::read_concentration_line`. -/
def read_concentration_line (s : sim_obj α) (line : List Char) : Option (sim_obj α) :=
  let pos := find line
  let x := atoi (substr line 0 pos)
  let line := erase line (succ_pos pos)
  let pos := find line
  let y := atoi (substr line 0 pos)
  let line := erase line (succ_pos pos)
  let pos := find line
  let z := atoi (substr line 0 pos)
  let line := erase line (succ_pos pos)
  let pos := find line
  let conc : α := atof (substr line 0 pos)
  let line := erase line (succ_pos pos)
  let pos := find line
  let u : α := atof (substr line 0 pos)
  let line := erase line (succ_pos pos)
  let pos := find line
  let v : α := atof (substr line 0 pos)
  let w : α := atof (substr_from line (succ_pos pos))
  let i := indexFrom3D s.envDesc x y z
  match vec_set s.C i (conc / 1000) with
  | none => none
  | some c =>
    if s.load_wind_data then
      match vec_set s.U i (u / 1000), vec_set s.V i (v / 1000), vec_set s.W i (w / 1000) with
      | some u1, some v1, some w1 => some { s with C := c, U := u1, V := v1, W := w1 }
      | _, _, _ => none
    else some { s with C := c }

/-- The three value fields of a header line `<label> v1 v2 v3`, cut the way `read_headers`
cuts them: the label is erased, then `substr(0, pos)`, erase, `substr(0, pos)` and
`substr(pos + 1)`. The last component is what `line` holds afterwards. -/
def header_fields (line : List Char) : List Char × List Char × List Char × List Char :=
  let pos := find line
  let line := erase line (succ_pos pos)
  let pos := find line
  let f1 := substr line 0 pos
  let line := erase line (succ_pos pos)
  let pos := find line
  (f1, substr line 0 pos, substr_from line (succ_pos pos), line)

/-- The function `sim_obj::read_headers`: the instance, the stream and the content of
`line` after the call. -/
def read_headers (E : Externals α) (s : sim_obj α) (inbuf : istream) (line : List Char) :
    Option (sim_obj α × istream × List Char) :=
  let g1 := inbuf.getline line
  let f := header_fields g1.1
  let env := { s.envDesc with min_coord := ⟨atof f.1, atof f.2.1, atof f.2.2.1⟩ }
  let g2 := g1.2.getline f.2.2.2
  let f := header_fields g2.1
  let env := { env with max_coord := ⟨atof f.1, atof f.2.1, atof f.2.2.1⟩ }
  let g3 := g2.2.getline f.2.2.2
  let f := header_fields g3.1
  let env := { env with num_cells := ⟨atoi f.1, atoi f.2.1, atoi f.2.2.1⟩ }
  let g4 := g3.2.getline f.2.2.2
  let l4 := erase g4.1 (succ_pos (find g4.1))
  let env := { env with cell_size := atof (substr l4 0 (find l4)) }
  let g5 := g4.2.getline l4
  let f := header_fields g5.1
  let g6 := g5.2.getline f.2.2.2
  let s1 : sim_obj α := { s with
    envDesc := env
    source_pos_x := atof f.1
    source_pos_y := atof f.2.1
    source_pos_z := atof f.2.2.1
    gas_type := substr_from g6.1 (succ_pos (find g6.1)) }
  match configure_environment E s1 with
  | none => none
  | some s2 =>
    let g7 := g6.2.getline g6.1
    let g8 := g7.2.getline g7.1
    let g9 := g8.2.getline g8.1
    some (s2, g9.2, g9.1)

/-- The loop `do read_concentration_line(line); while (std::getline(decompressed, line))`
of `load_ascii_file`, with a bound on the number of passes. -/
def read_lines : Nat → sim_obj α → istream → List Char → Option (sim_obj α)
  | 0, _, _, _ => none
  | fuel + 1, s, decompressed, line =>
    match read_concentration_line s line with
    | none => none
    | some s1 =>
      let g := decompressed.getline line
      if g.2.ok then read_lines fuel s1 g.2 g.1 else some s1

/-- The header skip of `load_ascii_file`: `n` calls of `std::getline`. -/
def skip_lines : Nat → istream → List Char → List Char × istream
  | 0, decompressed, line => (line, decompressed)
  | n + 1, decompressed, line =>
    let g := decompressed.getline line
    skip_lines n g.2 g.1

/-- The function `sim_obj::load_ascii_file`. -/
def load_ascii_file (E : Externals α) (s : sim_obj α) (decompressed : istream) :
    Option (sim_obj α) :=
  if s.first_reading then
    match read_headers E s decompressed [] with
    | none => none
    | some r => read_lines (decompressed.buf.length + 2) { r.1 with first_reading := false }
        r.2.1 r.2.2
  else
    let g := skip_lines 8 decompressed []
    read_lines (decompressed.buf.length + 2) s g.2 g.1

/-- One array read of `load_wind_file`, `infile.read((char*)A.data(), 8 * n)`, on a file
of doubles of which `rest` are unread: the array and the unread part after the call
(`none` once the stream has failed). Writing past the end of `A` has no defined result. -/
def read_array (A : List α) (n : Nat) (rest : Option (List α)) :
    Option (List α × Option (List α)) :=
  match rest with
  | none => some (A, none)
  | some data =>
    if A.length < n then none
    else if n ≤ data.length then some (data.take n ++ A.drop n, some (data.drop n))
    else some (data ++ A.drop data.length, none)

/-- The function `sim_obj::load_wind_file`: the instance after the call and the indices
of the wind files it opened. -/
def load_wind_file (F : Files α) (s : sim_obj α) (wind_index : Int) :
    Option (sim_obj α × List Int) :=
  if wind_index = s.last_wind_idx then some (s, [])
  else
    let s1 := { s with last_wind_idx := wind_index }
    let infile := F.wind s.simulation_filename wind_index
    match read_array s1.U s1.U.length infile with
    | none => none
    | some ru =>
      match read_array s1.V s1.U.length ru.2 with
      | none => none
      | some rv =>
        match read_array s1.W s1.U.length rv.2 with
        | none => none
        | some rw => some ({ s1 with U := ru.1, V := rv.1, W := rw.1 }, [wind_index])

/-- The loop `while (decompressed.peek() != EOF)` of `load_binary_file`, with a bound on
the number of passes: the filament map after the loop. -/
def read_filaments (E : Externals α) :
    Nat → istream → Locals α → List (Int × Filament α) → Option (List (Int × Filament α))
  | 0, _, _, _ => none
  | fuel + 1, decompressed, l, m =>
    let p := decompressed.peek
    match p.1 with
    | none => some m
    | some _ =>
      let ri := p.2.read_int l.filament_index
      let rx := ri.2.read_double E l.x
      let ry := rx.2.read_double E l.y
      let rz := ry.2.read_double E l.z
      let rs := rz.2.read_double E l.stdDev
      read_filaments E fuel rs.2
        { l with filament_index := ri.1, x := rx.1, y := ry.1, z := rz.1, stdDev := rs.1 }
        (map_insert ri.1 ⟨rx.1, ry.1, rz.1, rs.1⟩ m)

/-- The header part of `load_binary_file` on a first reading, up to and including
`configure_environment`. -/
def read_binary_header (E : Externals α) (l : Locals α) (s : sim_obj α)
    (decompressed : istream) : Option (sim_obj α × istream) :=
  let e := s.envDesc
  let a1 := decompressed.read_double E e.min_coord.x
  let a2 := a1.2.read_double E e.min_coord.y
  let a3 := a2.2.read_double E e.min_coord.z
  let b1 := a3.2.read_double E e.max_coord.x
  let b2 := b1.2.read_double E e.max_coord.y
  let b3 := b2.2.read_double E e.max_coord.z
  let n1 := b3.2.read_int e.num_cells.x
  let n2 := n1.2.read_int e.num_cells.y
  let n3 := n2.2.read_int e.num_cells.z
  let cs := n3.2.read_double E e.cell_size
  let bufferD := cs.2.read 40 []
  let gt := bufferD.2.read_int l.gt
  let tm := gt.2.read_double E s.total_moles_in_filament
  let nm := tm.2.read_double E s.num_moles_all_gases_in_cm3
  let s1 : sim_obj α := { s with
    envDesc := { e with
      min_coord := ⟨a1.1, a2.1, a3.1⟩
      max_coord := ⟨b1.1, b2.1, b3.1⟩
      num_cells := ⟨n1.1, n2.1, n3.1⟩
      cell_size := cs.1 }
    gas_type := E.gasTypesByCode gt.1
    total_moles_in_filament := tm.1
    num_moles_all_gases_in_cm3 := nm.1 }
  match configure_environment E s1 with
  | none => none
  | some s2 => some ({ s2 with first_reading := false }, nm.2)

/-- The function `sim_obj::load_binary_file`. -/
def load_binary_file (E : Externals α) (F : Files α) (l : Locals α) (s : sim_obj α)
    (decompressed : istream) : Option (sim_obj α) :=
  let hdr : Option (sim_obj α × istream) :=
    if s.first_reading then read_binary_header E l s decompressed
    else some (s, decompressed.seekg (14 * 8 + 5 * 4))
  match hdr with
  | none => none
  | some h =>
    let wi := h.2.read_int l.wind_index
    match read_filaments E (decompressed.buf.length + 1) wi.2 l [] with
    | none => none
    | some m =>
      (load_wind_file F { h.1 with activeFilaments := m } wi.1).map (fun r => r.1)

/-- The function `sim_obj::load_data_from_logfile`; the file is looked up in `F`, where
its payload is already decompressed. -/
def load_data_from_logfile (E : Externals α) (F : Files α) (l : Locals α) (s : sim_obj α)
    (sim_iteration : Int) : Option (sim_obj α) :=
  match F.frame s.simulation_filename sim_iteration with
  | none => some s
  | some bytes =>
    let check := (istream.of bytes).read_int 0
    if check.1 = 1 then load_binary_file E F l { s with filament_log := true } check.2
    else load_ascii_file E s check.2

/-- The function `Player::load_all_data_from_logfiles` over the instances in order. -/
def load_all_data_from_logfiles (E : Externals α) (F : Files α) (l : Locals α) :
    List (sim_obj α) → Int → Option (List (sim_obj α))
  | [], _ => some []
  | s :: rest, sim_iteration =>
    match load_data_from_logfile E F l s sim_iteration with
    | none => none
    | some s1 => (load_all_data_from_logfiles E F l rest sim_iteration).map (fun r => s1 :: r)

/-! ## Queries -/

/-- The conversion of a `double` to `int`, truncating toward zero. -/
def to_int (q : α) : Int := if 0 ≤ q then ⌊q⌋ else ⌈q⌉

/-- The function `sim_obj::check_pose_with_environment`: `1` outside the environment,
else the occupancy code of the cell. -/
def check_pose_with_environment (env : EnvironmentDescription α) (pose_x pose_y pose_z : α) :
    Option Int :=
  if pose_x < env.min_coord.x ∨ pose_x > env.max_coord.x ∨ pose_y < env.min_coord.y ∨
      pose_y > env.max_coord.y ∨ pose_z < env.min_coord.z ∨ pose_z > env.max_coord.z then
    some 1
  else
    let x_idx := to_int ((pose_x - env.min_coord.x) / env.cell_size)
    let y_idx := to_int ((pose_y - env.min_coord.y) / env.cell_size)
    let z_idx := to_int ((pose_z - env.min_coord.z) / env.cell_size)
    if x_idx ≥ env.num_cells.x ∨ y_idx ≥ env.num_cells.y ∨ z_idx ≥ env.num_cells.z then some 1
    else
      match vec_at env.Env (indexFrom3D env x_idx y_idx z_idx) with
      | none => none
      | some c => some (c : Int)

/-- The value `distance` of `check_environment_for_obstacle`. -/
def path_distance (m : Libm α) (start_x start_y start_z end_x end_y end_z : α) : α :=
  m.sqrt ((end_x - start_x) * (end_x - start_x) + (end_y - start_y) * (end_y - start_y) +
    (end_z - start_z) * (end_z - start_z))

/-- The value `steps` of `check_environment_for_obstacle`: `ceil(distance / cell_size)`. -/
def path_steps (m : Libm α) (env : EnvironmentDescription α)
    (start_x start_y start_z end_x end_y end_z : α) : Int :=
  ⌈path_distance m start_x start_y start_z end_x end_y end_z / env.cell_size⌉

/-- One coordinate of the point the loop of `check_environment_for_obstacle` evaluates in
pass `i`: `start + vector * increment * i`, with `vector = (end - start) / distance` and
`increment = distance / steps`. -/
def path_pose (distance : α) (steps : Int) (start end_c : α) (i : Int) : α :=
  start + (end_c - start) / distance * (distance / (steps : α)) * (i : α)

/-- The occupancy code the loop of `check_environment_for_obstacle` reads for a point:
`Env[indexFrom3D(x_idx, y_idx, z_idx)]` with `idx = floor((pose - min) / cell_size)`. -/
def cell_code (env : EnvironmentDescription α) (pose_x pose_y pose_z : α) : Option Nat :=
  vec_at env.Env (indexFrom3D env ⌊(pose_x - env.min_coord.x) / env.cell_size⌋
    ⌊(pose_y - env.min_coord.y) / env.cell_size⌋ ⌊(pose_z - env.min_coord.z) / env.cell_size⌋)

/-- The loop `for (int i = 1; i < steps - 1; i++)` of `check_environment_for_obstacle`
over the values `i` takes: `false` at the first sampled cell that is not free. -/
def traverse_path (env : EnvironmentDescription α) (distance : α) (steps : Int)
    (start_x start_y start_z end_x end_y end_z : α) : List Int → Option Bool
  | [] => some true
  | i :: rest =>
    match cell_code env (path_pose distance steps start_x end_x i)
        (path_pose distance steps start_y end_y i) (path_pose distance steps start_z end_z i) with
    | none => none
    | some c =>
      if c ≠ 0 then some false
      else traverse_path env distance steps start_x start_y start_z end_x end_y end_z rest

/-- The values of `i` in `for (int i = 1; i < steps - 1; i++)`. -/
def loop_indices (steps : Int) : List Int :=
  (List.range (steps - 2).toNat).map (fun (k : Nat) => (k : Int) + 1)

/-- The function `sim_obj::check_environment_for_obstacle`. -/
def check_environment_for_obstacle (m : Libm α) (env : EnvironmentDescription α)
    (start_x start_y start_z end_x end_y end_z : α) : Option Bool :=
  match check_pose_with_environment env start_x start_y start_z with
  | none => none
  | some c1 =>
    if c1 ≠ 0 then some false
    else
      match check_pose_with_environment env end_x end_y end_z with
      | none => none
      | some c2 =>
        if c2 ≠ 0 then some false
        else
          traverse_path env (path_distance m start_x start_y start_z end_x end_y end_z)
            (path_steps m env start_x start_y start_z end_x end_y end_z)
            start_x start_y start_z end_x end_y end_z
            (loop_indices (path_steps m env start_x start_y start_z end_x end_y end_z))

/-- The function `sim_obj::concentration_from_filament`. -/
def concentration_from_filament (m : Libm α) (s : sim_obj α) (x y z : α)
    (filament : Filament α) : α :=
  let sigma := filament.sigma
  let distance_cm :=
    100 * m.sqrt ((x - filament.x) ^ 2 + (y - filament.y) ^ 2 + (z - filament.z) ^ 2)
  let num_moles_target_cm3 :=
    (s.total_moles_in_filament / (m.sqrt (8 * m.pi ^ 3) * sigma ^ 3)) *
      m.exp (-(distance_cm ^ 2) / (2 * sigma ^ 2))
  num_moles_target_cm3 / s.num_moles_all_gases_in_cm3 * 1000000

/-- The loop of `get_gas_concentration` over `activeFilaments`, from the running sum
`gas_conc`. -/
def sum_filaments (m : Libm α) (s : sim_obj α) (x y z : α) :
    List (Int × Filament α) → α → Option α
  | [], gas_conc => some gas_conc
  | (_, fil) :: rest, gas_conc =>
    let distSQR := (x - fil.x) * (x - fil.x) + (y - fil.y) * (y - fil.y) +
      (z - fil.z) * (z - fil.z)
    let limitDistance := fil.sigma * 5 / 100
    if distSQR < limitDistance * limitDistance then
      match check_environment_for_obstacle m s.envDesc x y z fil.x fil.y fil.z with
      | none => none
      | some true =>
        sum_filaments m s x y z rest (gas_conc + concentration_from_filament m s x y z fil)
      | some false => sum_filaments m s x y z rest gas_conc
    else sum_filaments m s x y z rest gas_conc

/-- The function `sim_obj::get_gas_concentration`. -/
def get_gas_concentration (m : Libm α) (s : sim_obj α) (x y z : α) : Option α :=
  let xx : Int := ⌈(x - s.envDesc.min_coord.x) / s.envDesc.cell_size⌉
  let yy : Int := ⌈(y - s.envDesc.min_coord.y) / s.envDesc.cell_size⌉
  let zz : Int := ⌈(z - s.envDesc.min_coord.z) / s.envDesc.cell_size⌉
  if xx < 0 ∨ xx > s.envDesc.num_cells.x ∨ yy < 0 ∨ yy > s.envDesc.num_cells.y ∨ zz < 0 ∨
      zz > s.envDesc.num_cells.z then
    some 0
  else if s.filament_log then sum_filaments m s x y z s.activeFilaments 0
  else vec_at s.C (indexFrom3D s.envDesc xx yy zz)

/-- The function `sim_obj::get_wind_value`: `u`, `v`, `w` are the output variables, given
with the values they hold before the call and returned with those they hold after it. -/
def get_wind_value (s : sim_obj α) (x y z : α) (u v w : α) : Option (α × α × α) :=
  if s.load_wind_data then
    let xx : Int := ⌈(x - s.envDesc.min_coord.x) / s.envDesc.cell_size⌉
    let yy : Int := ⌈(y - s.envDesc.min_coord.y) / s.envDesc.cell_size⌉
    let zz : Int := ⌈(z - s.envDesc.min_coord.z) / s.envDesc.cell_size⌉
    if xx < 0 ∨ xx > s.envDesc.num_cells.x ∨ yy < 0 ∨ yy > s.envDesc.num_cells.y ∨ zz < 0 ∨
        zz > s.envDesc.num_cells.z then
      some (u, v, w)
    else
      match vec_at s.U (indexFrom3D s.envDesc xx yy zz),
        vec_at s.V (indexFrom3D s.envDesc xx yy zz),
        vec_at s.W (indexFrom3D s.envDesc xx yy zz) with
      | some u1, some v1, some w1 => some (u1, v1, w1)
      | _, _, _ => none
  else some (u, v, w)

/-! ## Player -/

/-- The second loop of `get_all_gases_single_cell`:
`concentrationByGasType[inst.gas_type] += inst.get_gas_concentration(x, y, z)` over the
instances. -/
def add_concentrations (m : Libm α) (x y z : α) :
    List (sim_obj α) → List (List Char × α) → Option (List (List Char × α))
  | [], byType => some byType
  | s :: rest, byType =>
    match get_gas_concentration m s x y z with
    | none => none
    | some c =>
      add_concentrations m x y z rest
        (map_assign s.gas_type (map_at byType s.gas_type + c) byType)

/-- The function `Player::get_all_gases_single_cell`, returning the `concentration` list
of the response; `player_instances` holds the `num_simulators` instances. -/
def get_all_gases_single_cell (m : Libm α) (player_instances : List (sim_obj α))
    (x y z : α) (gas_types : List (List Char)) : Option (List α) :=
  let concentrationByGasType : List (List Char × α) :=
    gas_types.foldl (fun byType g => map_assign g 0 byType) []
  match add_concentrations m x y z player_instances concentrationByGasType with
  | none => none
  | some byType => some (gas_types.map (fun g => map_at byType g))

/-- The playback parameters `Player::run` reads. -/
structure PlaybackParams where
  initial_iteration : Int
  allow_looping : Bool
  loop_from_iteration : Int
  loop_to_iteration : Int
deriving DecidableEq, Repr

/-- The update of `iteration_counter` after a load in `Player::run`: the increment, then
the wrap when looping is allowed. -/
def next_iteration (p : PlaybackParams) (iteration_counter : Int) : Int :=
  let c := iteration_counter + 1
  if p.allow_looping then
    if c ≥ p.loop_to_iteration then p.loop_from_iteration else c
  else c

/-- The loop of `Player::run` over a finite run of passes: `due` tells for each pass
whether `1 / player_freq` seconds have elapsed since the last load. The result lists the
arguments of the calls `load_all_data_from_logfiles(iteration_counter)` in order. -/
def run_loop (p : PlaybackParams) : List Bool → Int → List Int
  | [], _ => []
  | true :: due, iteration_counter =>
    iteration_counter :: run_loop p due (next_iteration p iteration_counter)
  | false :: due, iteration_counter => run_loop p due iteration_counter

/-- The function `Player::run`, as the iterations it loads. -/
def run (p : PlaybackParams) (due : List Bool) : List Int := run_loop p due p.initial_iteration

end model

/-! ## Concrete inputs -/

/-- A first text frame: the eight header lines (bounds `(0,0,0)`–`(2,2,2)`, `2×2×2` cells
of size `1`, source `(0.5,0.5,0.5)`, gas `ethanol`, two unused lines) and the data line
`0 0 0 500 10 20 30`. -/
def ethanol_frame : List Char :=
  ("env_min(m) 0 0 0\nenv_max(m) 2 2 2\nNumCells_XYZ 2 2 2\nCellSizes(m) 1\n" ++
    "GasSourceLocation_XYZ(m) 0.5 0.5 0.5\nGasType ethanol\nreserved\nreserved\n" ++
    "0 0 0 500 10 20 30\n").toList

/-- An occupancy reader that succeeds with `n` free cells and keeps the geometry of the
frame header, and a table without names. As a stand-in for the decoding of a `double`,
eight bytes are read as their little-endian integer value. -/
def free_env (n : Nat) : Externals ℚ where
  readEnvFile := fun e => (ReadResult.OK, { e with Env := List.replicate n 0 })
  gasTypesByCode := fun _ => []
  to_double := fun b => (le_value b : ℚ)
  overlay_double := fun old _ => old

/-- Memory filled with zeros, before the constructor runs. -/
def blank : sim_obj ℚ where
  gas_type := []
  simulation_filename := []
  source_pos_x := 0
  source_pos_y := 0
  source_pos_z := 0
  load_wind_data := false
  first_reading := false
  filament_log := false
  envDesc := ⟨⟨0, 0, 0⟩, ⟨0, 0, 0⟩, ⟨0, 0, 0⟩, 0, []⟩
  C := []
  U := []
  V := []
  W := []
  activeFilaments := []
  total_moles_in_filament := 0
  num_moles_all_gases_in_cm3 := 0
  last_wind_idx := 0

/-- A folder whose frame files are the given payloads, `iteration_0`, `iteration_1`, ...,
and that has no wind file. -/
def frames_only (payloads : List (List Char)) : Files ℚ where
  frame := fun _ i => if 0 ≤ i then payloads.get? i.toNat else none
  wind := fun _ _ => none

/-- Locals that hold zeros on entry. -/
def zero_locals : Locals ℚ := ⟨0, 0, 0, 0, 0, 0, 0⟩

/-- The wind-holding instance after its first frame, `ethanol_frame`. -/
def after_ethanol : Option (sim_obj ℚ) :=
  (sim_obj.create blank [] true true).bind
    (fun s => load_data_from_logfile (free_env 8) (frames_only [ethanol_frame]) zero_locals s 0)

/-- An instance in filament mode over the given environment, with both normalisation
constants `1` and the given filaments. -/
def filament_instance {α : Type} [Field α] (env : EnvironmentDescription α)
    (fils : List (Int × Filament α)) : sim_obj α where
  gas_type := []
  simulation_filename := []
  source_pos_x := 0
  source_pos_y := 0
  source_pos_z := 0
  load_wind_data := false
  first_reading := false
  filament_log := true
  envDesc := env
  C := []
  U := []
  V := []
  W := []
  activeFilaments := fils
  total_moles_in_filament := 1
  num_moles_all_gases_in_cm3 := 1
  last_wind_idx := 0

/-- An environment without cells. -/
def empty_env {α : Type} [Field α] : EnvironmentDescription α :=
  ⟨⟨0, 0, 0⟩, ⟨0, 0, 0⟩, ⟨0, 0, 0⟩, 1, []⟩

/-- A dense-mode instance of the given gas type over a single cell of size `1` at the
origin, holding concentration `c`. -/
def dense_instance (gas : List Char) (c : ℚ) : sim_obj ℚ :=
  { blank with
    gas_type := gas
    envDesc := ⟨⟨0, 0, 0⟩, ⟨1, 1, 1⟩, ⟨1, 1, 1⟩, 1, [0]⟩
    C := [c] }

/-- A C library over `ℚ` for evaluation: `sqrt` is exact on squares of rationals, `exp`
and `pi` are stand-ins. -/
def libm_q : Libm ℚ where
  sqrt := fun q => if q ≤ 0 then 0 else (Nat.sqrt q.num.toNat : ℚ) / (Nat.sqrt q.den : ℚ)
  exp := fun _ => 1
  pi := 22 / 7

/-- A wind-holding instance with two cells: `U = [1,2]`, `V = [3,4]`, `W = [5,6]`, cached
wind index `0`. -/
def wind_instance : sim_obj ℚ :=
  { blank with
    load_wind_data := true
    U := [1, 2]
    V := [3, 4]
    W := [5, 6] }

/-- A folder with a complete wind file of index `1` (six doubles) and a short one of
index `2` (three doubles); no other wind file, no frame file. -/
def wind_files : Files ℚ where
  frame := fun _ _ => none
  wind := fun _ k =>
    if k = 1 then some [7, 8, 9, 10, 11, 12] else if k = 2 then some [9, 9, 9] else none

/-- The test `check == 1` of `load_data_from_logfile` on a payload: whether the frame is
read as binary. -/
def is_binary_frame (bytes : List Char) : Bool :=
  decide (((istream.of bytes).read_int 0).1 = 1)

/-- Successive calls `load_data_from_logfile(n)` on one instance, for the iterations of
the list in order. -/
def load_frames {α : Type} [LinearOrderedField α] [FloorRing α] (E : Externals α)
    (F : Files α) (l : Locals α) : sim_obj α → List Int → Option (sim_obj α)
  | s, [] => some s
  | s, n :: rest =>
    match load_data_from_logfile E F l s n with
    | none => none
    | some s1 => load_frames E F l s1 rest

/-- A binary frame that is not the first of its instance: the tag `1`, 128 header bytes
(skipped), the wind index `0`, and no filament record. -/
def empty_binary_frame : List Char :=
  Char.ofNat 1 :: List.replicate 135 (Char.ofNat 0)

/-- The wind-holding instance as the constructor leaves it. -/
def fresh_instance : sim_obj ℚ :=
  { blank with
    gas_type := "unknown".toList
    load_wind_data := true
    first_reading := true }

/-- The frame condition of the loaders below `load_data_from_logfile`: they leave the mode
flag and the folder name as they are. -/
def same_mode {α : Type} (s s1 : sim_obj α) : Prop :=
  s1.filament_log = s.filament_log ∧ s1.simulation_filename = s.simulation_filename

/-- The bytes of one filament record of a binary frame, field by field:
`(filament_index: int32, x, y, z: double, sigma: double)`. -/
structure filament_record where
  index : List Char
  x : List Char
  y : List Char
  z : List Char
  sigma : List Char

/-- A record whose fields have the sizes of an `int` and of four `double`s. -/
def filament_record.well_formed (r : filament_record) : Prop :=
  r.index.length = 4 ∧ r.x.length = 8 ∧ r.y.length = 8 ∧ r.z.length = 8 ∧ r.sigma.length = 8

/-- The 36 bytes of a record in the frame. -/
def filament_record.bytes (r : filament_record) : List Char :=
  r.index ++ (r.x ++ (r.y ++ (r.z ++ r.sigma)))

/-- The key and the filament a record stands for. -/
def filament_record.decode {α : Type} (E : Externals α) (r : filament_record) :
    Int × Filament α :=
  (to_int32 r.index, ⟨E.to_double r.x, E.to_double r.y, E.to_double r.z, E.to_double r.sigma⟩)

/-- The bytes of all records of a frame, in order. -/
def records_bytes : List filament_record → List Char
  | [] => []
  | r :: rest => r.bytes ++ records_bytes rest

/-- Eight bytes with the given low byte and zeros above. -/
def low_byte8 (n : Nat) : List Char := Char.ofNat n :: List.replicate 7 (Char.ofNat 0)

/-- Two filament records, with indices `5` and `2`. -/
def two_records : List filament_record :=
  [⟨[Char.ofNat 5, Char.ofNat 0, Char.ofNat 0, Char.ofNat 0], low_byte8 1, low_byte8 2,
      low_byte8 3, low_byte8 4⟩,
    ⟨[Char.ofNat 2, Char.ofNat 0, Char.ofNat 0, Char.ofNat 0], low_byte8 6, low_byte8 7,
      low_byte8 8, low_byte8 9⟩]

/-- The tag `1` and 128 header bytes. -/
def binary_head : List Char := Char.ofNat 1 :: List.replicate 131 (Char.ofNat 0)

/-- An instance in filament mode, past its first frame, that still holds a filament with
index `9` of the frame before. -/
def stale_instance : sim_obj ℚ :=
  { blank with
    filament_log := true
    activeFilaments := [(9, ⟨1, 1, 1, 1⟩)] }

/-- A grid of `4×5×1` cells of size `1` from the origin, given by its occupancy codes. -/
def flat_grid {α : Type} [Field α] (codes : List Nat) : EnvironmentDescription α :=
  ⟨⟨0, 0, 0⟩, ⟨4, 5, 1⟩, ⟨4, 5, 1⟩, 1, codes⟩

/-- The `4×5×1` grid whose only obstacle is cell `(0,1,0)`, at linear index `4`. -/
def diag_env {α : Type} [Field α] : EnvironmentDescription α :=
  flat_grid [0, 0, 0, 0, 1, 0, 0, 0, 0, 0, 0, 0, 0, 0, 0, 0, 0, 0, 0, 0]

/-- The `4×5×1` grid whose only obstacle is cell `(1,1,0)`, at linear index `5`. -/
def blocked_env {α : Type} [Field α] : EnvironmentDescription α :=
  flat_grid [0, 0, 0, 0, 0, 1, 0, 0, 0, 0, 0, 0, 0, 0, 0, 0, 0, 0, 0, 0]

/-- The `4×5×1` grid without obstacle. -/
def open_env {α : Type} [Field α] : EnvironmentDescription α :=
  flat_grid (List.replicate 20 0)

/-- A filament at `(3.1, 4.1, 0.5)` with `sigma = 200`, that is a cutoff radius of 10 m. -/
def far_filament {α : Type} [Field α] : Filament α := ⟨31 / 10, 41 / 10, 1 / 2, 200⟩

/-- A binary payload: the tag `1`, 128 header bytes, the wind index `0` and the records of
`two_records`. -/
def two_record_payload : List Char :=
  binary_head ++ (List.replicate 4 (Char.ofNat 0) ++ records_bytes two_records)

/-- A binary payload that ends inside the wind index: tag, header, and two bytes. -/
def cut_in_wind_index : List Char :=
  binary_head ++ [Char.ofNat 0, Char.ofNat 0]

/-- A binary payload that ends inside its only filament record: tag, header, wind index
`0`, then the index `5`, the eight bytes of `x` and one byte of `y`. -/
def cut_in_record : List Char :=
  binary_head ++ (List.replicate 4 (Char.ofNat 0) ++
    ([Char.ofNat 5, Char.ofNat 0, Char.ofNat 0, Char.ofNat 0] ++ (low_byte8 1 ++ [Char.ofNat 2])))

/-- The loop of `Player::get_wind_value_srv` from pass `i` on, over the remaining entries of
`req->x`: each pass declares `double u, v, w;` without initialiser (`junk i` is what they
hold), calls `player_instances[0].get_wind_value(req->x[i], req->y[i], req->z[i], u, v, w)`
and appends `u`, `v`, `w` to the lists `res` of the response. An access past the end of
`player_instances`, `req->y` or `req->z` has no defined result. -/
def wind_value_loop {α : Type} [LinearOrderedField α] [FloorRing α]
    (player_instances : List (sim_obj α)) (junk : Nat → α × α × α) (req_y req_z : List α) :
    Nat → List α → List α × List α × List α → Option (List α × List α × List α)
  | _, [], res => some res
  | i, x :: rest, res =>
    match player_instances.get? 0, req_y.get? i, req_z.get? i with
    | some inst, some y, some z =>
      match get_wind_value inst x y z (junk i).1 (junk i).2.1 (junk i).2.2 with
      | none => none
      | some (u, v, w) =>
        wind_value_loop player_instances junk req_y req_z (i + 1) rest
          (res.1 ++ [u], res.2.1 ++ [v], res.2.2 ++ [w])
    | _, _, _ => none

/-- The function `Player::get_wind_value_srv`, returning the lists `u`, `v`, `w` of the
response, which is empty on entry. -/
def get_wind_value_srv {α : Type} [LinearOrderedField α] [FloorRing α]
    (player_instances : List (sim_obj α)) (junk : Nat → α × α × α)
    (req_x req_y req_z : List α) : Option (List α × List α × List α) :=
  wind_value_loop player_instances junk req_y req_z 0 req_x ([], [], [])

/-- The expression `(int)ceil((coord - min) / cell_size)` by which `get_gas_concentration`
and `get_wind_value` resolve one coordinate to a cell index. -/
def axis_index {α : Type} [LinearOrderedField α] [FloorRing α] (min cell_size coord : α) :
    Int :=
  ⌈(coord - min) / cell_size⌉

/-- A wind-holding instance over a single cell of size `1` at the origin, with wind
`(1, 2, 3)` in it. -/
def single_cell_wind : sim_obj ℚ :=
  { dense_instance [] 0 with
    load_wind_data := true
    U := [1]
    V := [2]
    W := [3] }

/-- A row of `4×1×1` cells of size `1` from the origin whose only obstacle is cell
`(2,0,0)`. -/
def row_env {α : Type} [Field α] : EnvironmentDescription α :=
  ⟨⟨0, 0, 0⟩, ⟨4, 1, 1⟩, ⟨4, 1, 1⟩, 1, [0, 0, 1, 0]⟩

/-- A text frame for the instance of `ethanol_frame`: the same eight header lines and the
data line `1 0 0 700 1 2 3`. -/
def later_frame : List Char :=
  ("env_min(m) 0 0 0\nenv_max(m) 2 2 2\nNumCells_XYZ 2 2 2\nCellSizes(m) 1\n" ++
    "GasSourceLocation_XYZ(m) 0.5 0.5 0.5\nGasType ethanol\nreserved\nreserved\n" ++
    "1 0 0 700 1 2 3\n").toList

/-- The call `s.insert(k)` of a `std::set`, kept in key order: a key already in the set is
not added again. -/
def set_insert {K : Type} [LinearOrder K] (k : K) : List K → List K
  | [] => [k]
  | k1 :: s =>
    if k < k1 then k :: k1 :: s
    else if k = k1 then k1 :: s
    else k1 :: set_insert k s

/-- The first loop of `Player::get_gas_value_srv`: `gas_types.insert(inst.gas_type)` over
the instances, then the copy of the set, in its order, to the vector `gast_types_v`. -/
def collect_gas_types {α : Type} (player_instances : List (sim_obj α)) : List (List Char) :=
  player_instances.foldl (fun gas_types inst => set_insert inst.gas_type gas_types) []

/-- The second loop of `Player::get_gas_value_srv` from pass `i` on, over the remaining
entries of `req->x`: each pass appends
`get_all_gases_single_cell(req->x[i], req->y[i], req->z[i], gast_types_v)` to
`res->positions`. An access past the end of `req->y` or `req->z` has no defined result. -/
def gas_value_loop {α : Type} [LinearOrderedField α] [FloorRing α] (m : Libm α)
    (player_instances : List (sim_obj α)) (gast_types_v : List (List Char))
    (req_y req_z : List α) : Nat → List α → List (List α) → Option (List (List α))
  | _, [], positions => some positions
  | i, x :: rest, positions =>
    match req_y.get? i, req_z.get? i with
    | some y, some z =>
      match get_all_gases_single_cell m player_instances x y z gast_types_v with
      | none => none
      | some cell =>
        gas_value_loop m player_instances gast_types_v req_y req_z (i + 1) rest
          (positions ++ [cell])
    | _, _ => none

/-- The function `Player::get_gas_value_srv`, returning the fields `gas_type` and
`positions` of the response (each position given by its `concentration` list), which is
empty on entry. -/
def get_gas_value_srv {α : Type} [LinearOrderedField α] [FloorRing α] (m : Libm α)
    (player_instances : List (sim_obj α)) (req_x req_y req_z : List α) :
    Option (List (List Char) × List (List α)) :=
  let gast_types_v := collect_gas_types player_instances
  match gas_value_loop m player_instances gast_types_v req_y req_z 0 req_x [] with
  | none => none
  | some positions => some (gast_types_v, positions)

/-! ## Theorems -/

set_option maxRecDepth 1000000 in
/-- C1 (the code departs from the claim): after the first text frame with the data line
`0 0 0 500 10 20 30` the value `0.5` and the wind `(0.01, 0.02, 0.03)` sit in cell
`(0,0,0)`, but the query at `(0.4, 0.4, 0.4)`, a point strictly inside that cell, resolves
by `ceil` to cell `(1,1,1)` and returns concentration `0` and wind `(0, 0, 0)`. The stored
values are returned at `(0, 0, 0)`, the lower corner of the cell. -/
theorem query_inside_cell_reads_next_cell (m : Libm ℚ) :
    after_ethanol.map (fun s => (s.envDesc.num_cells.x, s.envDesc.num_cells.y,
      s.envDesc.num_cells.z, s.envDesc.cell_size)) = some (2, 2, 2, 1) ∧
    after_ethanol.map (fun s => (s.C, s.U, s.V, s.W)) =
      some ([1 / 2, 0, 0, 0, 0, 0, 0, 0], [1 / 100, 0, 0, 0, 0, 0, 0, 0],
        [1 / 50, 0, 0, 0, 0, 0, 0, 0], [3 / 100, 0, 0, 0, 0, 0, 0, 0]) ∧
    after_ethanol.bind (fun s => get_gas_concentration m s (2 / 5) (2 / 5) (2 / 5)) = some 0 ∧
    after_ethanol.bind (fun s => get_wind_value s (2 / 5) (2 / 5) (2 / 5) 7 7 7) =
      some (0, 0, 0) ∧
    after_ethanol.bind (fun s => get_gas_concentration m s 0 0 0) = some (1 / 2) ∧
    after_ethanol.bind (fun s => get_wind_value s 0 0 0 7 7 7) =
      some (1 / 100, 1 / 50, 3 / 100) := by
  refine ⟨?_, ?_, ?_, ?_, ?_, ?_⟩ <;> with_unfolding_all rfl


/-! ### The puff model -/

/-- Over the reals `sqrt(8 π³ s⁶)` is `sqrt(8 π³) · s³` for `s ≥ 0`. -/
theorem sqrt_scale (s : ℝ) (hs : 0 ≤ s) :
    Real.sqrt (8 * Real.pi ^ 3 * s ^ 6) = Real.sqrt (8 * Real.pi ^ 3) * s ^ 3 := by
  have h6 : s ^ 6 = (s ^ 3) ^ 2 := by ring
  rw [Real.sqrt_mul (by positivity), h6, Real.sqrt_sq (by positivity)]

/-- C3 (counterexample): at `sigma = 4`, both constants `1` and the query point on the
filament, `concentration_from_filament` is `1 / (sqrt(8π³) · 64) · 1e6`, which is not the
value `1 / sqrt(8 · π³ · 4³) · exp(0) / 1 · 1e6` of the claim. -/
theorem sigma_cubed_under_root_fails :
    concentration_from_filament ⟨Real.sqrt, Real.exp, Real.pi⟩
        (filament_instance empty_env []) 0 0 0 ⟨0, 0, 0, 4⟩ ≠
      1 / Real.sqrt (8 * Real.pi ^ 3 * 4 ^ 3) *
        Real.exp (-(100 * Real.sqrt ((0 - 0) ^ 2 + (0 - 0) ^ 2 + (0 - 0) ^ 2)) ^ 2 /
          (2 * 4 ^ 2)) / 1 * 1000000 := by
  have h8 : Real.sqrt (8 * Real.pi ^ 3 * 4 ^ 3) = Real.sqrt (8 * Real.pi ^ 3) * 8 := by
    rw [Real.sqrt_mul (by positivity)]
    congr 1
    rw [show (4 : ℝ) ^ 3 = 8 ^ 2 by norm_num, Real.sqrt_sq (by norm_num)]
  simp only [concentration_from_filament, filament_instance, h8]
  simp
  exact ⟨by norm_num, (Real.sqrt_pos.mpr (by positivity)).ne'⟩

/-- C3 (amended): over the reals, for `sigma > 0`, `concentration_from_filament` returns
`total_moles_in_filament / sqrt(8·π³·sigma⁶) · exp(-distance_cm² / (2·sigma²)) /
num_moles_all_gases_in_cm3 · 1e6` with `distance_cm = 100 ·` Euclidean distance, and at the
filament position `total_moles_in_filament / sqrt(8·π³·sigma⁶) /
num_moles_all_gases_in_cm3 · 1e6`: the power of `sigma` under the root is six, that is
`sigma³` outside the root. -/
theorem puff_formula (s : sim_obj ℝ) (x y z : ℝ) (f : Filament ℝ) (hs : 0 < f.sigma) :
    concentration_from_filament ⟨Real.sqrt, Real.exp, Real.pi⟩ s x y z f =
      s.total_moles_in_filament / Real.sqrt (8 * Real.pi ^ 3 * f.sigma ^ 6) *
        Real.exp (-(100 * Real.sqrt ((x - f.x) ^ 2 + (y - f.y) ^ 2 + (z - f.z) ^ 2)) ^ 2 /
          (2 * f.sigma ^ 2)) / s.num_moles_all_gases_in_cm3 * 1000000 ∧
    concentration_from_filament ⟨Real.sqrt, Real.exp, Real.pi⟩ s f.x f.y f.z f =
      s.total_moles_in_filament / Real.sqrt (8 * Real.pi ^ 3 * f.sigma ^ 6) /
        s.num_moles_all_gases_in_cm3 * 1000000 := by
  constructor
  · simp only [concentration_from_filament, sqrt_scale f.sigma hs.le]
  · simp [concentration_from_filament, sqrt_scale f.sigma hs.le]

/-- C3 (witness): the amended formula at `sigma = 4`, query point `(3, 0, 0)`, filament at
the origin. -/
theorem puff_formula_witness :
    (0 : ℝ) < (Filament.mk 0 0 0 4 : Filament ℝ).sigma ∧
    concentration_from_filament ⟨Real.sqrt, Real.exp, Real.pi⟩
        (filament_instance empty_env []) 3 0 0 ⟨0, 0, 0, 4⟩ =
      1 / Real.sqrt (8 * Real.pi ^ 3 * 4 ^ 6) *
        Real.exp (-(100 * Real.sqrt ((3 - 0) ^ 2 + (0 - 0) ^ 2 + (0 - 0) ^ 2)) ^ 2 /
          (2 * 4 ^ 2)) / 1 * 1000000 :=
  ⟨by norm_num,
    (puff_formula (filament_instance empty_env []) 3 0 0 ⟨0, 0, 0, 4⟩ (by norm_num)).1⟩


/-! ### Aggregation over instances -/

section aggregation

variable {α : Type} [LinearOrderedField α] [FloorRing α]

/-- Reading a key after `m[k] = v`. -/
theorem map_at_assign {K V : Type} [LinearOrder K] [DecidableEq K] [Zero V] (k g : K) (v : V)
    (mp : List (K × V)) :
    map_at (map_assign k v mp) g = if g = k then v else map_at mp g := by
  induction mp with
  | nil => simp [map_assign, map_at]
  | cons p mp ih =>
    obtain ⟨k1, v1⟩ := p
    by_cases h1 : k < k1
    · simp only [map_assign, h1, if_true, map_at]
    · by_cases h2 : k = k1
      · subst h2
        simp only [map_assign, h1, if_false, if_true, map_at]
        split <;> rfl
      · simp only [map_assign, h1, h2, if_false, map_at, ih]
        by_cases h3 : g = k1
        · have : g ≠ k := fun h => h2 (h ▸ h3)
          simp [h3, this, Ne.symm h2]
        · simp [h3]

/-- After the first loop of `get_all_gases_single_cell` every key reads `0`. -/
theorem map_at_init {K V : Type} [LinearOrder K] [DecidableEq K] [Zero V] (gs : List K)
    (g : K) (mp : List (K × V)) (h : map_at mp g = 0) :
    map_at (gs.foldl (fun byType k => map_assign k 0 byType) mp) g = 0 := by
  induction gs generalizing mp with
  | nil => simpa using h
  | cons k gs ih =>
    simp only [List.foldl_cons]
    apply ih
    rw [map_at_assign]
    split
    · rfl
    · exact h

/-- The second loop of `get_all_gases_single_cell` adds to each key the concentrations of
the instances of that gas type. -/
theorem add_concentrations_at (m : Libm α) (x y z : α) (insts : List (sim_obj α))
    (h : ∀ s ∈ insts, ∃ c, get_gas_concentration m s x y z = some c)
    (byType : List (List Char × α)) :
    ∃ out, add_concentrations m x y z insts byType = some out ∧
      ∀ g, map_at out g = map_at byType g +
        ((insts.filter (fun s => s.gas_type = g)).map
          (fun s => (get_gas_concentration m s x y z).getD 0)).sum := by
  induction insts generalizing byType with
  | nil => exact ⟨byType, rfl, fun g => by simp⟩
  | cons s rest ih =>
    obtain ⟨c, hc⟩ := h s (List.mem_cons_self _ _)
    obtain ⟨out, hout, hsum⟩ := ih (fun t ht => h t (List.mem_cons_of_mem _ ht))
      (map_assign s.gas_type (map_at byType s.gas_type + c) byType)
    refine ⟨out, by simp [add_concentrations, hc, hout], fun g => ?_⟩
    rw [hsum g, map_at_assign]
    by_cases hg : g = s.gas_type
    · subst hg
      simp [hc, add_assoc]
    · have : ¬ s.gas_type = g := fun h => hg h.symm
      simp [hg, this]

/-- C4: when every instance answers the query, the entry `get_all_gases_single_cell`
reports for each requested gas type `g` is the sum of `get_gas_concentration` over
exactly the instances whose `gas_type` is `g`: instances of the same type add up,
instances of another type do not enter. -/
theorem get_all_gases_single_cell_sums (m : Libm α) (insts : List (sim_obj α)) (x y z : α)
    (gas_types : List (List Char))
    (h : ∀ s ∈ insts, ∃ c, get_gas_concentration m s x y z = some c) :
    get_all_gases_single_cell m insts x y z gas_types =
      some (gas_types.map (fun g =>
        ((insts.filter (fun s => s.gas_type = g)).map
          (fun s => (get_gas_concentration m s x y z).getD 0)).sum)) := by
  obtain ⟨out, hout, hsum⟩ := add_concentrations_at m x y z insts h
    (gas_types.foldl (fun byType g => map_assign g 0 byType) [])
  simp only [get_all_gases_single_cell, hout]
  congr 1
  apply List.map_congr_left
  intro g _
  rw [hsum g, map_at_init gas_types g [] rfl, zero_add]

end aggregation

set_option maxRecDepth 1000000 in
/-- C4 (witness): two methane instances holding `3` and `4` and an ethanol instance
holding `5`, queried at the origin for `[ethanol, methane]`, report `[5, 7]`. -/
theorem get_all_gases_single_cell_sums_witness :
    (∀ s ∈ [dense_instance "methane".toList 3, dense_instance "ethanol".toList 5,
        dense_instance "methane".toList 4],
      ∃ c, get_gas_concentration libm_q s 0 0 0 = some c) ∧
    get_all_gases_single_cell libm_q
        [dense_instance "methane".toList 3, dense_instance "ethanol".toList 5,
          dense_instance "methane".toList 4] 0 0 0 ["ethanol".toList, "methane".toList] =
      some (["ethanol".toList, "methane".toList].map (fun g =>
        (([dense_instance "methane".toList 3, dense_instance "ethanol".toList 5,
            dense_instance "methane".toList 4].filter (fun s => s.gas_type = g)).map
          (fun s => (get_gas_concentration libm_q s 0 0 0).getD 0)).sum)) ∧
    get_all_gases_single_cell libm_q
        [dense_instance "methane".toList 3, dense_instance "ethanol".toList 5,
          dense_instance "methane".toList 4] 0 0 0 ["ethanol".toList, "methane".toList] =
      some [5, 7] := by
  have h : ∀ s ∈ [dense_instance "methane".toList 3, dense_instance "ethanol".toList 5,
      dense_instance "methane".toList 4],
      ∃ c, get_gas_concentration libm_q s 0 0 0 = some c := by
    intro s hs
    simp only [List.mem_cons, List.mem_singleton, List.not_mem_nil, or_false] at hs
    rcases hs with rfl | rfl | rfl
    · exact ⟨3, by with_unfolding_all rfl⟩
    · exact ⟨5, by with_unfolding_all rfl⟩
    · exact ⟨4, by with_unfolding_all rfl⟩
  exact ⟨h, get_all_gases_single_cell_sums libm_q _ 0 0 0 _ h, by with_unfolding_all rfl⟩


/-! ### Queries outside the environment -/

section bounds

variable {α : Type} [LinearOrderedField α] [FloorRing α]

/-- The `ceil` index of a coordinate at least one cell below `min` is negative. -/
theorem ceil_idx_neg (mn cs c : α) (hcs : 0 < cs) (h : c ≤ mn - cs) :
    (⌈(c - mn) / cs⌉ : Int) < 0 := by
  have h1 : (c - mn) / cs ≤ ((-1 : Int) : α) := by
    rw [div_le_iff₀ hcs]
    push_cast
    linarith
  have := Int.ceil_le.mpr h1
  omega

/-- The `ceil` index of a coordinate above `min + n · cell_size` exceeds `n`. -/
theorem ceil_idx_gt (mn cs c : α) (n : Int) (hcs : 0 < cs) (h : mn + n * cs < c) :
    n < (⌈(c - mn) / cs⌉ : Int) := by
  rw [Int.lt_ceil, lt_div_iff₀ hcs]
  linarith

/-- C5 (amended): with `cell_size > 0`, for every query point with a coordinate at most
`min_coord - cell_size` or above `min_coord + num_cells · cell_size`, the guard of
`get_gas_concentration` fires and the function returns `0`, the value it also returns for
a cell that holds concentration `0`, in either mode and whatever is stored. -/
theorem get_gas_concentration_outside (m : Libm α) (s : sim_obj α) (x y z : α)
    (hcs : 0 < s.envDesc.cell_size)
    (h : x ≤ s.envDesc.min_coord.x - s.envDesc.cell_size ∨
      s.envDesc.min_coord.x + s.envDesc.num_cells.x * s.envDesc.cell_size < x ∨
      y ≤ s.envDesc.min_coord.y - s.envDesc.cell_size ∨
      s.envDesc.min_coord.y + s.envDesc.num_cells.y * s.envDesc.cell_size < y ∨
      z ≤ s.envDesc.min_coord.z - s.envDesc.cell_size ∨
      s.envDesc.min_coord.z + s.envDesc.num_cells.z * s.envDesc.cell_size < z) :
    get_gas_concentration m s x y z = some 0 := by
  unfold get_gas_concentration
  simp only []
  rw [if_pos]
  rcases h with h | h | h | h | h | h
  · exact Or.inl (ceil_idx_neg _ _ _ hcs h)
  · exact Or.inr (Or.inl (ceil_idx_gt _ _ _ _ hcs h))
  · exact Or.inr (Or.inr (Or.inl (ceil_idx_neg _ _ _ hcs h)))
  · exact Or.inr (Or.inr (Or.inr (Or.inl (ceil_idx_gt _ _ _ _ hcs h))))
  · exact Or.inr (Or.inr (Or.inr (Or.inr (Or.inl (ceil_idx_neg _ _ _ hcs h)))))
  · exact Or.inr (Or.inr (Or.inr (Or.inr (Or.inr (ceil_idx_gt _ _ _ _ hcs h)))))

end bounds

set_option maxRecDepth 1000000 in
/-- C5 (counterexample): on the instance loaded from `ethanol_frame` (bounds `(0,0,0)` to
`(2,2,2)`) the query at `(5,5,5)`, outside the bounds, returns `0`, as does the in-range
query at `(0.5,0.5,0.5)` whose cell holds `0`; and the query at `(-0.5,-0.5,-0.5)`, also
outside the bounds, passes the guard and returns `0.5`, as the in-range query at
`(0,0,0)` does. -/
theorem out_of_range_query_looks_valid :
    after_ethanol.map (fun s => (s.envDesc.min_coord.x, s.envDesc.min_coord.y,
      s.envDesc.min_coord.z, s.envDesc.max_coord.x, s.envDesc.max_coord.y,
      s.envDesc.max_coord.z)) = some (0, 0, 0, 2, 2, 2) ∧
    after_ethanol.bind (fun s => get_gas_concentration libm_q s 5 5 5) = some 0 ∧
    after_ethanol.bind (fun s => get_gas_concentration libm_q s (1 / 2) (1 / 2) (1 / 2)) =
      some 0 ∧
    after_ethanol.bind (fun s => get_gas_concentration libm_q s (-1 / 2) (-1 / 2) (-1 / 2)) =
      some (1 / 2) ∧
    after_ethanol.bind (fun s => get_gas_concentration libm_q s 0 0 0) = some (1 / 2) := by
  refine ⟨?_, ?_, ?_, ?_, ?_⟩ <;> with_unfolding_all rfl

/-- C5 (witness): the single-cell instance of size `1` at the origin, queried at
`(5, 0, 0)`. -/
theorem get_gas_concentration_outside_witness :
    (0 : ℚ) < (dense_instance [] 3).envDesc.cell_size ∧
    ((dense_instance [] 3).envDesc.min_coord.x +
      (dense_instance [] 3).envDesc.num_cells.x * (dense_instance [] 3).envDesc.cell_size < 5) ∧
    get_gas_concentration libm_q (dense_instance [] 3) 5 0 0 = some 0 :=
  ⟨by with_unfolding_all decide, by with_unfolding_all decide,
    get_gas_concentration_outside libm_q (dense_instance [] 3) 5 0 0
      (by with_unfolding_all decide) (Or.inr (Or.inl (by with_unfolding_all decide)))⟩


/-! ### The playback counter -/

/-- The first load of a run uses the counter the run starts from. -/
theorem run_loop_head (p : PlaybackParams) (due : List Bool) (c b : Int)
    (h : (run_loop p due c)[0]? = some b) : b = c := by
  induction due with
  | nil => simp [run_loop] at h
  | cons d due ih =>
    cases d
    · exact ih (by simpa [run_loop] using h)
    · simpa [run_loop, eq_comm] using h

/-- Each load uses the counter `next_iteration` left after the load before it. -/
theorem run_loop_succ (p : PlaybackParams) (due : List Bool) (c : Int) (k : Nat) (a b : Int)
    (ha : (run_loop p due c)[k]? = some a) (hb : (run_loop p due c)[k + 1]? = some b) :
    b = next_iteration p a := by
  induction due generalizing c k with
  | nil => simp [run_loop] at ha
  | cons d due ih =>
    cases d
    · exact ih c k (by simpa [run_loop] using ha) (by simpa [run_loop] using hb)
    · cases k with
      | zero =>
        have hac : a = c := by simpa [run_loop, eq_comm] using ha
        subst hac
        exact run_loop_head p due _ b (by simpa [run_loop] using hb)
      | succ k =>
        exact ih _ k (by simpa [run_loop] using ha) (by simpa [run_loop] using hb)

/-- With looping, a counter below `loop_to_iteration` stays below it. -/
theorem run_loop_lt (init from_i to_i : Int) (hft : from_i < to_i) (due : List Bool) (c : Int)
    (hc : c < to_i) : ∀ i ∈ run_loop ⟨init, true, from_i, to_i⟩ due c, i < to_i := by
  induction due generalizing c with
  | nil => simp [run_loop]
  | cons d due ih =>
    cases d
    · simpa [run_loop] using ih c hc
    · intro i hi
      simp only [run_loop, List.mem_cons] at hi
      rcases hi with rfl | hi
      · exact hc
      · refine ih _ ?_ i hi
        simp only [next_iteration, if_true]
        split <;> omega

/-- Without looping the `k`-th load from counter `c` is iteration `c + k`. -/
theorem run_loop_nth (init from_i to_i : Int) (due : List Bool) (c : Int) (k : Nat)
    (hk : k < (run_loop ⟨init, false, from_i, to_i⟩ due c).length) :
    (run_loop ⟨init, false, from_i, to_i⟩ due c)[k]? = some (c + k) := by
  induction due generalizing c k with
  | nil => simp [run_loop] at hk
  | cons d due ih =>
    cases d
    · exact ih c k (by simpa [run_loop] using hk)
    · cases k with
      | zero => simp [run_loop]
      | succ k =>
        have := ih (next_iteration ⟨init, false, from_i, to_i⟩ c) k
          (by simpa [run_loop] using hk)
        rw [run_loop, List.getElem?_cons_succ, this]
        simp only [next_iteration, Bool.false_eq_true, if_false, Nat.cast_add, Nat.cast_one]
        congr 1
        ring

/-- Every due pass loads exactly one iteration. -/
theorem run_loop_length (p : PlaybackParams) (due : List Bool) (c : Int) :
    (run_loop p due c).length = due.count true := by
  induction due generalizing c with
  | nil => rfl
  | cons d due ih => cases d <;> simp [run_loop, ih]

/-- C6: in the playback loop of `Player::run`, with looping enabled,
`loop_from_iteration < loop_to_iteration` and `initial_iteration < loop_to_iteration`,
every iteration passed to `load_all_data_from_logfiles` is below `loop_to_iteration`, and
the iteration loaded right after `loop_to_iteration - 1` is `loop_from_iteration`; with
looping disabled the `k`-th loaded iteration is `initial_iteration + k`. Every pass that
is due loads one iteration. -/
theorem run_iterations (init from_i to_i : Int) (due : List Bool) :
    (from_i < to_i → init < to_i →
      (∀ i ∈ run ⟨init, true, from_i, to_i⟩ due, i < to_i) ∧
      (∀ k b, (run ⟨init, true, from_i, to_i⟩ due)[k]? = some (to_i - 1) →
        (run ⟨init, true, from_i, to_i⟩ due)[k + 1]? = some b → b = from_i)) ∧
    (∀ k, k < (run ⟨init, false, from_i, to_i⟩ due).length →
      (run ⟨init, false, from_i, to_i⟩ due)[k]? = some (init + k)) ∧
    (∀ looping, (run ⟨init, looping, from_i, to_i⟩ due).length = due.count true) := by
  refine ⟨fun hft hit => ⟨run_loop_lt init from_i to_i hft due init hit, fun k b ha hb => ?_⟩,
    fun k hk => run_loop_nth init from_i to_i due init k hk,
    fun looping => run_loop_length _ due _⟩
  have := run_loop_succ _ due init k _ b ha hb
  simpa [next_iteration] using this

/-- C6 (witness): the window `[5, 10)` from iteration `8`: the loads are `8, 9, 5, 6`, and
`8, 9, 10, 11` without looping. -/
theorem run_iterations_witness :
    ((5 : Int) < 10 ∧ (8 : Int) < 10) ∧
    ((∀ i ∈ run ⟨8, true, 5, 10⟩ [true, false, true, true, true], i < 10) ∧
      (∀ k b, (run ⟨8, true, 5, 10⟩ [true, false, true, true, true])[k]? = some ((10 : Int) - 1) →
        (run ⟨8, true, 5, 10⟩ [true, false, true, true, true])[k + 1]? = some b → b = 5)) ∧
    run ⟨8, true, 5, 10⟩ [true, false, true, true, true] = [8, 9, 5, 6] ∧
    run ⟨8, false, 5, 10⟩ [true, false, true, true, true] = [8, 9, 10, 11] :=
  ⟨⟨by decide, by decide⟩,
    (run_iterations 8 5 10 [true, false, true, true, true]).1 (by decide) (by decide),
    by decide, by decide⟩


/-! ### The wind cache -/

section wind

variable {α : Type}

/-- An array read that stays inside the array has a defined result. -/
theorem read_array_some (A : List α) (n : Nat) (rest : Option (List α)) (h : n ≤ A.length) :
    ∃ r, read_array A n rest = some r := by
  cases rest with
  | none => exact ⟨_, rfl⟩
  | some data =>
    simp only [read_array, not_lt.mpr h, if_false]
    split <;> exact ⟨_, rfl⟩

/-- The three array reads of `load_wind_file` on a file that holds fewer doubles than the
three arrays together: the file overwrites the leading cells of `U`, `V`, `W` taken in
this order, the other cells stay. -/
theorem read_three (U V W data : List α) (hV : V.length = U.length)
    (hW : W.length = U.length) (hshort : data.length < 3 * U.length) :
    ∃ ru rv rw, read_array U U.length (some data) = some ru ∧
      read_array V U.length ru.2 = some rv ∧ read_array W U.length rv.2 = some rw ∧
      ru.1 ++ rv.1 ++ rw.1 = data ++ (U ++ V ++ W).drop data.length := by
  have hdrop : (U ++ V ++ W).drop data.length =
      U.drop data.length ++ V.drop (data.length - U.length) ++
        W.drop (data.length - U.length - U.length) := by
    simp [List.drop_append_eq_append_drop, hV, Nat.sub_sub]
  rw [hdrop]
  by_cases h1 : U.length ≤ data.length
  · by_cases h2 : U.length ≤ data.length - U.length
    · refine ⟨(data.take U.length ++ U.drop U.length, some (data.drop U.length)),
        ((data.drop U.length).take U.length ++ V.drop U.length,
          some ((data.drop U.length).drop U.length)),
        ((data.drop U.length).drop U.length ++
          W.drop ((data.drop U.length).drop U.length).length, none), ?_, ?_, ?_, ?_⟩
      · simp [read_array, h1]
      · simp [read_array, hV, h2]
      · have h3 : ¬ U.length ≤ data.length - (U.length + U.length) := by omega
        simp [read_array, hW, h3]
      · have e1 : U.drop data.length = [] := List.drop_eq_nil_of_le h1
        have e2 : V.drop (data.length - U.length) = [] :=
          List.drop_eq_nil_of_le (by omega)
        have e3 : V.drop U.length = [] := List.drop_eq_nil_of_le (by omega)
        simp only [List.drop_drop, List.length_drop, e1, e2, e3, List.drop_length,
          List.append_nil, List.nil_append]
        have e4 : data.length - (U.length + U.length) = data.length - U.length - U.length := by
          omega
        rw [e4]
        have e5 : List.drop (U.length + U.length) data =
            List.drop U.length (List.drop U.length data) := by rw [List.drop_drop]
        have e6 : List.take U.length data ++ List.take U.length (List.drop U.length data) ++
            List.drop (U.length + U.length) data = data := by
          rw [e5, List.append_assoc, List.take_append_drop, List.take_append_drop]
        generalize List.drop (data.length - U.length - U.length) W = tail
        conv_rhs => rw [← e6]
        simp only [List.append_assoc]
    · refine ⟨(data.take U.length ++ U.drop U.length, some (data.drop U.length)),
        (data.drop U.length ++ V.drop (data.drop U.length).length, none), (W, none),
        ?_, ?_, ?_, ?_⟩
      · simp [read_array, h1]
      · simp [read_array, hV, h2]
      · simp [read_array]
      · have e1 : U.drop data.length = [] := List.drop_eq_nil_of_le h1
        have e4 : data.length - U.length - U.length = 0 := by omega
        simp only [List.length_drop, e1, e4, List.drop_zero, List.drop_length,
          List.append_nil, List.nil_append]
        rw [← List.append_assoc, ← List.append_assoc, List.take_append_drop]
  · refine ⟨(data ++ U.drop data.length, none), (V, none), (W, none), ?_, ?_, ?_, ?_⟩
    · simp [read_array, h1]
    · simp [read_array]
    · simp [read_array]
    · have e1 : data.length - U.length = 0 := by omega
      simp [e1]

/-- C7: `load_wind_file(k)` with `k` equal to `last_wind_idx` returns the instance as it
is (so `U`, `V`, `W` and `last_wind_idx` are unchanged) and opens no wind file; with `k`
different from `last_wind_idx`, on an instance whose arrays `V` and `W` are at least as
long as `U` (`configure_environment` gives the three the same size), it opens the wind
file for `k` once, and only that file, and sets `last_wind_idx` to `k`. -/
theorem load_wind_file_cache (F : Files α) (s : sim_obj α) (k : Int) :
    (k = s.last_wind_idx → load_wind_file F s k = some (s, [])) ∧
    (k ≠ s.last_wind_idx → s.U.length ≤ s.V.length → s.U.length ≤ s.W.length →
      ∃ s1, load_wind_file F s k = some (s1, [k]) ∧ s1.last_wind_idx = k) := by
  constructor
  · intro h
    simp [load_wind_file, h]
  · intro h hV hW
    obtain ⟨ru, hu⟩ := read_array_some s.U s.U.length (F.wind s.simulation_filename k) le_rfl
    obtain ⟨rv, hv⟩ := read_array_some s.V s.U.length ru.2 hV
    obtain ⟨rw, hw⟩ := read_array_some s.W s.U.length rv.2 hW
    simp only [load_wind_file, h, if_false, hu, hv, hw]
    exact ⟨_, rfl, rfl⟩

/-- C8 (amended): for a wind index different from the cached one, a missing wind file
leaves `U`, `V` and `W` exactly as they were (only `last_wind_idx` becomes `k`); a file
that holds fewer than `3·|U|` doubles is copied as far as it goes: the leading cells of
`U`, `V`, `W`, taken in this order, are overwritten with its doubles and the remaining
cells keep their values. -/
theorem load_wind_file_failure (F : Files α) (s : sim_obj α) (k : Int)
    (hk : k ≠ s.last_wind_idx) :
    (F.wind s.simulation_filename k = none →
      load_wind_file F s k = some ({ s with last_wind_idx := k }, [k])) ∧
    (∀ data, F.wind s.simulation_filename k = some data →
      data.length < 3 * s.U.length → s.V.length = s.U.length → s.W.length = s.U.length →
      ∃ s1, load_wind_file F s k = some (s1, [k]) ∧
        s1.U ++ s1.V ++ s1.W = data ++ (s.U ++ s.V ++ s.W).drop data.length) := by
  constructor
  · intro hf
    simp [load_wind_file, hk, hf, read_array]
  · intro data hf hshort hV hW
    obtain ⟨ru, rv, rw, hu, hv, hw, hcat⟩ := read_three s.U s.V s.W data hV hW hshort
    simp only [load_wind_file, hk, if_false, hf, hu, hv, hw]
    exact ⟨_, rfl, hcat⟩

end wind

/-- C7 (witness): on `wind_instance` (cached index `0`) a load of index `0` changes
nothing and opens nothing; a load of index `1` opens that file once and fills the arrays. -/
theorem load_wind_file_cache_witness :
    ((0 : Int) = wind_instance.last_wind_idx ∧
      load_wind_file wind_files wind_instance 0 = some (wind_instance, [])) ∧
    (((1 : Int) ≠ wind_instance.last_wind_idx ∧
        wind_instance.U.length ≤ wind_instance.V.length ∧
        wind_instance.U.length ≤ wind_instance.W.length) ∧
      ∃ s1, load_wind_file wind_files wind_instance 1 = some (s1, [1]) ∧
        s1.last_wind_idx = 1) ∧
    (load_wind_file wind_files wind_instance 1).map
        (fun r => (r.1.U, r.1.V, r.1.W, r.1.last_wind_idx, r.2)) =
      some ([7, 8], [9, 10], [11, 12], 1, [1]) :=
  ⟨⟨by decide, (load_wind_file_cache wind_files wind_instance 0).1 (by decide)⟩,
    ⟨⟨by decide, by decide, by decide⟩,
      (load_wind_file_cache wind_files wind_instance 1).2 (by decide) (by decide)
        (by decide)⟩,
    by with_unfolding_all rfl⟩

/-- C8 (counterexample): `wind_instance` holds `U = [1,2]`, `V = [3,4]`, `W = [5,6]`; the
wind file of index `2` holds three doubles instead of six, and after `load_wind_file(2)`
the arrays are `U = [9,9]`, `V = [9,4]`, `W = [5,6]`: `U` and half of `V` are overwritten. -/
theorem short_wind_file_overwrites_arrays :
    (wind_instance.U, wind_instance.V, wind_instance.W) = ([1, 2], [3, 4], [5, 6]) ∧
    (2 : Int) ≠ wind_instance.last_wind_idx ∧
    wind_files.wind wind_instance.simulation_filename 2 = some [9, 9, 9] ∧
    (load_wind_file wind_files wind_instance 2).map (fun r => (r.1.U, r.1.V, r.1.W)) =
      some ([9, 9], [9, 4], [5, 6]) := by
  refine ⟨?_, by decide, ?_, ?_⟩ <;> with_unfolding_all rfl

/-- C8 (witness): on `wind_instance` the wind file of index `3` is missing and the load
leaves the arrays alone; the file of index `2` is short and overwrites the leading cells. -/
theorem load_wind_file_failure_witness :
    ((3 : Int) ≠ wind_instance.last_wind_idx ∧
      wind_files.wind wind_instance.simulation_filename 3 = none ∧
      load_wind_file wind_files wind_instance 3 =
        some ({ wind_instance with last_wind_idx := 3 }, [3])) ∧
    ((2 : Int) ≠ wind_instance.last_wind_idx ∧
      wind_files.wind wind_instance.simulation_filename 2 = some [9, 9, 9] ∧
      ([9, 9, 9] : List ℚ).length < 3 * wind_instance.U.length ∧
      wind_instance.V.length = wind_instance.U.length ∧
      wind_instance.W.length = wind_instance.U.length ∧
      ∃ s1, load_wind_file wind_files wind_instance 2 = some (s1, [2]) ∧
        s1.U ++ s1.V ++ s1.W =
          [9, 9, 9] ++ (wind_instance.U ++ wind_instance.V ++ wind_instance.W).drop
            ([9, 9, 9] : List ℚ).length) :=
  ⟨⟨by decide, rfl, (load_wind_file_failure wind_files wind_instance 3 (by decide)).1 rfl⟩,
    ⟨by decide, rfl, by decide, rfl, rfl,
      (load_wind_file_failure wind_files wind_instance 2 (by decide)).2 [9, 9, 9] rfl
        (by decide) rfl rfl⟩⟩


/-! ### The mode flag -/

section mode

variable {α : Type} [LinearOrderedField α]

/-- `configure_environment` keeps the mode flag and the folder name. -/
theorem configure_environment_mode (E : Externals α) (s s1 : sim_obj α)
    (h : configure_environment E s = some s1) : same_mode s s1 := by
  unfold configure_environment at h
  simp only [] at h
  split at h
  · exact absurd h (by simp)
  · split at h
    · exact absurd h (by simp)
    · rename_i s2 hs2
      split at h
      · injection h with h
        subst h
        by_cases hw : s.load_wind_data = true
        · simp only [hw, if_true] at hs2
          split at hs2
          · injection hs2 with hs2
            subst hs2
            exact ⟨rfl, rfl⟩
          · exact absurd hs2 (by simp)
        · simp only [hw] at hs2
          injection hs2 with hs2
          subst hs2
          exact ⟨rfl, rfl⟩
      · exact absurd h (by simp)

/-- `read_concentration_line` keeps the mode flag and the folder name. -/
theorem read_concentration_line_mode (s s1 : sim_obj α) (line : List Char)
    (h : read_concentration_line s line = some s1) : same_mode s s1 := by
  unfold read_concentration_line at h
  simp only [] at h
  split at h
  · exact absurd h (by simp)
  · split at h
    · split at h
      · injection h with h
        subst h
        exact ⟨rfl, rfl⟩
      · exact absurd h (by simp)
    · injection h with h
      subst h
      exact ⟨rfl, rfl⟩

/-- The line loop of `load_ascii_file` keeps the mode flag and the folder name. -/
theorem read_lines_mode (fuel : Nat) (s s1 : sim_obj α) (st : istream) (line : List Char)
    (h : read_lines fuel s st line = some s1) : same_mode s s1 := by
  induction fuel generalizing s st line with
  | zero => simp [read_lines] at h
  | succ fuel ih =>
    simp only [read_lines] at h
    split at h
    · exact absurd h (by simp)
    · rename_i s2 hs2
      have h2 := read_concentration_line_mode s s2 line hs2
      split at h
      · have h3 := ih _ _ _ h
        exact ⟨h3.1.trans h2.1, h3.2.trans h2.2⟩
      · injection h with h
        subst h
        exact h2


/-- `read_headers` keeps the mode flag and the folder name. -/
theorem read_headers_mode (E : Externals α) (s : sim_obj α) (st : istream) (line : List Char)
    (r : sim_obj α × istream × List Char) (h : read_headers E s st line = some r) :
    same_mode s r.1 := by
  unfold read_headers at h
  simp only [] at h
  split at h
  · exact absurd h (by simp)
  · rename_i s2 hs2
    injection h with h
    subst h
    have h2 := configure_environment_mode E _ s2 hs2
    exact ⟨h2.1, h2.2⟩

/-- `load_ascii_file` keeps the mode flag and the folder name. -/
theorem load_ascii_file_mode (E : Externals α) (s s1 : sim_obj α) (st : istream)
    (h : load_ascii_file E s st = some s1) : same_mode s s1 := by
  unfold load_ascii_file at h
  split at h
  · split at h
    · exact absurd h (by simp)
    · rename_i r hr
      have h1 := read_headers_mode E s st [] r hr
      have h2 := read_lines_mode _ _ _ _ _ h
      exact ⟨h2.1.trans h1.1, h2.2.trans h1.2⟩
  · exact read_lines_mode _ _ _ _ _ h

omit [LinearOrderedField α] in
/-- `load_wind_file` keeps the mode flag and the folder name. -/
theorem load_wind_file_mode (F : Files α) (s : sim_obj α) (k : Int)
    (r : sim_obj α × List Int) (h : load_wind_file F s k = some r) : same_mode s r.1 := by
  unfold load_wind_file at h
  split at h
  · injection h with h
    subst h
    exact ⟨rfl, rfl⟩
  · simp only [] at h
    split at h
    · exact absurd h (by simp)
    · split at h
      · exact absurd h (by simp)
      · split at h
        · exact absurd h (by simp)
        · injection h with h
          subst h
          exact ⟨rfl, rfl⟩

/-- The binary header keeps the mode flag and the folder name. -/
theorem read_binary_header_mode (E : Externals α) (l : Locals α) (s : sim_obj α)
    (st : istream) (r : sim_obj α × istream) (h : read_binary_header E l s st = some r) :
    same_mode s r.1 := by
  unfold read_binary_header at h
  simp only [] at h
  split at h
  · exact absurd h (by simp)
  · rename_i s2 hs2
    injection h with h
    subst h
    have h2 := configure_environment_mode E _ s2 hs2
    exact ⟨h2.1, h2.2⟩

/-- `load_binary_file` keeps the mode flag and the folder name. -/
theorem load_binary_file_mode (E : Externals α) (F : Files α) (l : Locals α)
    (s s1 : sim_obj α) (st : istream) (h : load_binary_file E F l s st = some s1) :
    same_mode s s1 := by
  unfold load_binary_file at h
  simp only [] at h
  split at h
  · exact absurd h (by simp)
  · rename_i hd hhd
    have h0 : same_mode s hd.1 := by
      by_cases hf : s.first_reading = true
      · simp only [hf, if_true] at hhd
        exact read_binary_header_mode E l s st hd hhd
      · simp only [hf] at hhd
        injection hhd with hhd
        subst hhd
        exact ⟨rfl, rfl⟩
    split at h
    · exact absurd h (by simp)
    · rename_i mp hmp
      simp only [Option.map_eq_some'] at h
      obtain ⟨r, hr, hr1⟩ := h
      have h1 := load_wind_file_mode F _ _ r hr
      subst hr1
      exact ⟨h1.1.trans h0.1, h1.2.trans h0.2⟩

/-- One call of `load_data_from_logfile`: the flag `filament_log` is set when it was set
before or the frame file exists and carries tag `1`; no frame clears it. -/
theorem load_data_from_logfile_mode [FloorRing α] (E : Externals α) (F : Files α)
    (l : Locals α) (s s1 : sim_obj α) (n : Int)
    (h : load_data_from_logfile E F l s n = some s1) :
    s1.simulation_filename = s.simulation_filename ∧
    s1.filament_log = (s.filament_log ||
      match F.frame s.simulation_filename n with
      | some bytes => is_binary_frame bytes
      | none => false) := by
  unfold load_data_from_logfile at h
  split at h
  · rename_i hf
    injection h with h
    subst h
    simp [hf]
  · rename_i bytes hf
    simp only [] at h
    by_cases hc : ((istream.of bytes).read_int 0).1 = 1
    · simp only [hc, if_true] at h
      have h1 := load_binary_file_mode E F l _ s1 _ h
      simp [hf, is_binary_frame, hc, h1.1, h1.2]
    · simp only [hc, if_false] at h
      have h1 := load_ascii_file_mode E s s1 _ h
      simp [hf, is_binary_frame, hc, h1.1, h1.2]

/-- C9 (amended): after any sequence of frames fed to `load_data_from_logfile` on one
instance, `filament_log` is set exactly when it was set before the sequence or some frame
of the sequence that exists carries tag `1`. The flag is never cleared: an instance whose
first decoded frame is binary stays in filament mode, and an instance whose first frame is
text switches to filament mode at the first later frame with tag `1`. -/
theorem load_frames_mode [FloorRing α] (E : Externals α) (F : Files α) (l : Locals α)
    (s s1 : sim_obj α) (its : List Int) (h : load_frames E F l s its = some s1) :
    s1.filament_log = (s.filament_log || its.any (fun n =>
      match F.frame s.simulation_filename n with
      | some bytes => is_binary_frame bytes
      | none => false)) := by
  induction its generalizing s with
  | nil =>
    simp only [load_frames] at h
    injection h with h
    subst h
    simp
  | cons n rest ih =>
    simp only [load_frames] at h
    split at h
    · exact absurd h (by simp)
    · rename_i s2 hs2
      have h1 := load_data_from_logfile_mode E F l s s2 n hs2
      rw [ih s2 h, h1.1, h1.2, List.any_cons, Bool.or_assoc]

end mode

set_option maxRecDepth 1000000 in
/-- C9 (counterexample): the wind-holding instance decodes the text frame `ethanol_frame`
first and is in dense mode (`filament_log = false`, the query at the origin returns the
stored `0.5`); the next frame carries tag `1`, and after it `filament_log = true`: the
same query now sums over the (empty) filament set and returns `0`. -/
theorem later_binary_frame_switches_mode :
    sim_obj.create blank [] true true = some fresh_instance ∧
    is_binary_frame ethanol_frame = false ∧
    is_binary_frame empty_binary_frame = true ∧
    (load_frames (free_env 8) (frames_only [ethanol_frame, empty_binary_frame]) zero_locals
      fresh_instance [0]).map (fun s => s.filament_log) = some false ∧
    (load_frames (free_env 8) (frames_only [ethanol_frame, empty_binary_frame]) zero_locals
      fresh_instance [0, 1]).map (fun s => s.filament_log) = some true ∧
    (load_frames (free_env 8) (frames_only [ethanol_frame, empty_binary_frame]) zero_locals
      fresh_instance [0]).bind (fun s => get_gas_concentration libm_q s 0 0 0) =
        some (1 / 2) ∧
    (load_frames (free_env 8) (frames_only [ethanol_frame, empty_binary_frame]) zero_locals
      fresh_instance [0, 1]).bind (fun s => get_gas_concentration libm_q s 0 0 0) =
        some 0 := by
  refine ⟨?_, ?_, ?_, ?_, ?_, ?_, ?_⟩ <;> with_unfolding_all rfl


set_option maxRecDepth 1000000 in
/-- C9 (witness): the text frame followed by the binary frame, from the fresh instance. -/
theorem load_frames_mode_witness :
    ∃ s1, load_frames (free_env 8) (frames_only [ethanol_frame, empty_binary_frame])
        zero_locals fresh_instance [0, 1] = some s1 ∧
      s1.filament_log = (fresh_instance.filament_log || [(0 : Int), 1].any (fun n =>
        match (frames_only [ethanol_frame, empty_binary_frame]).frame
          fresh_instance.simulation_filename n with
        | some bytes => is_binary_frame bytes
        | none => false)) := by
  obtain ⟨s1, h1⟩ := Option.isSome_iff_exists.mp
    (show (load_frames (free_env 8) (frames_only [ethanol_frame, empty_binary_frame])
      zero_locals fresh_instance [0, 1]).isSome = true from by with_unfolding_all rfl)
  exact ⟨s1, h1, load_frames_mode _ _ _ _ s1 _ h1⟩


/-! ### The filament set of a binary frame -/

section filaments

variable {α : Type}

/-- A `read` of `n` bytes that the stream holds: the bytes, and the stream after them. -/
theorem read_of_drop (buf a rest old : List Char) (p n : Nat) (h : buf.drop p = a ++ rest)
    (ha : a.length = n) :
    (istream.mk buf p false false).read n old = (a, istream.mk buf (p + n) false false) ∧
      buf.drop (p + n) = rest := by
  have h1 : (buf.drop p).take n = a := by rw [h, ← ha, List.take_left]
  have h2 : buf.drop (p + n) = rest := by
    rw [← List.drop_drop, h, ← ha, List.drop_left]
  refine ⟨?_, h2⟩
  simp [istream.read, istream.good, h1, ha]

/-- A `read_int` on four bytes that the stream holds. -/
theorem read_int_of_drop (buf a rest : List Char) (p : Nat) (old : Int)
    (h : buf.drop p = a ++ rest) (ha : a.length = 4) :
    (istream.mk buf p false false).read_int old =
        (to_int32 a, istream.mk buf (p + 4) false false) ∧
      buf.drop (p + 4) = rest := by
  obtain ⟨h1, h2⟩ := read_of_drop buf a rest (int32_bytes old) p 4 h ha
  exact ⟨by simp [istream.read_int, h1], h2⟩

/-- A `read_double` on eight bytes that the stream holds. -/
theorem read_double_of_drop (E : Externals α) (buf a rest : List Char) (p : Nat) (old : α)
    (h : buf.drop p = a ++ rest) (ha : a.length = 8) :
    (istream.mk buf p false false).read_double E old =
        (E.to_double a, istream.mk buf (p + 8) false false) ∧
      buf.drop (p + 8) = rest := by
  obtain ⟨h1, h2⟩ := read_of_drop buf a rest [] p 8 h ha
  exact ⟨by simp [istream.read_double, h1, ha], h2⟩

/-- The record loop of `load_binary_file` on a stream that holds whole records up to its
end: every record is inserted, in order, and the bound on the passes is not reached. -/
theorem read_filaments_records (E : Externals α) (buf : List Char)
    (recs : List filament_record) (hwf : ∀ r ∈ recs, r.well_formed) (p fuel : Nat)
    (l : Locals α) (mp : List (Int × Filament α)) (h : buf.drop p = records_bytes recs)
    (hfuel : recs.length < fuel) :
    read_filaments E fuel (istream.mk buf p false false) l mp =
      some (recs.foldl (fun acc r => map_insert (r.decode E).1 (r.decode E).2 acc) mp) := by
  induction recs generalizing p fuel l mp with
  | nil =>
    cases fuel with
    | zero => simp at hfuel
    | succ fuel =>
      simp only [records_bytes] at h
      simp [read_filaments, istream.peek, istream.good, h]
  | cons r recs ih =>
    cases fuel with
    | zero => simp at hfuel
    | succ fuel =>
      obtain ⟨w1, w2, w3, w4, w5⟩ := hwf r (List.mem_cons_self _ _)
      simp only [records_bytes, filament_record.bytes, List.append_assoc] at h
      obtain ⟨c, cs, hc⟩ : ∃ c cs, r.index = c :: cs := by
        cases hi : r.index with
        | nil => simp [hi] at w1
        | cons c cs => exact ⟨c, cs, rfl⟩
      have hpeek : (istream.mk buf p false false).peek =
          (some c, istream.mk buf p false false) := by
        simp [istream.peek, istream.good, h, hc]
      obtain ⟨r1, d1⟩ := read_int_of_drop buf _ _ p l.filament_index h w1
      obtain ⟨r2, d2⟩ := read_double_of_drop E buf _ _ (p + 4) l.x d1 w2
      obtain ⟨r3, d3⟩ := read_double_of_drop E buf _ _ (p + 4 + 8) l.y d2 w3
      obtain ⟨r4, d4⟩ := read_double_of_drop E buf _ _ (p + 4 + 8 + 8) l.z d3 w4
      obtain ⟨r5, d5⟩ := read_double_of_drop E buf _ _ (p + 4 + 8 + 8 + 8) l.stdDev d4 w5
      simp only [read_filaments, hpeek, r1, r2, r3, r4, r5]
      rw [ih (fun q hq => hwf q (List.mem_cons_of_mem _ hq)) _ fuel _ _ d5
        (by simpa using hfuel)]
      simp [filament_record.decode]

/-- An insertion under a key the map does not hold adds exactly that entry. -/
theorem map_insert_perm {K V : Type} [LinearOrder K] (k : K) (v : V) (mp : List (K × V))
    (h : k ∉ mp.map Prod.fst) : (map_insert k v mp).Perm ((k, v) :: mp) := by
  induction mp with
  | nil => exact List.Perm.refl _
  | cons e mp ih =>
    obtain ⟨k1, v1⟩ := e
    simp only [List.map_cons, List.mem_cons, not_or] at h
    by_cases h1 : k < k1
    · simp [map_insert, h1]
    · simp only [map_insert, h1, h.1, if_false]
      exact ((ih h.2).cons (k1, v1)).trans (List.Perm.swap _ _ _)

/-- Inserting records with pairwise distinct keys, none of them in the map, adds all of
them. -/
theorem foldl_insert_perm (E : Externals α) (recs : List filament_record)
    (mp : List (Int × Filament α))
    (hnd : (recs.map (fun r => (r.decode E).1) ++ mp.map Prod.fst).Nodup) :
    (recs.foldl (fun acc r => map_insert (r.decode E).1 (r.decode E).2 acc) mp).Perm
      (recs.map (fun r => r.decode E) ++ mp) := by
  induction recs generalizing mp with
  | nil => exact List.Perm.refl _
  | cons r recs ih =>
    simp only [List.map_cons, List.cons_append, List.nodup_cons, List.mem_append,
      not_or] at hnd
    have hins := map_insert_perm (r.decode E).1 (r.decode E).2 mp hnd.1.2
    have hnd2 : (recs.map (fun r => (r.decode E).1) ++
        (map_insert (r.decode E).1 (r.decode E).2 mp).map Prod.fst).Nodup := by
      have hp : (recs.map (fun r => (r.decode E).1) ++
          (map_insert (r.decode E).1 (r.decode E).2 mp).map Prod.fst).Perm
          ((r.decode E).1 :: (recs.map (fun r => (r.decode E).1) ++ mp.map Prod.fst)) := by
        refine ((hins.map Prod.fst).append_left _).trans ?_
        simp only [List.map_cons]
        exact List.perm_middle
      exact hp.nodup_iff.mpr (List.nodup_cons.mpr ⟨by simp [hnd.1.1, hnd.1.2], hnd.2⟩)
    simp only [List.foldl_cons, List.map_cons, List.cons_append]
    refine (ih _ hnd2).trans ?_
    exact (hins.append_left _).trans List.perm_middle

/-- `load_wind_file` leaves the filament set alone. -/
theorem load_wind_file_filaments (F : Files α) (s : sim_obj α) (k : Int)
    (r : sim_obj α × List Int) (h : load_wind_file F s k = some r) :
    r.1.activeFilaments = s.activeFilaments := by
  unfold load_wind_file at h
  split at h
  · injection h with h
    subst h
    rfl
  · simp only [] at h
    split at h
    · exact absurd h (by simp)
    · split at h
      · exact absurd h (by simp)
      · split at h
        · exact absurd h (by simp)
        · injection h with h
          subst h
          rfl

/-- A `read` of `n` bytes inside the buffer leaves a good stream `n` bytes further. -/
theorem read_snd (buf old : List Char) (p n : Nat) (h : p + n ≤ buf.length) :
    ((istream.mk buf p false false).read n old).2 = istream.mk buf (p + n) false false := by
  have ha : ((buf.drop p).take n).length = n := by
    rw [List.length_take, List.length_drop]
    omega
  rw [(read_of_drop buf _ _ old p n (List.take_append_drop n (buf.drop p)).symm ha).1]

/-- A `read_int` inside the buffer leaves a good stream four bytes further. -/
theorem read_int_snd (buf : List Char) (p : Nat) (old : Int) (h : p + 4 ≤ buf.length) :
    ((istream.mk buf p false false).read_int old).2 = istream.mk buf (p + 4) false false := by
  simp only [istream.read_int, read_snd buf _ p 4 h]

/-- A `read_double` inside the buffer leaves a good stream eight bytes further. -/
theorem read_double_snd (E : Externals α) (buf : List Char) (p : Nat) (old : α)
    (h : p + 8 ≤ buf.length) :
    ((istream.mk buf p false false).read_double E old).2 =
      istream.mk buf (p + 8) false false := by
  have h1 := read_snd buf [] p 8 h
  simp only [istream.read_double]
  split
  · exact h1
  · split <;> exact h1

/-- `load_wind_file` has a defined result when `V` and `W` are at least as long as `U`. -/
theorem load_wind_file_some (F : Files α) (s : sim_obj α) (k : Int)
    (hV : s.U.length ≤ s.V.length) (hW : s.U.length ≤ s.W.length) :
    ∃ r, load_wind_file F s k = some r := by
  by_cases h : k = s.last_wind_idx
  · simp only [load_wind_file, h, if_true]
    exact ⟨_, rfl⟩
  · obtain ⟨ru, hu⟩ := read_array_some s.U s.U.length (F.wind s.simulation_filename k) le_rfl
    obtain ⟨rv, hv⟩ := read_array_some s.V s.U.length ru.2 hV
    obtain ⟨rw, hw⟩ := read_array_some s.W s.U.length rv.2 hW
    simp only [load_wind_file, h, if_false, hu, hv, hw]
    exact ⟨_, rfl⟩

/-- The bytes of well-formed records: 36 for each. -/
theorem records_bytes_length (recs : List filament_record) (hwf : ∀ r ∈ recs, r.well_formed) :
    (records_bytes recs).length = 36 * recs.length := by
  induction recs with
  | nil => rfl
  | cons r recs ih =>
    obtain ⟨w1, w2, w3, w4, w5⟩ := hwf r (List.mem_cons_self _ _)
    simp only [records_bytes, filament_record.bytes, List.length_append, List.length_cons,
      ih (fun q hq => hwf q (List.mem_cons_of_mem _ hq)), w1, w2, w3, w4, w5]
    omega

end filaments

section binary

variable {α : Type} [LinearOrderedField α]

/-- A successful `resize(n)` gives a vector of `n` elements. -/
theorem vec_resize_length (v v1 : List α) (n : Int) (h : vec_resize v n = some v1) :
    v1.length = n.toNat := by
  unfold vec_resize at h
  split at h
  · injection h with h
    subst h
    simp only [List.length_append, List.length_take, List.length_replicate]
    omega
  · exact absurd h (by simp)

/-- `configure_environment` keeps `V` and `W` at least as long as `U`. -/
theorem configure_environment_sized (E : Externals α) (s s1 : sim_obj α)
    (h : configure_environment E s = some s1)
    (hs : s.U.length ≤ s.V.length ∧ s.U.length ≤ s.W.length) :
    s1.U.length ≤ s1.V.length ∧ s1.U.length ≤ s1.W.length := by
  unfold configure_environment at h
  simp only [] at h
  split at h
  · exact absurd h (by simp)
  · split at h
    · exact absurd h (by simp)
    · rename_i s2 hs2
      split at h
      · injection h with h
        subst h
        by_cases hw : s.load_wind_data = true
        · simp only [hw, if_true] at hs2
          split at hs2
          · rename_i u v w hu hv hw2
            injection hs2 with hs2
            subst hs2
            simp only [vec_resize_length _ _ _ hu, vec_resize_length _ _ _ hv,
              vec_resize_length _ _ _ hw2]
            exact ⟨le_rfl, le_rfl⟩
          · exact absurd hs2 (by simp)
        · simp only [hw] at hs2
          injection hs2 with hs2
          subst hs2
          exact hs
      · exact absurd h (by simp)

/-- The header of a first binary frame, read from behind the tag on a payload of at least
132 bytes: the stream ends up good at offset 132, and the wind arrays stay sized. -/
theorem read_binary_header_stream (E : Externals α) (l : Locals α) (s : sim_obj α)
    (buf : List Char) (hlen : 132 ≤ buf.length) (r : sim_obj α × istream)
    (h : read_binary_header E l s (istream.mk buf 4 false false) = some r) :
    r.2 = istream.mk buf 132 false false ∧
      (s.U.length ≤ s.V.length ∧ s.U.length ≤ s.W.length →
        r.1.U.length ≤ r.1.V.length ∧ r.1.U.length ≤ r.1.W.length) := by
  unfold read_binary_header at h
  simp only [] at h
  split at h
  · exact absurd h (by simp)
  · rename_i s2 hs2
    injection h with h
    subst h
    refine ⟨?_, fun hs => configure_environment_sized E _ s2 hs2 hs⟩
    simp (disch := omega) only [read_double_snd, read_int_snd, read_snd]

/-- C10: for every well-formed binary frame (132 bytes of tag and header, the wind index,
then whole filament records up to the end of the payload) whose filament indices are
pairwise distinct, and for every previous content of `activeFilaments`, the filament set
after `load_binary_file` consists of exactly the `(index, x, y, z, sigma)` records of the
frame, each once. The call does return on every later frame, and on a first frame when
`configure_environment` does not exit, on an instance whose wind arrays are sized alike. -/
theorem load_binary_file_replaces_filaments (E : Externals α) (F : Files α) (l : Locals α)
    (s : sim_obj α) (pre wind : List Char) (recs : List filament_record)
    (hpre : pre.length = 132) (hwind : wind.length = 4)
    (hwf : ∀ r ∈ recs, r.well_formed)
    (hnd : (recs.map (fun r => to_int32 r.index)).Nodup) :
    (∀ s1, load_binary_file E F l s
        (istream.mk (pre ++ (wind ++ records_bytes recs)) 4 false false) = some s1 →
      s1.activeFilaments.Perm (recs.map (fun r => r.decode E))) ∧
    ((s.first_reading = true → (read_binary_header E l s
        (istream.mk (pre ++ (wind ++ records_bytes recs)) 4 false false)).isSome) →
      s.U.length ≤ s.V.length → s.U.length ≤ s.W.length →
      (load_binary_file E F l s
        (istream.mk (pre ++ (wind ++ records_bytes recs)) 4 false false)).isSome) := by
  have hlen : (pre ++ (wind ++ records_bytes recs)).length = 136 + 36 * recs.length := by
    simp only [List.length_append, hpre, hwind, records_bytes_length recs hwf]
    omega
  have hdrop : (pre ++ (wind ++ records_bytes recs)).drop 132 = wind ++ records_bytes recs := by
    rw [← hpre, List.drop_left]
  obtain ⟨hwi, hdrop2⟩ := read_int_of_drop _ _ _ 132 l.wind_index hdrop hwind
  have hloop := read_filaments_records E _ recs hwf (132 + 4)
    ((pre ++ (wind ++ records_bytes recs)).length + 1) l [] hdrop2 (by omega)
  have hperm := foldl_insert_perm E recs [] (by simpa [filament_record.decode] using hnd)
  rw [List.append_nil] at hperm
  have hseek : (istream.mk (pre ++ (wind ++ records_bytes recs)) 4 false false).seekg
      (14 * 8 + 5 * 4) = istream.mk (pre ++ (wind ++ records_bytes recs)) 132 false false := by
    simp [istream.seekg, hpre, hwind]
  have hst : ∀ hd, (if s.first_reading = true then read_binary_header E l s
        (istream.mk (pre ++ (wind ++ records_bytes recs)) 4 false false)
      else some (s, (istream.mk (pre ++ (wind ++ records_bytes recs)) 4 false false).seekg
        (14 * 8 + 5 * 4))) = some hd →
      hd.2 = istream.mk (pre ++ (wind ++ records_bytes recs)) 132 false false ∧
      (s.U.length ≤ s.V.length ∧ s.U.length ≤ s.W.length →
        hd.1.U.length ≤ hd.1.V.length ∧ hd.1.U.length ≤ hd.1.W.length) := by
    intro hd hhd
    by_cases hf : s.first_reading = true
    · simp only [hf, if_true] at hhd
      exact read_binary_header_stream E l s _ (by omega) hd hhd
    · simp only [hf] at hhd
      injection hhd with hhd
      subst hhd
      exact ⟨hseek, fun hs => hs⟩
  have key : ∀ hd, (if s.first_reading = true then read_binary_header E l s
        (istream.mk (pre ++ (wind ++ records_bytes recs)) 4 false false)
      else some (s, (istream.mk (pre ++ (wind ++ records_bytes recs)) 4 false false).seekg
        (14 * 8 + 5 * 4))) = some hd →
      load_binary_file E F l s
          (istream.mk (pre ++ (wind ++ records_bytes recs)) 4 false false) =
        (load_wind_file F { hd.1 with activeFilaments := (recs.foldl
          (fun acc r => map_insert (r.decode E).1 (r.decode E).2 acc) []) }
          (to_int32 wind)).map (fun r => r.1) := by
    intro hd hhd
    unfold load_binary_file
    simp only [hhd, (hst hd hhd).1, hwi, hloop]
  constructor
  · intro s1 h
    unfold load_binary_file at h
    simp only [] at h
    split at h
    · exact absurd h (by simp)
    · rename_i hd hhd
      have h2 := key hd hhd
      unfold load_binary_file at h2
      simp only [hhd] at h2
      rw [h2] at h
      simp only [Option.map_eq_some'] at h
      obtain ⟨r, hr, hr1⟩ := h
      subst hr1
      rw [load_wind_file_filaments F _ _ r hr]
      exact hperm
  · intro hhdr hV hW
    have hex : ∃ hd, (if s.first_reading = true then read_binary_header E l s
          (istream.mk (pre ++ (wind ++ records_bytes recs)) 4 false false)
        else some (s, (istream.mk (pre ++ (wind ++ records_bytes recs)) 4 false false).seekg
          (14 * 8 + 5 * 4))) = some hd := by
      by_cases hf : s.first_reading = true
      · simpa only [hf, if_true] using Option.isSome_iff_exists.mp (hhdr hf)
      · exact ⟨_, by simp only [hf]; rfl⟩
    obtain ⟨hd, hhd⟩ := hex
    obtain ⟨r, hr⟩ := load_wind_file_some F { hd.1 with activeFilaments := (recs.foldl
      (fun acc r => map_insert (r.decode E).1 (r.decode E).2 acc) []) } (to_int32 wind)
      ((hst hd hhd).2 ⟨hV, hW⟩).1 ((hst hd hhd).2 ⟨hV, hW⟩).2
    rw [key hd hhd, hr]
    rfl

end binary

set_option maxRecDepth 1000000 in
/-- C10 (witness): a later frame with the records of indices `5` and `2`, loaded into an
instance that holds a filament of index `9`: afterwards the set holds the two records of
the frame, in key order, and nothing else. -/
theorem load_binary_file_replaces_filaments_witness :
    (binary_head.length = 132 ∧ (List.replicate 4 (Char.ofNat 0)).length = 4 ∧
      (∀ r ∈ two_records, r.well_formed) ∧
      (two_records.map (fun r => to_int32 r.index)).Nodup) ∧
    (∀ s1, load_binary_file (free_env 0) (frames_only []) zero_locals stale_instance
        (istream.mk (binary_head ++ (List.replicate 4 (Char.ofNat 0) ++
          records_bytes two_records)) 4 false false) = some s1 →
      s1.activeFilaments.Perm (two_records.map (fun r => r.decode (free_env 0)))) ∧
    (load_binary_file (free_env 0) (frames_only []) zero_locals stale_instance
        (istream.mk (binary_head ++ (List.replicate 4 (Char.ofNat 0) ++
          records_bytes two_records)) 4 false false)).map (fun s1 => s1.activeFilaments) =
      some [(2, ⟨6, 7, 8, 9⟩), (5, ⟨1, 2, 3, 4⟩)] := by
  have hwf : ∀ r ∈ two_records, r.well_formed := by
    intro r hr
    simp only [two_records, List.mem_cons, List.mem_singleton, List.not_mem_nil,
      or_false] at hr
    rcases hr with rfl | rfl <;> exact ⟨rfl, rfl, rfl, rfl, rfl⟩
  have hnd : (two_records.map (fun r => to_int32 r.index)).Nodup := by decide
  exact ⟨⟨rfl, rfl, hwf, hnd⟩,
    (load_binary_file_replaces_filaments (free_env 0) (frames_only []) zero_locals
      stale_instance binary_head (List.replicate 4 (Char.ofNat 0)) two_records rfl rfl
      hwf hnd).1,
    by with_unfolding_all rfl⟩


/-! ### Line of sight -/

section sight

variable {α : Type} [LinearOrderedField α] [FloorRing α]

omit [LinearOrderedField α] [FloorRing α] in
/-- A cell index inside the grid on each axis gives a linear index inside the grid. -/
theorem indexFrom3D_range (env : EnvironmentDescription α) (x y z : Int)
    (hx : 0 ≤ x ∧ x < env.num_cells.x) (hy : 0 ≤ y ∧ y < env.num_cells.y)
    (hz : 0 ≤ z ∧ z < env.num_cells.z) :
    0 ≤ indexFrom3D env x y z ∧
      indexFrom3D env x y z < env.num_cells.x * env.num_cells.y * env.num_cells.z := by
  unfold indexFrom3D
  have hnx : 0 ≤ env.num_cells.x := by omega
  have hny : 0 ≤ env.num_cells.y := by omega
  have h1 : 0 ≤ y * env.num_cells.x := mul_nonneg hy.1 hnx
  have h2 : 0 ≤ z * env.num_cells.x * env.num_cells.y :=
    mul_nonneg (mul_nonneg hz.1 hnx) hny
  have h3 : y * env.num_cells.x ≤ (env.num_cells.y - 1) * env.num_cells.x :=
    mul_le_mul_of_nonneg_right (by omega) hnx
  have h4 : z * env.num_cells.x * env.num_cells.y ≤
      (env.num_cells.z - 1) * env.num_cells.x * env.num_cells.y :=
    mul_le_mul_of_nonneg_right (mul_le_mul_of_nonneg_right (by omega) hnx) hny
  constructor
  · omega
  · nlinarith

/-- A read inside a vector has a value. -/
theorem vec_at_some {β : Type} (v : List β) (i : Int) (h0 : 0 ≤ i) (h1 : i < v.length) :
    ∃ c, vec_at v i = some c := by
  have h2 : i.toNat < v.length := by omega
  exact ⟨v.get ⟨i.toNat, h2⟩, by simp [vec_at, h0, List.get?_eq_get h2]⟩

/-- A point between two points of an axis that resolve to cells of the grid resolves to a
cell of the grid. -/
theorem axis_between (mn cs a b t : α) (n : Int) (hcs : 0 < cs) (ha : mn ≤ a) (hb : mn ≤ b)
    (hfa : ⌊(a - mn) / cs⌋ < n) (hfb : ⌊(b - mn) / cs⌋ < n) (ht0 : 0 ≤ t) (ht1 : t ≤ 1) :
    0 ≤ ⌊(a + t * (b - a) - mn) / cs⌋ ∧ ⌊(a + t * (b - a) - mn) / cs⌋ < n := by
  have hp : mn ≤ a + t * (b - a) := by
    have e : a + t * (b - a) - mn = (1 - t) * (a - mn) + t * (b - mn) := by ring
    have : 0 ≤ (1 - t) * (a - mn) + t * (b - mn) :=
      add_nonneg (mul_nonneg (by linarith) (by linarith)) (mul_nonneg ht0 (by linarith))
    linarith
  constructor
  · exact Int.floor_nonneg.mpr (div_nonneg (by linarith) hcs.le)
  · rcases le_total a b with hab | hab
    · have hle : a + t * (b - a) ≤ b := by nlinarith
      exact lt_of_le_of_lt
        (Int.floor_mono (div_le_div_of_nonneg_right (by linarith) hcs.le)) hfb
    · have hle : a + t * (b - a) ≤ a := by nlinarith
      exact lt_of_le_of_lt
        (Int.floor_mono (div_le_div_of_nonneg_right (by linarith) hcs.le)) hfa

/-- What `check_pose_with_environment` returning `0` says about a point: it is not below
the lower corner, it resolves to a cell of the grid, and that cell is free. -/
theorem check_pose_free (env : EnvironmentDescription α) (px py pz : α)
    (hcs : 0 < env.cell_size) (h : check_pose_with_environment env px py pz = some 0) :
    (env.min_coord.x ≤ px ∧ env.min_coord.y ≤ py ∧ env.min_coord.z ≤ pz) ∧
    (⌊(px - env.min_coord.x) / env.cell_size⌋ < env.num_cells.x ∧
      ⌊(py - env.min_coord.y) / env.cell_size⌋ < env.num_cells.y ∧
      ⌊(pz - env.min_coord.z) / env.cell_size⌋ < env.num_cells.z) ∧
    cell_code env px py pz = some 0 := by
  unfold check_pose_with_environment at h
  split at h
  · simp at h
  · rename_i hb
    simp only [not_or, not_lt, gt_iff_lt] at hb
    obtain ⟨hx1, _, hy1, _, hz1, _⟩ := hb
    have qx : 0 ≤ (px - env.min_coord.x) / env.cell_size :=
      div_nonneg (sub_nonneg.mpr hx1) hcs.le
    have qy : 0 ≤ (py - env.min_coord.y) / env.cell_size :=
      div_nonneg (sub_nonneg.mpr hy1) hcs.le
    have qz : 0 ≤ (pz - env.min_coord.z) / env.cell_size :=
      div_nonneg (sub_nonneg.mpr hz1) hcs.le
    simp only [to_int, qx, qy, qz, if_true] at h
    split at h
    · simp at h
    · rename_i hi
      simp only [not_or, not_le, ge_iff_le] at hi
      refine ⟨⟨hx1, hy1, hz1⟩, hi, ?_⟩
      unfold cell_code
      cases hv : vec_at env.Env (indexFrom3D env ⌊(px - env.min_coord.x) / env.cell_size⌋
          ⌊(py - env.min_coord.y) / env.cell_size⌋
          ⌊(pz - env.min_coord.z) / env.cell_size⌋) with
      | none => simp [hv] at h
      | some c =>
        simp only [hv, Option.some.injEq] at h
        congr 1
        exact_mod_cast h

/-- Every point of a segment between two points that pass `check_pose_with_environment`
has an occupancy code: the lookup stays inside `Env`, an array of `nx·ny·nz` codes. -/
theorem cell_code_on_segment (env : EnvironmentDescription α) (sx sy sz ex ey ez t : α)
    (hcs : 0 < env.cell_size)
    (hEnv : (env.Env.length : Int) = env.num_cells.x * env.num_cells.y * env.num_cells.z)
    (hs : check_pose_with_environment env sx sy sz = some 0)
    (he : check_pose_with_environment env ex ey ez = some 0) (ht0 : 0 ≤ t) (ht1 : t ≤ 1) :
    ∃ c, cell_code env (sx + t * (ex - sx)) (sy + t * (ey - sy)) (sz + t * (ez - sz)) =
      some c := by
  obtain ⟨⟨sx1, sy1, sz1⟩, ⟨sx2, sy2, sz2⟩, _⟩ := check_pose_free env sx sy sz hcs hs
  obtain ⟨⟨ex1, ey1, ez1⟩, ⟨ex2, ey2, ez2⟩, _⟩ := check_pose_free env ex ey ez hcs he
  have hx := axis_between env.min_coord.x env.cell_size sx ex t _ hcs sx1 ex1 sx2 ex2 ht0 ht1
  have hy := axis_between env.min_coord.y env.cell_size sy ey t _ hcs sy1 ey1 sy2 ey2 ht0 ht1
  have hz := axis_between env.min_coord.z env.cell_size sz ez t _ hcs sz1 ez1 sz2 ez2 ht0 ht1
  obtain ⟨h0, h1⟩ := indexFrom3D_range env _ _ _ hx hy hz
  exact vec_at_some _ _ h0 (by rw [hEnv]; exact h1)

omit [LinearOrderedField α] [FloorRing α] in
/-- The values of the loop variable lie between `1` and `steps - 2`. -/
theorem mem_loop_indices (steps i : Int) (h : i ∈ loop_indices steps) :
    1 ≤ i ∧ i ≤ steps - 2 := by
  simp only [loop_indices, List.mem_map, List.mem_range] at h
  obtain ⟨k, hk, rfl⟩ := h
  omega

/-- The point evaluated in a pass of the loop lies on the segment: it is
`start + t · (end - start)` with `t = i / steps` between `0` and `1`. -/
theorem sample_on_segment (d cs : α) (i : Int) (hi : i ∈ loop_indices ⌈d / cs⌉) :
    ∃ t : α, 0 ≤ t ∧ t ≤ 1 ∧ ∀ a b, path_pose d ⌈d / cs⌉ a b i = a + t * (b - a) := by
  obtain ⟨h1, h2⟩ := mem_loop_indices _ _ hi
  have hd : d ≠ 0 := by
    intro h0
    rw [h0, zero_div, Int.ceil_zero] at h2
    omega
  have hsteps : (0 : α) < ((⌈d / cs⌉ : Int) : α) := by
    have : (0 : Int) < ⌈d / cs⌉ := by omega
    exact_mod_cast this
  have hi0 : (0 : α) ≤ (i : α) := by
    have : (0 : Int) ≤ i := by omega
    exact_mod_cast this
  have hile : (i : α) ≤ ((⌈d / cs⌉ : Int) : α) := by
    have : i ≤ ⌈d / cs⌉ := by omega
    exact_mod_cast this
  refine ⟨(i : α) / ((⌈d / cs⌉ : Int) : α), div_nonneg hi0 hsteps.le,
    (div_le_one hsteps).mpr hile, fun a b => ?_⟩
  unfold path_pose
  field_simp
  ring

/-- The loop answers `true` when every sampled cell is free. -/
theorem traverse_path_free (env : EnvironmentDescription α) (d : α) (steps : Int)
    (sx sy sz ex ey ez : α) (is : List Int)
    (h : ∀ i ∈ is, cell_code env (path_pose d steps sx ex i) (path_pose d steps sy ey i)
      (path_pose d steps sz ez i) = some 0) :
    traverse_path env d steps sx sy sz ex ey ez is = some true := by
  induction is with
  | nil => rfl
  | cons i is ih =>
    simp only [traverse_path, h i (List.mem_cons_self _ _)]
    simpa using ih (fun j hj => h j (List.mem_cons_of_mem _ hj))

/-- The loop answers `false` when every sampled cell has a code and one of them is not
free. -/
theorem traverse_path_blocked (env : EnvironmentDescription α) (d : α) (steps : Int)
    (sx sy sz ex ey ez : α) (is : List Int)
    (hdef : ∀ i ∈ is, ∃ c, cell_code env (path_pose d steps sx ex i)
      (path_pose d steps sy ey i) (path_pose d steps sz ez i) = some c)
    (hblk : ∃ i ∈ is, cell_code env (path_pose d steps sx ex i) (path_pose d steps sy ey i)
      (path_pose d steps sz ez i) ≠ some 0) :
    traverse_path env d steps sx sy sz ex ey ez is = some false := by
  induction is with
  | nil => simp at hblk
  | cons i is ih =>
    obtain ⟨c, hc⟩ := hdef i (List.mem_cons_self _ _)
    simp only [traverse_path, hc]
    by_cases h0 : c = 0
    · subst h0
      simp only [ne_eq, not_true_eq_false, if_false]
      refine ih (fun j hj => hdef j (List.mem_cons_of_mem _ hj)) ?_
      obtain ⟨j, hj, hjb⟩ := hblk
      simp only [List.mem_cons] at hj
      rcases hj with rfl | hj
      · exact absurd hc hjb
      · exact ⟨j, hj, hjb⟩
    · simp [h0]

/-- A point that passes `check_pose_with_environment` passes the guard of
`get_gas_concentration`: its `ceil` index lies in `[0, num_cells]`. -/
theorem ceil_idx_of_free (mn cs c : α) (n : Int) (hcs : 0 < cs) (h1 : mn ≤ c)
    (h2 : ⌊(c - mn) / cs⌋ < n) : ¬ ((⌈(c - mn) / cs⌉ : Int) < 0) ∧ ¬ (⌈(c - mn) / cs⌉ > n) := by
  have h3 : 0 ≤ ⌈(c - mn) / cs⌉ := Int.ceil_nonneg (div_nonneg (sub_nonneg.mpr h1) hcs.le)
  have h4 := Int.ceil_le_floor_add_one ((c - mn) / cs)
  constructor <;> omega

/-- With both end points in free cells the answer of `check_environment_for_obstacle` is
the answer of its loop. -/
theorem check_environment_for_obstacle_loop (m : Libm α) (env : EnvironmentDescription α)
    (sx sy sz ex ey ez : α) (hs : check_pose_with_environment env sx sy sz = some 0)
    (he : check_pose_with_environment env ex ey ez = some 0) :
    check_environment_for_obstacle m env sx sy sz ex ey ez =
      traverse_path env (path_distance m sx sy sz ex ey ez)
        (path_steps m env sx sy sz ex ey ez) sx sy sz ex ey ez
        (loop_indices (path_steps m env sx sy sz ex ey ez)) := by
  simp [check_environment_for_obstacle, hs, he]

/-- In filament mode, on an instance with one filament inside the cutoff radius, a query
from a point that passes `check_pose_with_environment` returns the value of the filament
when the line of sight holds and `0` when it does not. -/
theorem get_gas_concentration_single (m : Libm α) (s : sim_obj α) (x y z : α) (k : Int)
    (fil : Filament α) (visible : Bool) (hmode : s.filament_log = true)
    (hfil : s.activeFilaments = [(k, fil)]) (hcs : 0 < s.envDesc.cell_size)
    (hstart : check_pose_with_environment s.envDesc x y z = some 0)
    (hcut : (x - fil.x) * (x - fil.x) + (y - fil.y) * (y - fil.y) + (z - fil.z) * (z - fil.z) <
      fil.sigma * 5 / 100 * (fil.sigma * 5 / 100))
    (hvis : check_environment_for_obstacle m s.envDesc x y z fil.x fil.y fil.z = some visible) :
    get_gas_concentration m s x y z =
      some (if visible then concentration_from_filament m s x y z fil else 0) := by
  obtain ⟨⟨x1, y1, z1⟩, ⟨x2, y2, z2⟩, _⟩ := check_pose_free s.envDesc x y z hcs hstart
  obtain ⟨gx1, gx2⟩ := ceil_idx_of_free _ _ _ _ hcs x1 x2
  obtain ⟨gy1, gy2⟩ := ceil_idx_of_free _ _ _ _ hcs y1 y2
  obtain ⟨gz1, gz2⟩ := ceil_idx_of_free _ _ _ _ hcs z1 z2
  unfold get_gas_concentration
  simp only [gx1, gx2, gy1, gy2, gz1, gz2, or_self, if_false, hmode, if_true, hfil,
    sum_filaments, hcut, hvis]
  cases visible <;> simp [sum_filaments]

/-- C2 (amended): in filament mode, for every grid with `cell_size > 0` and one occupancy
code per cell, and every query point and filament that both pass
`check_pose_with_environment` with the filament inside the cutoff radius: if one of the
points the loop samples, `start + i·(end − start)/steps` for `i = 1, …, steps − 2` with
`steps = ceil(distance / cell_size)`, lies in a cell that is not free,
`check_environment_for_obstacle` returns false and the filament contributes zero; if every
cell the segment crosses is free, it returns true and the filament contributes its full
`concentration_from_filament` value. -/
theorem filament_contribution (m : Libm α) (s : sim_obj α) (x y z : α) (k : Int)
    (fil : Filament α) (hmode : s.filament_log = true)
    (hfil : s.activeFilaments = [(k, fil)]) (hcs : 0 < s.envDesc.cell_size)
    (hEnv : (s.envDesc.Env.length : Int) =
      s.envDesc.num_cells.x * s.envDesc.num_cells.y * s.envDesc.num_cells.z)
    (hstart : check_pose_with_environment s.envDesc x y z = some 0)
    (hend : check_pose_with_environment s.envDesc fil.x fil.y fil.z = some 0)
    (hcut : (x - fil.x) * (x - fil.x) + (y - fil.y) * (y - fil.y) + (z - fil.z) * (z - fil.z) <
      fil.sigma * 5 / 100 * (fil.sigma * 5 / 100)) :
    ((∃ i ∈ loop_indices (path_steps m s.envDesc x y z fil.x fil.y fil.z),
        cell_code s.envDesc
          (path_pose (path_distance m x y z fil.x fil.y fil.z)
            (path_steps m s.envDesc x y z fil.x fil.y fil.z) x fil.x i)
          (path_pose (path_distance m x y z fil.x fil.y fil.z)
            (path_steps m s.envDesc x y z fil.x fil.y fil.z) y fil.y i)
          (path_pose (path_distance m x y z fil.x fil.y fil.z)
            (path_steps m s.envDesc x y z fil.x fil.y fil.z) z fil.z i) ≠ some 0) →
      check_environment_for_obstacle m s.envDesc x y z fil.x fil.y fil.z = some false ∧
      get_gas_concentration m s x y z = some 0) ∧
    ((∀ t : α, 0 ≤ t → t ≤ 1 →
        cell_code s.envDesc (x + t * (fil.x - x)) (y + t * (fil.y - y))
          (z + t * (fil.z - z)) = some 0) →
      check_environment_for_obstacle m s.envDesc x y z fil.x fil.y fil.z = some true ∧
      get_gas_concentration m s x y z = some (concentration_from_filament m s x y z fil)) := by
  have hloop := check_environment_for_obstacle_loop m s.envDesc x y z fil.x fil.y fil.z
    hstart hend
  constructor
  · intro hblk
    have hvis : check_environment_for_obstacle m s.envDesc x y z fil.x fil.y fil.z =
        some false := by
      rw [hloop]
      refine traverse_path_blocked _ _ _ _ _ _ _ _ _ _ (fun i hi => ?_) hblk
      obtain ⟨t, ht0, ht1, hp⟩ := sample_on_segment _ _ i hi
      simp only [path_steps, hp]
      exact cell_code_on_segment s.envDesc x y z fil.x fil.y fil.z t hcs hEnv hstart hend
        ht0 ht1
    exact ⟨hvis, by
      simpa using get_gas_concentration_single m s x y z k fil false hmode hfil hcs hstart
        hcut hvis⟩
  · intro hfree
    have hvis : check_environment_for_obstacle m s.envDesc x y z fil.x fil.y fil.z =
        some true := by
      rw [hloop]
      refine traverse_path_free _ _ _ _ _ _ _ _ _ _ (fun i hi => ?_)
      obtain ⟨t, ht0, ht1, hp⟩ := sample_on_segment _ _ i hi
      simp only [path_steps, hp]
      exact hfree t ht0 ht1
    exact ⟨hvis, by
      simpa using get_gas_concentration_single m s x y z k fil true hmode hfil hcs hstart
        hcut hvis⟩

end sight

/-! #### A segment through an obstacle cell that no sample hits -/

/-- Over the reals the distance from `(0.1, 0.1, 0.5)` to `(3.1, 4.1, 0.5)` is `5`. -/
theorem real_distance :
    path_distance ⟨Real.sqrt, Real.exp, Real.pi⟩ (1 / 10 : ℝ) (1 / 10) (1 / 2)
      (31 / 10) (41 / 10) (1 / 2) = 5 := by
  unfold path_distance
  simp only []
  rw [show ((31 / 10 : ℝ) - 1 / 10) * (31 / 10 - 1 / 10) +
    (41 / 10 - 1 / 10) * (41 / 10 - 1 / 10) + (1 / 2 - 1 / 2) * (1 / 2 - 1 / 2) = 5 ^ 2 by
    norm_num]
  exact Real.sqrt_sq (by norm_num)

/-- On `diag_env` the point `(0.1, 0.1, 0.5)` lies in a free cell of the grid. -/
theorem diag_start_free :
    check_pose_with_environment (diag_env : EnvironmentDescription ℝ) (1 / 10) (1 / 10)
      (1 / 2) = some 0 := by
  norm_num [check_pose_with_environment, diag_env, flat_grid, to_int, vec_at, indexFrom3D]

/-- On `diag_env` the point `(3.1, 4.1, 0.5)` lies in a free cell of the grid. -/
theorem diag_end_free :
    check_pose_with_environment (diag_env : EnvironmentDescription ℝ) (31 / 10) (41 / 10)
      (1 / 2) = some 0 := by
  norm_num [check_pose_with_environment, diag_env, flat_grid, to_int, vec_at, indexFrom3D]
  rfl

/-- On `diag_env` the line of sight from `(0.1, 0.1, 0.5)` to `(3.1, 4.1, 0.5)` is
confirmed: `steps = 5`, the loop samples `i = 1, 2, 3`, in the free cells `0`, `5`, `9`. -/
theorem diag_line_of_sight :
    check_environment_for_obstacle ⟨Real.sqrt, Real.exp, Real.pi⟩
      (diag_env : EnvironmentDescription ℝ) (1 / 10) (1 / 10) (1 / 2) (31 / 10) (41 / 10)
      (1 / 2) = some true := by
  rw [check_environment_for_obstacle_loop _ _ _ _ _ _ _ _ diag_start_free diag_end_free]
  have hsteps : path_steps ⟨Real.sqrt, Real.exp, Real.pi⟩
      (diag_env : EnvironmentDescription ℝ) (1 / 10) (1 / 10) (1 / 2) (31 / 10) (41 / 10)
      (1 / 2) = 5 := by
    simp only [path_steps, real_distance]
    norm_num [diag_env, flat_grid]
  rw [hsteps, real_distance, show loop_indices 5 = [1, 2, 3] by decide]
  norm_num [traverse_path, cell_code, path_pose, diag_env, flat_grid, vec_at, indexFrom3D]
  rfl

/-- C2 (counterexample): on `diag_env` the query point `(0.1, 0.1, 0.5)` and the filament
at `(3.1, 4.1, 0.5)` (`sigma = 200`) lie in free cells of the grid, 5 m apart, inside the
cutoff radius of 10 m. The segment between them passes through the obstacle cell
`(0,1,0)`: its point at a quarter of the way, `(0.85, 1.1, 0.5)`, lies in it. Yet
`check_environment_for_obstacle` returns true and the filament contributes its full
value, which is not zero. -/
theorem unsampled_obstacle_does_not_block :
    check_pose_with_environment (diag_env : EnvironmentDescription ℝ) (1 / 10) (1 / 10)
      (1 / 2) = some 0 ∧
    check_pose_with_environment (diag_env : EnvironmentDescription ℝ) (31 / 10) (41 / 10)
      (1 / 2) = some 0 ∧
    ((1 / 10 - 31 / 10 : ℝ) * (1 / 10 - 31 / 10) + (1 / 10 - 41 / 10) * (1 / 10 - 41 / 10) +
      (1 / 2 - 1 / 2) * (1 / 2 - 1 / 2) < 200 * 5 / 100 * (200 * 5 / 100)) ∧
    cell_code (diag_env : EnvironmentDescription ℝ) (1 / 10 + 1 / 4 * (31 / 10 - 1 / 10))
      (1 / 10 + 1 / 4 * (41 / 10 - 1 / 10)) (1 / 2 + 1 / 4 * (1 / 2 - 1 / 2)) = some 1 ∧
    check_environment_for_obstacle ⟨Real.sqrt, Real.exp, Real.pi⟩
      (diag_env : EnvironmentDescription ℝ) (1 / 10) (1 / 10) (1 / 2) (31 / 10) (41 / 10)
      (1 / 2) = some true ∧
    get_gas_concentration ⟨Real.sqrt, Real.exp, Real.pi⟩
        (filament_instance diag_env [(0, far_filament)]) (1 / 10) (1 / 10) (1 / 2) =
      some (concentration_from_filament ⟨Real.sqrt, Real.exp, Real.pi⟩
        (filament_instance diag_env [(0, far_filament)]) (1 / 10) (1 / 10) (1 / 2)
        far_filament) ∧
    concentration_from_filament ⟨Real.sqrt, Real.exp, Real.pi⟩
      (filament_instance diag_env [(0, far_filament)]) (1 / 10) (1 / 10) (1 / 2)
      far_filament ≠ 0 := by
  refine ⟨diag_start_free, diag_end_free, by norm_num, ?_, diag_line_of_sight, ?_, ?_⟩
  · norm_num [cell_code, diag_env, flat_grid, vec_at, indexFrom3D]
    rfl
  · have h := get_gas_concentration_single ⟨Real.sqrt, Real.exp, Real.pi⟩
      (filament_instance diag_env [(0, far_filament)]) (1 / 10) (1 / 10) (1 / 2) 0
      far_filament true rfl rfl (by norm_num [filament_instance, diag_env, flat_grid])
      diag_start_free (by norm_num [far_filament]) diag_line_of_sight
    simpa using h
  · apply ne_of_gt
    simp only [concentration_from_filament, filament_instance, far_filament]
    positivity

/-- On the grid without obstacle every point has code `0` wherever it has a code. -/
theorem open_env_code (px py pz : ℚ) (c : Nat)
    (h : cell_code (open_env : EnvironmentDescription ℚ) px py pz = some c) : c = 0 := by
  unfold cell_code vec_at at h
  split at h
  · simp only [open_env, flat_grid] at h
    rw [List.get?_eq_some] at h
    obtain ⟨hlt, hget⟩ := h
    rw [← hget]
    exact List.eq_of_mem_replicate (List.get_mem _ _ _)
  · exact absurd h (by simp)

set_option maxRecDepth 1000000 in
/-- C2 (witness): the query point `(0.1, 0.1, 0.5)` and the filament at `(3.1, 4.1, 0.5)`.
On `blocked_env` the sample of pass `i = 2` lies in the obstacle cell `(1,1,0)`: no line of
sight, contribution `0`. On `open_env` every cell is free: line of sight, full value. -/
theorem filament_contribution_witness :
    (check_environment_for_obstacle libm_q (blocked_env : EnvironmentDescription ℚ) (1 / 10)
        (1 / 10) (1 / 2) far_filament.x far_filament.y far_filament.z = some false ∧
      get_gas_concentration libm_q (filament_instance blocked_env [(0, far_filament)])
        (1 / 10) (1 / 10) (1 / 2) = some 0) ∧
    (check_environment_for_obstacle libm_q (open_env : EnvironmentDescription ℚ) (1 / 10)
        (1 / 10) (1 / 2) far_filament.x far_filament.y far_filament.z = some true ∧
      get_gas_concentration libm_q (filament_instance open_env [(0, far_filament)])
          (1 / 10) (1 / 10) (1 / 2) =
        some (concentration_from_filament libm_q
          (filament_instance open_env [(0, far_filament)]) (1 / 10) (1 / 10) (1 / 2)
          far_filament)) := by
  constructor
  · exact (filament_contribution libm_q (filament_instance blocked_env [(0, far_filament)])
      (1 / 10) (1 / 10) (1 / 2) 0 far_filament rfl rfl (by with_unfolding_all decide)
      (by with_unfolding_all decide) (by with_unfolding_all rfl) (by with_unfolding_all rfl)
      (by with_unfolding_all decide)).1
      ⟨2, by with_unfolding_all decide, by with_unfolding_all decide⟩
  · refine (filament_contribution libm_q (filament_instance open_env [(0, far_filament)])
      (1 / 10) (1 / 10) (1 / 2) 0 far_filament rfl rfl (by with_unfolding_all decide)
      (by with_unfolding_all decide) (by with_unfolding_all rfl) (by with_unfolding_all rfl)
      (by with_unfolding_all decide)).2 (fun t ht0 ht1 => ?_)
    obtain ⟨c, hc⟩ := cell_code_on_segment (open_env : EnvironmentDescription ℚ) (1 / 10)
      (1 / 10) (1 / 2) far_filament.x far_filament.y far_filament.z t
      (by with_unfolding_all decide) (by with_unfolding_all decide)
      (by with_unfolding_all rfl) (by with_unfolding_all rfl) ht0 ht1
    have h0 := open_env_code _ _ _ c hc
    subst h0
    exact hc


/-! ### The two header paths of a binary frame -/

section header_paths

variable {α : Type} [LinearOrderedField α]

/-- The absolute seek of a later frame, on a payload of at least 132 bytes. -/
theorem seekg_header (buf : List Char) (hlen : 132 ≤ buf.length) :
    (istream.mk buf 4 false false).seekg (14 * 8 + 5 * 4) = istream.mk buf 132 false false := by
  simp [istream.seekg, hlen]

omit [LinearOrderedField α] in
/-- After `load_wind_file(k)` the cached index is `k`. -/
theorem load_wind_file_index (F : Files α) (s : sim_obj α) (k : Int)
    (r : sim_obj α × List Int) (h : load_wind_file F s k = some r) :
    r.1.last_wind_idx = k := by
  unfold load_wind_file at h
  split at h
  · rename_i hk
    injection h with h
    subst h
    exact hk.symm
  · simp only [] at h
    split at h
    · exact absurd h (by simp)
    · split at h
      · exact absurd h (by simp)
      · split at h
        · exact absurd h (by simp)
        · injection h with h
          subst h
          rfl

/-- What a returning `load_binary_file` leaves: the filament map its record loop built
from the stream behind the header, and the wind index read there. -/
theorem load_binary_file_result (E : Externals α) (F : Files α) (l : Locals α)
    (s t : sim_obj α) (st : istream) (h : load_binary_file E F l s st = some t) :
    ∃ hd, (if s.first_reading = true then read_binary_header E l s st
        else some (s, st.seekg (14 * 8 + 5 * 4))) = some hd ∧
      read_filaments E (st.buf.length + 1) (hd.2.read_int l.wind_index).2 l [] =
        some t.activeFilaments ∧
      t.last_wind_idx = (hd.2.read_int l.wind_index).1 := by
  unfold load_binary_file at h
  simp only [] at h
  split at h
  · exact absurd h (by simp)
  · rename_i hd hhd
    split at h
    · exact absurd h (by simp)
    · rename_i mp hmp
      simp only [Option.map_eq_some'] at h
      obtain ⟨r, hr, hr1⟩ := h
      subst hr1
      refine ⟨hd, hhd, ?_, load_wind_file_index F _ _ r hr⟩
      rw [load_wind_file_filaments F _ _ r hr]
      exact hmp

/-- C11: on every binary payload of at least 132 bytes (tag and header), read from behind
the tag, the first-frame path of `load_binary_file`, which parses the header field by
field, leaves the stream where the later-frame path puts it with
`seekg(14·8 + 5·4)`: good, at offset 132. Both paths therefore read the same wind index
and build the same filament map from the same payload. -/
theorem header_paths_agree (E : Externals α) (F : Files α) (l : Locals α)
    (s1 s2 : sim_obj α) (buf : List Char) (hlen : 132 ≤ buf.length)
    (h1 : s1.first_reading = true) (h2 : s2.first_reading = false) :
    ((istream.of buf).read_int 0).2 = istream.mk buf 4 false false ∧
    (∀ r, read_binary_header E l s1 (istream.mk buf 4 false false) = some r →
      r.2 = (istream.mk buf 4 false false).seekg (14 * 8 + 5 * 4) ∧ r.2.pos = 132 ∧
        r.2.good = true) ∧
    (∀ t1 t2, load_binary_file E F l s1 (istream.mk buf 4 false false) = some t1 →
      load_binary_file E F l s2 (istream.mk buf 4 false false) = some t2 →
      t1.activeFilaments = t2.activeFilaments ∧ t1.last_wind_idx = t2.last_wind_idx ∧
        t1.last_wind_idx = ((istream.mk buf 132 false false).read_int l.wind_index).1) := by
  refine ⟨?_, ?_, ?_⟩
  · simpa [istream.of] using read_int_snd buf 0 0 (by omega)
  · intro r hr
    rw [(read_binary_header_stream E l s1 buf hlen r hr).1, seekg_header buf hlen]
    exact ⟨rfl, rfl, rfl⟩
  · intro t1 t2 ht1 ht2
    obtain ⟨hd1, hhd1, hm1, hw1⟩ := load_binary_file_result E F l s1 t1 _ ht1
    obtain ⟨hd2, hhd2, hm2, hw2⟩ := load_binary_file_result E F l s2 t2 _ ht2
    simp only [h1, if_true] at hhd1
    simp only [h2, Bool.false_eq_true, if_false, Option.some.injEq] at hhd2
    have e1 := (read_binary_header_stream E l s1 buf hlen hd1 hhd1).1
    have e2 : hd2.2 = istream.mk buf 132 false false := by
      rw [← hhd2]
      exact seekg_header buf hlen
    rw [e1] at hm1 hw1
    rw [e2] at hm2 hw2
    refine ⟨?_, hw1.trans hw2.symm, hw1⟩
    have := hm1.symm.trans hm2
    exact Option.some.inj this

end header_paths

set_option maxRecDepth 1000000 in
/-- C11 (witness): the payload `two_record_payload` loaded as a first frame by the fresh
instance and as a later frame by `stale_instance`: both calls return, with the same
filament map and the same wind index. -/
theorem header_paths_agree_witness :
    (132 ≤ two_record_payload.length ∧ fresh_instance.first_reading = true ∧
      stale_instance.first_reading = false) ∧
    ∃ t1 t2,
      load_binary_file (free_env 0) (frames_only []) zero_locals fresh_instance
        (istream.mk two_record_payload 4 false false) = some t1 ∧
      load_binary_file (free_env 0) (frames_only []) zero_locals stale_instance
        (istream.mk two_record_payload 4 false false) = some t2 ∧
      t1.activeFilaments = t2.activeFilaments ∧ t1.last_wind_idx = t2.last_wind_idx ∧
      t1.activeFilaments = [(2, ⟨6, 7, 8, 9⟩), (5, ⟨1, 2, 3, 4⟩)] := by
  obtain ⟨t1, ht1⟩ := Option.isSome_iff_exists.mp
    (show (load_binary_file (free_env 0) (frames_only []) zero_locals fresh_instance
      (istream.mk two_record_payload 4 false false)).isSome = true from by
      with_unfolding_all rfl)
  obtain ⟨t2, ht2⟩ := Option.isSome_iff_exists.mp
    (show (load_binary_file (free_env 0) (frames_only []) zero_locals stale_instance
      (istream.mk two_record_payload 4 false false)).isSome = true from by
      with_unfolding_all rfl)
  have hlen : 132 ≤ two_record_payload.length := by decide
  have h := (header_paths_agree (free_env 0) (frames_only []) zero_locals fresh_instance
    stale_instance two_record_payload hlen rfl rfl).2.2 t1 t2 ht1 ht2
  refine ⟨⟨hlen, rfl, rfl⟩, t1, t2, ht1, ht2, h.1, h.2.1, ?_⟩
  have h3 : (load_binary_file (free_env 0) (frames_only []) zero_locals fresh_instance
      (istream.mk two_record_payload 4 false false)).map (fun t => t.activeFilaments) =
      some [(2, ⟨6, 7, 8, 9⟩), (5, ⟨1, 2, 3, 4⟩)] := by with_unfolding_all rfl
  rw [ht1] at h3
  exact Option.some.inj h3


/-! ### Truncated binary frames -/

section truncated

variable {α : Type} [LinearOrderedField α]

/-- A `read` of more bytes than the stream holds leaves a stream that is not good. -/
theorem read_short (buf old : List Char) (p n : Nat) (e f : Bool) (hp : p ≤ buf.length)
    (h : buf.length < p + n) : ((istream.mk buf p e f).read n old).2.good = false := by
  unfold istream.read
  split
  · have hlt : ((buf.drop p).take n).length ≠ n := by
      have h2 : buf.length - p < n := by omega
      rw [List.length_take, List.length_drop, Nat.min_eq_right h2.le]
      omega
    rw [if_neg hlt]
    simp [istream.good]
  · simp [istream.good]

omit [LinearOrderedField α] in
/-- On a stream that is not good the record loop stops at once. -/
theorem read_filaments_stop (E : Externals α) (fuel : Nat) (st : istream) (l : Locals α)
    (mp : List (Int × Filament α)) (h : st.good = false) :
    read_filaments E (fuel + 1) st l mp = some mp := by
  simp [read_filaments, istream.peek, h]

/-- On a payload of at least 132 bytes a returning `load_binary_file` leaves the map that
its record loop builds, from the empty map, on the stream behind the wind index at offset
132, on a first frame as on a later one. -/
theorem load_binary_file_filaments (E : Externals α) (F : Files α) (l : Locals α)
    (s t : sim_obj α) (buf : List Char) (hlen : 132 ≤ buf.length)
    (h : load_binary_file E F l s (istream.mk buf 4 false false) = some t) :
    read_filaments E (buf.length + 1)
      ((istream.mk buf 132 false false).read_int l.wind_index).2 l [] =
        some t.activeFilaments := by
  obtain ⟨hd, hhd, hm, _⟩ := load_binary_file_result E F l s t _ h
  have e : hd.2 = istream.mk buf 132 false false := by
    by_cases hf : s.first_reading = true
    · simp only [hf, if_true] at hhd
      exact (read_binary_header_stream E l s buf hlen hd hhd).1
    · simp only [hf] at hhd
      simp only [Bool.false_eq_true, if_false, Option.some.injEq] at hhd
      rw [← hhd]
      exact seekg_header buf hlen
  rw [e] at hm
  exact hm

/-- C12 (amended): `load_binary_file` clears `activeFilaments` before it reads, so on
every binary frame of at least 132 bytes, truncated or not, the filament set after
`load_data_from_logfile` does not depend on the set before the call: the previous frame is
not kept. When the payload ends inside the wind index (fewer than 136 bytes) the set is
empty after the call, and the call does return on a later frame whose instance has its
wind arrays sized alike. In every case the set is the map that the record loop builds,
from the empty map, out of the bytes behind the wind index and of what the locals
`filament_index`, `x`, `y`, `z`, `stdDev` hold where a record is cut short. -/
theorem truncated_frame_drops_filaments (E : Externals α) (F : Files α) (l : Locals α)
    (s : sim_obj α) (n : Int) (bytes : List Char)
    (hf : F.frame s.simulation_filename n = some bytes)
    (htag : is_binary_frame bytes = true) (hlen : 132 ≤ bytes.length) :
    (∀ previous t t1, load_data_from_logfile E F l s n = some t →
      load_data_from_logfile E F l { s with activeFilaments := previous } n = some t1 →
      t1.activeFilaments = t.activeFilaments) ∧
    (bytes.length < 136 →
      (∀ t, load_data_from_logfile E F l s n = some t → t.activeFilaments = []) ∧
      (s.first_reading = false → s.U.length ≤ s.V.length → s.U.length ≤ s.W.length →
        ∃ t, load_data_from_logfile E F l s n = some t)) ∧
    (∀ t, load_data_from_logfile E F l s n = some t →
      read_filaments E (bytes.length + 1)
        ((istream.mk bytes 132 false false).read_int l.wind_index).2 l [] =
          some t.activeFilaments) := by
  have htag1 : ((istream.of bytes).read_int 0).1 = 1 := by
    simpa [is_binary_frame] using htag
  have hst : ((istream.of bytes).read_int 0).2 = istream.mk bytes 4 false false := by
    simpa [istream.of] using read_int_snd bytes 0 0 (by omega)
  have hload : ∀ s0 : sim_obj α, s0.simulation_filename = s.simulation_filename →
      load_data_from_logfile E F l s0 n =
        load_binary_file E F l { s0 with filament_log := true }
          (istream.mk bytes 4 false false) := by
    intro s0 h0
    simp only [load_data_from_logfile, h0, hf, htag1, if_true, hst]
  have hmap : ∀ t, load_data_from_logfile E F l s n = some t →
      read_filaments E (bytes.length + 1)
        ((istream.mk bytes 132 false false).read_int l.wind_index).2 l [] =
          some t.activeFilaments := by
    intro t ht
    rw [hload s rfl] at ht
    exact load_binary_file_filaments E F l _ t bytes hlen ht
  refine ⟨fun previous t t1 ht ht1 => ?_, fun hshort => ?_, hmap⟩
  · rw [hload s rfl] at ht
    rw [hload { s with activeFilaments := previous } rfl] at ht1
    have e := load_binary_file_filaments E F l _ t bytes hlen ht
    have e1 := load_binary_file_filaments E F l _ t1 bytes hlen ht1
    exact Option.some.inj (e1.symm.trans e)
  · have hbad : ((istream.mk bytes 132 false false).read_int l.wind_index).2.good = false :=
      read_short bytes _ 132 4 false false hlen (by omega)
    have hloop : read_filaments E (bytes.length + 1)
        ((istream.mk bytes 132 false false).read_int l.wind_index).2 l [] = some [] :=
      read_filaments_stop E _ _ l [] hbad
    refine ⟨fun t ht => ?_, fun hfirst hV hW => ?_⟩
    · rw [hload s rfl] at ht
      have e := load_binary_file_filaments E F l _ t bytes hlen ht
      exact (Option.some.inj (hloop.symm.trans e)).symm
    · rw [hload s rfl]
      obtain ⟨r, hr⟩ := load_wind_file_some F
        { s with filament_log := true, activeFilaments := ([] : List (Int × Filament α)) }
        ((istream.mk bytes 132 false false).read_int l.wind_index).1 hV hW
      refine ⟨r.1, ?_⟩
      simp only [hfirst] at hr
      unfold load_binary_file
      simp only [hfirst, Bool.false_eq_true, if_false, seekg_header bytes hlen, hloop, hr,
        Option.map_some']

end truncated

set_option maxRecDepth 1000000 in
/-- C12 (counterexample): `stale_instance` holds the filament of index `9` of its previous
frame. After a binary frame that ends inside the wind index its filament set is empty;
after a binary frame that ends inside its only record the set holds one filament, made of
the bytes that were read and of what the locals held: `(1, 0, 0, 0)` when they held
zeros, `(1, 77, 88, 99)` when `y`, `z`, `stdDev` held `77`, `88`, `99`. In each case the
previous frame is gone. -/
theorem truncated_frame_loses_previous_filaments :
    stale_instance.activeFilaments = [(9, ⟨1, 1, 1, 1⟩)] ∧
    (cut_in_wind_index.length = 134 ∧ is_binary_frame cut_in_wind_index = true) ∧
    (load_data_from_logfile (free_env 0) (frames_only [cut_in_wind_index, cut_in_record])
      zero_locals stale_instance 0).map (fun t => t.activeFilaments) = some [] ∧
    (cut_in_record.length = 149 ∧ is_binary_frame cut_in_record = true) ∧
    (load_data_from_logfile (free_env 0) (frames_only [cut_in_wind_index, cut_in_record])
      zero_locals stale_instance 1).map (fun t => t.activeFilaments) =
        some [(5, ⟨1, 0, 0, 0⟩)] ∧
    (load_data_from_logfile (free_env 0) (frames_only [cut_in_wind_index, cut_in_record])
      ⟨0, 0, 0, 0, 77, 88, 99⟩ stale_instance 1).map (fun t => t.activeFilaments) =
        some [(5, ⟨1, 77, 88, 99⟩)] := by
  refine ⟨?_, ⟨?_, ?_⟩, ?_, ⟨?_, ?_⟩, ?_, ?_⟩ <;> with_unfolding_all rfl

set_option maxRecDepth 1000000 in
/-- C12 (witness): the frame `cut_in_wind_index` loaded by `stale_instance`: the call
returns and leaves no filament, whatever set the instance held. -/
theorem truncated_frame_drops_filaments_witness :
    ((frames_only [cut_in_wind_index, cut_in_record]).frame
        stale_instance.simulation_filename 0 = some cut_in_wind_index ∧
      is_binary_frame cut_in_wind_index = true ∧ 132 ≤ cut_in_wind_index.length ∧
      cut_in_wind_index.length < 136) ∧
    ∃ t, load_data_from_logfile (free_env 0) (frames_only [cut_in_wind_index, cut_in_record])
        zero_locals stale_instance 0 = some t ∧ t.activeFilaments = [] := by
  have h := truncated_frame_drops_filaments (free_env 0)
    (frames_only [cut_in_wind_index, cut_in_record]) zero_locals stale_instance 0
    cut_in_wind_index (by with_unfolding_all rfl) (by with_unfolding_all rfl) (by decide)
  obtain ⟨t, ht⟩ := (h.2.1 (by decide)).2 rfl (by decide) (by decide)
  exact ⟨⟨by with_unfolding_all rfl, by with_unfolding_all rfl, by decide, by decide⟩,
    t, ht, (h.2.1 (by decide)).1 t ht⟩


/-! ### The filament sum and the end-point test -/

section visibility

variable {α : Type} [LinearOrderedField α] [FloorRing α]

/-- On a grid with `cell_size > 0` and one occupancy code per cell
`check_pose_with_environment` reads no code outside `Env`. -/
theorem check_pose_defined (env : EnvironmentDescription α) (px py pz : α)
    (hcs : 0 < env.cell_size)
    (hEnv : (env.Env.length : Int) = env.num_cells.x * env.num_cells.y * env.num_cells.z) :
    ∃ c, check_pose_with_environment env px py pz = some c := by
  unfold check_pose_with_environment
  split
  · exact ⟨1, rfl⟩
  · rename_i hb
    simp only [not_or, not_lt, gt_iff_lt] at hb
    obtain ⟨hx1, _, hy1, _, hz1, _⟩ := hb
    have qx : 0 ≤ (px - env.min_coord.x) / env.cell_size :=
      div_nonneg (sub_nonneg.mpr hx1) hcs.le
    have qy : 0 ≤ (py - env.min_coord.y) / env.cell_size :=
      div_nonneg (sub_nonneg.mpr hy1) hcs.le
    have qz : 0 ≤ (pz - env.min_coord.z) / env.cell_size :=
      div_nonneg (sub_nonneg.mpr hz1) hcs.le
    simp only [to_int, qx, qy, qz, if_true]
    split
    · exact ⟨1, rfl⟩
    · rename_i hi
      simp only [not_or, not_le, ge_iff_le] at hi
      obtain ⟨h0, h1⟩ := indexFrom3D_range env _ _ _ ⟨Int.floor_nonneg.mpr qx, hi.1⟩
        ⟨Int.floor_nonneg.mpr qy, hi.2.1⟩ ⟨Int.floor_nonneg.mpr qz, hi.2.2⟩
      obtain ⟨c, hc⟩ := vec_at_some env.Env _ h0 (by rw [hEnv]; exact h1)
      exact ⟨c, by rw [hc]⟩

/-- The loop has an answer when every sampled cell has a code. -/
theorem traverse_path_defined (env : EnvironmentDescription α) (d : α) (steps : Int)
    (sx sy sz ex ey ez : α) (is : List Int)
    (hdef : ∀ i ∈ is, ∃ c, cell_code env (path_pose d steps sx ex i)
      (path_pose d steps sy ey i) (path_pose d steps sz ez i) = some c) :
    ∃ b, traverse_path env d steps sx sy sz ex ey ez is = some b := by
  induction is with
  | nil => exact ⟨true, rfl⟩
  | cons i is ih =>
    obtain ⟨c, hc⟩ := hdef i (List.mem_cons_self _ _)
    simp only [traverse_path, hc]
    split
    · exact ⟨false, rfl⟩
    · exact ih (fun j hj => hdef j (List.mem_cons_of_mem _ hj))

/-- On a grid with `cell_size > 0` and one occupancy code per cell
`check_environment_for_obstacle` reads no code outside `Env`: it has an answer. -/
theorem check_environment_for_obstacle_defined (m : Libm α) (env : EnvironmentDescription α)
    (sx sy sz ex ey ez : α) (hcs : 0 < env.cell_size)
    (hEnv : (env.Env.length : Int) = env.num_cells.x * env.num_cells.y * env.num_cells.z) :
    ∃ b, check_environment_for_obstacle m env sx sy sz ex ey ez = some b := by
  obtain ⟨c1, h1⟩ := check_pose_defined env sx sy sz hcs hEnv
  obtain ⟨c2, h2⟩ := check_pose_defined env ex ey ez hcs hEnv
  by_cases hc1 : c1 = 0
  · by_cases hc2 : c2 = 0
    · subst hc1 hc2
      rw [check_environment_for_obstacle_loop m env sx sy sz ex ey ez h1 h2]
      refine traverse_path_defined _ _ _ _ _ _ _ _ _ _ (fun i hi => ?_)
      obtain ⟨t, ht0, ht1, hp⟩ := sample_on_segment _ _ i hi
      simp only [path_steps, hp]
      exact cell_code_on_segment env sx sy sz ex ey ez t hcs hEnv h1 h2 ht0 ht1
    · exact ⟨false, by simp [check_environment_for_obstacle, h1, h2, hc1, hc2]⟩
  · exact ⟨false, by simp [check_environment_for_obstacle, h1, hc1]⟩

/-- A point that the guard of `get_gas_concentration` rejects is rejected by
`check_pose_with_environment` too, with result `1`. -/
theorem check_pose_of_guard (env : EnvironmentDescription α) (x y z : α)
    (hcs : 0 < env.cell_size)
    (hg : (⌈(x - env.min_coord.x) / env.cell_size⌉ : Int) < 0 ∨
      ⌈(x - env.min_coord.x) / env.cell_size⌉ > env.num_cells.x ∨
      (⌈(y - env.min_coord.y) / env.cell_size⌉ : Int) < 0 ∨
      ⌈(y - env.min_coord.y) / env.cell_size⌉ > env.num_cells.y ∨
      (⌈(z - env.min_coord.z) / env.cell_size⌉ : Int) < 0 ∨
      ⌈(z - env.min_coord.z) / env.cell_size⌉ > env.num_cells.z) :
    check_pose_with_environment env x y z = some 1 := by
  unfold check_pose_with_environment
  split
  · rfl
  · rename_i hb
    simp only [not_or, not_lt, gt_iff_lt] at hb
    obtain ⟨hx1, _, hy1, _, hz1, _⟩ := hb
    have qx : 0 ≤ (x - env.min_coord.x) / env.cell_size :=
      div_nonneg (sub_nonneg.mpr hx1) hcs.le
    have qy : 0 ≤ (y - env.min_coord.y) / env.cell_size :=
      div_nonneg (sub_nonneg.mpr hy1) hcs.le
    have qz : 0 ≤ (z - env.min_coord.z) / env.cell_size :=
      div_nonneg (sub_nonneg.mpr hz1) hcs.le
    have cx := Int.ceil_nonneg qx
    have cy := Int.ceil_nonneg qy
    have cz := Int.ceil_nonneg qz
    have key : ∀ (q : α) (n : Int), ⌈q⌉ > n → ⌊q⌋ ≥ n := by
      intro q n hq
      exact Int.le_floor.mpr (le_of_lt (Int.lt_ceil.mp hq))
    simp only [to_int, qx, qy, qz, if_true]
    rw [if_pos]
    rcases hg with h | h | h | h | h | h
    · omega
    · exact Or.inl (key _ _ h)
    · omega
    · exact Or.inr (Or.inl (key _ _ h))
    · omega
    · exact Or.inr (Or.inr (key _ _ h))

/-- The loop of `get_gas_concentration` over the filaments adds, to the running sum, the
value of every filament inside its cutoff radius with a confirmed line of sight. -/
theorem sum_filaments_eq (m : Libm α) (s : sim_obj α) (x y z : α)
    (fils : List (Int × Filament α)) (acc : α)
    (hdef : ∀ p ∈ fils, ∃ b,
      check_environment_for_obstacle m s.envDesc x y z p.2.x p.2.y p.2.z = some b) :
    sum_filaments m s x y z fils acc =
      some (acc + ((fils.filter (fun p =>
        decide ((x - p.2.x) * (x - p.2.x) + (y - p.2.y) * (y - p.2.y) +
          (z - p.2.z) * (z - p.2.z) < p.2.sigma * 5 / 100 * (p.2.sigma * 5 / 100)) &&
        decide (check_environment_for_obstacle m s.envDesc x y z p.2.x p.2.y p.2.z =
          some true))).map
        (fun p => concentration_from_filament m s x y z p.2)).sum) := by
  induction fils generalizing acc with
  | nil => simp [sum_filaments]
  | cons p rest ih =>
    obtain ⟨k, fil⟩ := p
    obtain ⟨b, hb⟩ := hdef (k, fil) (List.mem_cons_self _ _)
    have ih2 := fun a => ih a (fun q hq => hdef q (List.mem_cons_of_mem _ hq))
    simp only at hb
    by_cases hcut : (x - fil.x) * (x - fil.x) + (y - fil.y) * (y - fil.y) +
        (z - fil.z) * (z - fil.z) < fil.sigma * 5 / 100 * (fil.sigma * 5 / 100)
    · cases b with
      | true =>
        simp only [sum_filaments, hcut, if_true, hb, ih2, List.filter_cons, decide_True,
          Bool.and_self, List.map_cons, List.sum_cons]
        rw [add_assoc]
      | false =>
        simp only [sum_filaments, hcut, if_true, hb, ih2, List.filter_cons, decide_True,
          Bool.true_and]
        simp
    · simp only [sum_filaments, hcut, if_false, ih2, List.filter_cons, decide_False,
        Bool.false_and]
      simp

/-- C13: in filament mode, on a grid with `cell_size > 0` and one occupancy code per cell,
for every query point `get_gas_concentration` returns the sum of
`concentration_from_filament(point, f)` over exactly the active filaments `f` whose squared
distance to the point is below `(5·sigma/100)²` and for which
`check_environment_for_obstacle(point, f.position)` is true. No in-range condition on the
point is needed: whenever the `ceil` bounds check rejects the point, every visibility test
from that point is false. -/
theorem get_gas_concentration_filament_sum (m : Libm α) (s : sim_obj α) (x y z : α)
    (hmode : s.filament_log = true) (hcs : 0 < s.envDesc.cell_size)
    (hEnv : (s.envDesc.Env.length : Int) =
      s.envDesc.num_cells.x * s.envDesc.num_cells.y * s.envDesc.num_cells.z) :
    get_gas_concentration m s x y z =
      some (((s.activeFilaments.filter (fun p =>
        decide ((x - p.2.x) * (x - p.2.x) + (y - p.2.y) * (y - p.2.y) +
          (z - p.2.z) * (z - p.2.z) < p.2.sigma * 5 / 100 * (p.2.sigma * 5 / 100)) &&
        decide (check_environment_for_obstacle m s.envDesc x y z p.2.x p.2.y p.2.z =
          some true))).map
        (fun p => concentration_from_filament m s x y z p.2)).sum) ∧
    (((⌈(x - s.envDesc.min_coord.x) / s.envDesc.cell_size⌉ : Int) < 0 ∨
        ⌈(x - s.envDesc.min_coord.x) / s.envDesc.cell_size⌉ > s.envDesc.num_cells.x ∨
        (⌈(y - s.envDesc.min_coord.y) / s.envDesc.cell_size⌉ : Int) < 0 ∨
        ⌈(y - s.envDesc.min_coord.y) / s.envDesc.cell_size⌉ > s.envDesc.num_cells.y ∨
        (⌈(z - s.envDesc.min_coord.z) / s.envDesc.cell_size⌉ : Int) < 0 ∨
        ⌈(z - s.envDesc.min_coord.z) / s.envDesc.cell_size⌉ > s.envDesc.num_cells.z) →
      ∀ ex ey ez, check_environment_for_obstacle m s.envDesc x y z ex ey ez = some false) := by
  have hrej : ((⌈(x - s.envDesc.min_coord.x) / s.envDesc.cell_size⌉ : Int) < 0 ∨
        ⌈(x - s.envDesc.min_coord.x) / s.envDesc.cell_size⌉ > s.envDesc.num_cells.x ∨
        (⌈(y - s.envDesc.min_coord.y) / s.envDesc.cell_size⌉ : Int) < 0 ∨
        ⌈(y - s.envDesc.min_coord.y) / s.envDesc.cell_size⌉ > s.envDesc.num_cells.y ∨
        (⌈(z - s.envDesc.min_coord.z) / s.envDesc.cell_size⌉ : Int) < 0 ∨
        ⌈(z - s.envDesc.min_coord.z) / s.envDesc.cell_size⌉ > s.envDesc.num_cells.z) →
      ∀ ex ey ez, check_environment_for_obstacle m s.envDesc x y z ex ey ez = some false := by
    intro hg ex ey ez
    simp [check_environment_for_obstacle, check_pose_of_guard s.envDesc x y z hcs hg]
  refine ⟨?_, hrej⟩
  by_cases hg : ((⌈(x - s.envDesc.min_coord.x) / s.envDesc.cell_size⌉ : Int) < 0 ∨
        ⌈(x - s.envDesc.min_coord.x) / s.envDesc.cell_size⌉ > s.envDesc.num_cells.x ∨
        (⌈(y - s.envDesc.min_coord.y) / s.envDesc.cell_size⌉ : Int) < 0 ∨
        ⌈(y - s.envDesc.min_coord.y) / s.envDesc.cell_size⌉ > s.envDesc.num_cells.y ∨
        (⌈(z - s.envDesc.min_coord.z) / s.envDesc.cell_size⌉ : Int) < 0 ∨
        ⌈(z - s.envDesc.min_coord.z) / s.envDesc.cell_size⌉ > s.envDesc.num_cells.z)
  · have hnil : s.activeFilaments.filter (fun p =>
        decide ((x - p.2.x) * (x - p.2.x) + (y - p.2.y) * (y - p.2.y) +
          (z - p.2.z) * (z - p.2.z) < p.2.sigma * 5 / 100 * (p.2.sigma * 5 / 100)) &&
        decide (check_environment_for_obstacle m s.envDesc x y z p.2.x p.2.y p.2.z =
          some true)) = [] := by
      rw [List.filter_eq_nil_iff]
      intro p _
      simp [hrej hg p.2.x p.2.y p.2.z]
    rw [hnil]
    unfold get_gas_concentration
    simp only [hg, if_true, List.map_nil, List.sum_nil]
  · unfold get_gas_concentration
    simp only [hg, if_false, hmode, if_true]
    rw [sum_filaments_eq m s x y z s.activeFilaments 0
      (fun p _ => check_environment_for_obstacle_defined m s.envDesc x y z _ _ _ hcs hEnv),
      zero_add]

/-- C14: on a grid with `cell_size > 0` and one occupancy code per cell,
`check_environment_for_obstacle` returns false whenever one of its two end points, here
`p`, has a coordinate outside `[min_coord, max_coord]`, or resolves to a cell index
`>= num_cells` on some axis, or lies in a cell whose occupancy code is not `0`; this holds
with `p` as the start and with `p` as the end, whatever the other end point `q` is. -/
theorem check_environment_for_obstacle_rejects (m : Libm α) (env : EnvironmentDescription α)
    (px py pz qx qy qz : α) (hcs : 0 < env.cell_size)
    (hEnv : (env.Env.length : Int) = env.num_cells.x * env.num_cells.y * env.num_cells.z)
    (h : (px < env.min_coord.x ∨ px > env.max_coord.x ∨ py < env.min_coord.y ∨
          py > env.max_coord.y ∨ pz < env.min_coord.z ∨ pz > env.max_coord.z) ∨
        (to_int ((px - env.min_coord.x) / env.cell_size) ≥ env.num_cells.x ∨
          to_int ((py - env.min_coord.y) / env.cell_size) ≥ env.num_cells.y ∨
          to_int ((pz - env.min_coord.z) / env.cell_size) ≥ env.num_cells.z) ∨
        ∃ c, vec_at env.Env (indexFrom3D env
            (to_int ((px - env.min_coord.x) / env.cell_size))
            (to_int ((py - env.min_coord.y) / env.cell_size))
            (to_int ((pz - env.min_coord.z) / env.cell_size))) = some c ∧ c ≠ 0) :
    check_environment_for_obstacle m env px py pz qx qy qz = some false ∧
    check_environment_for_obstacle m env qx qy qz px py pz = some false := by
  have key : check_pose_with_environment env px py pz ≠ some 0 := by
    intro h0
    unfold check_pose_with_environment at h0
    split at h0
    · simp at h0
    · rename_i hbox
      simp only [] at h0
      split at h0
      · simp at h0
      · rename_i hidx
        rcases h with hb | hb | ⟨c, hc, hc0⟩
        · exact hbox hb
        · exact hidx hb
        · rw [hc] at h0
          simp only [Option.some.injEq] at h0
          exact hc0 (by exact_mod_cast h0)
  obtain ⟨c1, h1⟩ := check_pose_defined env px py pz hcs hEnv
  obtain ⟨c2, h2⟩ := check_pose_defined env qx qy qz hcs hEnv
  have hc1 : c1 ≠ 0 := by
    intro e
    subst e
    exact key h1
  constructor
  · simp [check_environment_for_obstacle, h1, hc1]
  · by_cases hc2 : c2 = 0
    · simp [check_environment_for_obstacle, h1, h2, hc1, hc2]
    · simp [check_environment_for_obstacle, h2, hc2]

end visibility

set_option maxRecDepth 1000000 in
/-- Of the two filaments at `(3.1, 4.1, 0.5)`, with `sigma = 200` and `sigma = 1`, only the
first passes the cutoff and visibility tests of the query `(0.1, 0.1, 0.5)` on `open_env`. -/
theorem open_env_filter (f : Int × Filament ℚ → ℚ) :
    some (List.sum (List.map f (List.filter (fun p =>
      decide (((1 / 10 : ℚ) - p.2.x) * ((1 / 10 : ℚ) - p.2.x) +
        ((1 / 10 : ℚ) - p.2.y) * ((1 / 10 : ℚ) - p.2.y) +
        ((1 / 2 : ℚ) - p.2.z) * ((1 / 2 : ℚ) - p.2.z) <
          p.2.sigma * 5 / 100 * (p.2.sigma * 5 / 100)) &&
      decide (check_environment_for_obstacle libm_q (open_env : EnvironmentDescription ℚ)
        (1 / 10) (1 / 10) (1 / 2) p.2.x p.2.y p.2.z = some true))
      [(0, far_filament), (1, ⟨31 / 10, 41 / 10, 1 / 2, 1⟩)]))) =
    some (f (0, far_filament) + 0) := by
  rw [List.filter_cons_of_pos (by with_unfolding_all rfl),
    List.filter_cons_of_neg (by with_unfolding_all decide)]
  simp only [List.filter_nil, List.map_cons, List.map_nil, List.sum_cons, List.sum_nil]

set_option maxRecDepth 1000000 in
/-- C13 (witness): on `open_env` with two filaments, one 5 m away with a cutoff radius of
10 m and one at the same place with a cutoff radius of 5 cm, the query at
`(0.1, 0.1, 0.5)` returns the value of the first filament alone; from `(-5, 0, 0)`, which
the guard rejects, no filament is visible. -/
theorem get_gas_concentration_filament_sum_witness :
    ((filament_instance (open_env : EnvironmentDescription ℚ)
        [(0, far_filament), (1, ⟨31 / 10, 41 / 10, 1 / 2, 1⟩)]).filament_log = true ∧
      (0 : ℚ) < (open_env : EnvironmentDescription ℚ).cell_size) ∧
    get_gas_concentration libm_q (filament_instance open_env
        [(0, far_filament), (1, ⟨31 / 10, 41 / 10, 1 / 2, 1⟩)]) (1 / 10) (1 / 10) (1 / 2) =
      some (concentration_from_filament libm_q (filament_instance open_env
        [(0, far_filament), (1, ⟨31 / 10, 41 / 10, 1 / 2, 1⟩)]) (1 / 10) (1 / 10) (1 / 2)
        far_filament + 0) ∧
    check_environment_for_obstacle libm_q (open_env : EnvironmentDescription ℚ) (-5) 0 0
      far_filament.x far_filament.y far_filament.z = some false := by
  have h := get_gas_concentration_filament_sum libm_q (filament_instance open_env
    [(0, far_filament), (1, ⟨31 / 10, 41 / 10, 1 / 2, 1⟩)]) (1 / 10) (1 / 10) (1 / 2) rfl
    (by with_unfolding_all decide) (by with_unfolding_all decide)
  have h5 := (get_gas_concentration_filament_sum libm_q (filament_instance open_env
    [(0, far_filament), (1, ⟨31 / 10, 41 / 10, 1 / 2, 1⟩)]) (-5) 0 0 rfl
    (by with_unfolding_all decide) (by with_unfolding_all decide)).2
    (Or.inl (by with_unfolding_all decide)) far_filament.x far_filament.y far_filament.z
  exact ⟨⟨rfl, by with_unfolding_all decide⟩, h.1.trans (open_env_filter _), h5⟩

set_option maxRecDepth 1000000 in
/-- C14 (witness): on `diag_env` the point `(0.5, 1.5, 0.5)` lies in the obstacle cell
`(0,1,0)`: no line of sight from it or to it. -/
theorem check_environment_for_obstacle_rejects_witness :
    ((0 : ℚ) < (diag_env : EnvironmentDescription ℚ).cell_size ∧
      vec_at (diag_env : EnvironmentDescription ℚ).Env (indexFrom3D (diag_env : EnvironmentDescription ℚ)
        (to_int (((1 / 2 : ℚ) - 0) / 1)) (to_int (((3 / 2 : ℚ) - 0) / 1))
        (to_int (((1 / 2 : ℚ) - 0) / 1))) = some 1) ∧
    check_environment_for_obstacle libm_q (diag_env : EnvironmentDescription ℚ) (1 / 2) (3 / 2)
      (1 / 2) (31 / 10) (41 / 10) (1 / 2) = some false ∧
    check_environment_for_obstacle libm_q (diag_env : EnvironmentDescription ℚ) (31 / 10)
      (41 / 10) (1 / 2) (1 / 2) (3 / 2) (1 / 2) = some false :=
  ⟨⟨by with_unfolding_all decide, by with_unfolding_all rfl⟩,
    check_environment_for_obstacle_rejects libm_q (diag_env : EnvironmentDescription ℚ) (1 / 2)
      (3 / 2) (1 / 2) (31 / 10) (41 / 10) (1 / 2) (by with_unfolding_all decide)
      (by with_unfolding_all decide)
      (Or.inr (Or.inr ⟨1, by with_unfolding_all rfl, by decide⟩))⟩


/-! ### Wind queries without wind data -/

section no_wind

variable {α : Type} [LinearOrderedField α] [FloorRing α]

/-- On an instance without wind data every pass of the loop of `get_wind_value_srv` appends
what `u`, `v`, `w` held when they were declared. -/
theorem wind_value_loop_no_wind (s : sim_obj α) (rest : List (sim_obj α))
    (junk : Nat → α × α × α) (req_y req_z : List α) (hw : s.load_wind_data = false)
    (xs : List α) (i : Nat) (res : List α × List α × List α)
    (hy : i + xs.length ≤ req_y.length) (hz : i + xs.length ≤ req_z.length) :
    wind_value_loop (s :: rest) junk req_y req_z i xs res =
      some (res.1 ++ (List.range xs.length).map (fun (k : Nat) => (junk (i + k)).1),
        res.2.1 ++ (List.range xs.length).map (fun (k : Nat) => (junk (i + k)).2.1),
        res.2.2 ++ (List.range xs.length).map (fun (k : Nat) => (junk (i + k)).2.2)) := by
  induction xs generalizing i res with
  | nil => simp [wind_value_loop]
  | cons x xs ih =>
    simp only [List.length_cons] at hy hz
    obtain ⟨y, hy1⟩ : ∃ y, req_y.get? i = some y :=
      ⟨_, List.get?_eq_get (by omega)⟩
    obtain ⟨z, hz1⟩ : ∃ z, req_z.get? i = some z :=
      ⟨_, List.get?_eq_get (by omega)⟩
    have hg : get_wind_value s x y z (junk i).1 (junk i).2.1 (junk i).2.2 =
        some ((junk i).1, (junk i).2.1, (junk i).2.2) := by
      simp [get_wind_value, hw]
    rw [wind_value_loop]
    simp only [List.get?_cons_zero, hy1, hz1, hg]
    rw [ih (i + 1) _ (by omega) (by omega)]
    simp only [List.length_cons, List.range_succ_eq_map, List.map_cons, List.map_map,
      List.append_assoc, List.singleton_append, Nat.add_zero, Function.comp_def]
    simp only [Nat.add_assoc, Nat.add_comm 1]

/-- C15 (amended): on an instance constructed with `load_wind_data = false`,
`get_wind_value` leaves `u`, `v`, `w` as they were, for every query point; what
`get_wind_value_srv` receives and puts in its response is, for each request, the content
its uninitialised locals `u`, `v`, `w` had before the call. -/
theorem get_wind_value_without_wind_data (s : sim_obj α) (hw : s.load_wind_data = false) :
    (∀ x y z u v w : α, get_wind_value s x y z u v w = some (u, v, w)) ∧
    (∀ (rest : List (sim_obj α)) (junk : Nat → α × α × α) (req_x req_y req_z : List α),
      req_x.length ≤ req_y.length → req_x.length ≤ req_z.length →
      get_wind_value_srv (s :: rest) junk req_x req_y req_z =
        some ((List.range req_x.length).map (fun (k : Nat) => (junk k).1),
          (List.range req_x.length).map (fun (k : Nat) => (junk k).2.1),
          (List.range req_x.length).map (fun (k : Nat) => (junk k).2.2))) := by
  constructor
  · intro x y z u v w
    simp [get_wind_value, hw]
  · intro rest junk req_x req_y req_z hy hz
    unfold get_wind_value_srv
    rw [wind_value_loop_no_wind s rest junk req_y req_z hw req_x 0 _ (by omega) (by omega)]
    simp

end no_wind

set_option maxRecDepth 1000000 in
/-- C15 (counterexample): `dense_instance [] 3` holds no wind data. Called on it with
`u, v, w = 1, 2, 3`, `get_wind_value` hands back `(1, 2, 3)`, and with `4, 5, 6` it hands
back `(4, 5, 6)`: the result is the previous content of the output variables. Through
`get_wind_value_srv` the response is `([1], [2], [3])` when the locals held `1, 2, 3`,
the same response a wind-holding instance with wind `(1, 2, 3)` in the queried cell
gives. -/
theorem no_wind_result_is_previous_content :
    (dense_instance [] 3).load_wind_data = false ∧
    get_wind_value (dense_instance [] 3) 0 0 0 1 2 3 = some (1, 2, 3) ∧
    get_wind_value (dense_instance [] 3) 0 0 0 4 5 6 = some (4, 5, 6) ∧
    get_wind_value_srv [dense_instance [] 3] (fun _ => (1, 2, 3)) [0] [0] [0] =
      some ([1], [2], [3]) ∧
    single_cell_wind.load_wind_data = true ∧
    get_wind_value_srv [single_cell_wind] (fun _ => (7, 7, 7)) [0] [0] [0] =
      some ([1], [2], [3]) := by
  refine ⟨rfl, ?_, ?_, ?_, rfl, ?_⟩ <;> with_unfolding_all rfl

set_option maxRecDepth 1000000 in
/-- C15 (witness): two requests to a player whose first instance holds no wind data; the
response repeats what the locals held, `(1, 2, 3)` and then `(4, 5, 6)`. -/
theorem get_wind_value_without_wind_data_witness :
    (dense_instance [] 3).load_wind_data = false ∧
    get_wind_value (dense_instance [] 3) 0 0 0 1 2 3 = some (1, 2, 3) ∧
    get_wind_value_srv [dense_instance [] 3, single_cell_wind]
      (fun k => if k = 0 then (1, 2, 3) else (4, 5, 6)) [0, 1 / 2] [0, 1 / 2] [0, 1 / 2] =
      some ([1, 4], [2, 5], [3, 6]) :=
  ⟨rfl, (get_wind_value_without_wind_data (dense_instance [] 3) rfl).1 0 0 0 1 2 3,
    ((get_wind_value_without_wind_data (dense_instance [] 3) rfl).2 [single_cell_wind]
      (fun k => if k = 0 then (1, 2, 3) else (4, 5, 6)) [0, 1 / 2] [0, 1 / 2] [0, 1 / 2]
      (by decide) (by decide)).trans (by with_unfolding_all rfl)⟩


/-! ### The axis mapping of the dense queries -/

section axis

variable {α : Type} [LinearOrderedField α] [FloorRing α]

/-- C16: over an ordered field such as the reals, with `cell_size > 0`, the axis mapping
`ceil((coord - min) / cell_size)` of `get_gas_concentration` and `get_wind_value` sends
every `coord` with `min + (n-1)·cell_size < coord <= min + n·cell_size` to index `n`, and
only those; the boundary `coord = min + n·cell_size` resolves to `n`, a coordinate above it
by at most one cell size resolves to `n + 1`, and the mapping is monotone in `coord`. The
last two parts state that both query functions resolve their three coordinates by this
mapping. -/
theorem axis_index_cells (min cell_size : α) (hcs : 0 < cell_size) :
    (∀ (coord : α) (n : Int), axis_index min cell_size coord = n ↔
      min + ((n : α) - 1) * cell_size < coord ∧ coord ≤ min + (n : α) * cell_size) ∧
    (∀ n : Int, axis_index min cell_size (min + (n : α) * cell_size) = n) ∧
    (∀ (n : Int) (e : α), 0 < e → e ≤ cell_size →
      axis_index min cell_size (min + (n : α) * cell_size + e) = n + 1) ∧
    (∀ c1 c2 : α, c1 ≤ c2 → axis_index min cell_size c1 ≤ axis_index min cell_size c2) ∧
    (∀ (m : Libm α) (s : sim_obj α) (x y z : α), get_gas_concentration m s x y z =
      if axis_index s.envDesc.min_coord.x s.envDesc.cell_size x < 0 ∨
          axis_index s.envDesc.min_coord.x s.envDesc.cell_size x > s.envDesc.num_cells.x ∨
          axis_index s.envDesc.min_coord.y s.envDesc.cell_size y < 0 ∨
          axis_index s.envDesc.min_coord.y s.envDesc.cell_size y > s.envDesc.num_cells.y ∨
          axis_index s.envDesc.min_coord.z s.envDesc.cell_size z < 0 ∨
          axis_index s.envDesc.min_coord.z s.envDesc.cell_size z > s.envDesc.num_cells.z then
        some 0
      else if s.filament_log then sum_filaments m s x y z s.activeFilaments 0
      else vec_at s.C (indexFrom3D s.envDesc
        (axis_index s.envDesc.min_coord.x s.envDesc.cell_size x)
        (axis_index s.envDesc.min_coord.y s.envDesc.cell_size y)
        (axis_index s.envDesc.min_coord.z s.envDesc.cell_size z))) ∧
    (∀ (s : sim_obj α) (x y z u v w : α), s.load_wind_data = true →
      ¬ (axis_index s.envDesc.min_coord.x s.envDesc.cell_size x < 0 ∨
          axis_index s.envDesc.min_coord.x s.envDesc.cell_size x > s.envDesc.num_cells.x ∨
          axis_index s.envDesc.min_coord.y s.envDesc.cell_size y < 0 ∨
          axis_index s.envDesc.min_coord.y s.envDesc.cell_size y > s.envDesc.num_cells.y ∨
          axis_index s.envDesc.min_coord.z s.envDesc.cell_size z < 0 ∨
          axis_index s.envDesc.min_coord.z s.envDesc.cell_size z > s.envDesc.num_cells.z) →
      get_wind_value s x y z u v w =
        match vec_at s.U (indexFrom3D s.envDesc
            (axis_index s.envDesc.min_coord.x s.envDesc.cell_size x)
            (axis_index s.envDesc.min_coord.y s.envDesc.cell_size y)
            (axis_index s.envDesc.min_coord.z s.envDesc.cell_size z)),
          vec_at s.V (indexFrom3D s.envDesc
            (axis_index s.envDesc.min_coord.x s.envDesc.cell_size x)
            (axis_index s.envDesc.min_coord.y s.envDesc.cell_size y)
            (axis_index s.envDesc.min_coord.z s.envDesc.cell_size z)),
          vec_at s.W (indexFrom3D s.envDesc
            (axis_index s.envDesc.min_coord.x s.envDesc.cell_size x)
            (axis_index s.envDesc.min_coord.y s.envDesc.cell_size y)
            (axis_index s.envDesc.min_coord.z s.envDesc.cell_size z)) with
        | some u1, some v1, some w1 => some (u1, v1, w1)
        | _, _, _ => none) := by
  have hne : cell_size ≠ 0 := hcs.ne.symm
  have key : ∀ (coord : α) (n : Int), axis_index min cell_size coord = n ↔
      min + ((n : α) - 1) * cell_size < coord ∧ coord ≤ min + (n : α) * cell_size := by
    intro coord n
    unfold axis_index
    rw [Int.ceil_eq_iff, lt_div_iff₀ hcs, div_le_iff₀ hcs]
    constructor
    · rintro ⟨h1, h2⟩
      exact ⟨by linarith, by linarith⟩
    · rintro ⟨h1, h2⟩
      exact ⟨by linarith, by linarith⟩
  refine ⟨key, ?_, ?_, ?_, ?_, ?_⟩
  · intro n
    rw [key]
    constructor
    · nlinarith
    · exact le_refl _
  · intro n e he0 hele
    rw [key]
    push_cast
    constructor
    · linarith
    · linarith
  · intro c1 c2 h
    unfold axis_index
    exact Int.ceil_mono (div_le_div_of_nonneg_right (by linarith) hcs.le)
  · intro m s x y z
    rfl
  · intro s x y z u v w hw hin
    unfold get_wind_value
    simp only [hw, if_true]
    unfold axis_index at hin
    rw [if_neg hin]
    rfl

end axis

/-- C16 (witness): over the reals with `min = 0` and `cell_size = 1`, the boundary `3`
resolves to index `3` and the coordinate `3.25` to index `4`. -/
theorem axis_index_cells_witness :
    (0 : ℝ) < 1 ∧ axis_index (0 : ℝ) 1 (0 + ((3 : Int) : ℝ) * 1) = 3 ∧
    axis_index (0 : ℝ) 1 (0 + ((3 : Int) : ℝ) * 1 + 1 / 4) = 3 + 1 :=
  ⟨one_pos, (axis_index_cells (0 : ℝ) 1 one_pos).2.1 3,
    (axis_index_cells (0 : ℝ) 1 one_pos).2.2.1 3 (1 / 4) (by norm_num) (by norm_num)⟩


/-! ### The samples of the visibility walk -/

section samples

variable {α : Type} [LinearOrderedField α] [FloorRing α]

/-- The loop variable takes exactly the values `1, ..., steps - 2`. -/
theorem mem_loop_indices_iff (steps i : Int) :
    i ∈ loop_indices steps ↔ 1 ≤ i ∧ i ≤ steps - 2 := by
  constructor
  · exact mem_loop_indices steps i
  · rintro ⟨h1, h2⟩
    simp only [loop_indices, List.mem_map, List.mem_range]
    exact ⟨(i - 1).toNat, by omega, by omega⟩

/-- The loop answers `true` exactly when every cell it samples has code `0`. -/
theorem traverse_path_true_iff (env : EnvironmentDescription α) (d : α) (steps : Int)
    (sx sy sz ex ey ez : α) (is : List Int) :
    traverse_path env d steps sx sy sz ex ey ez is = some true ↔
      ∀ i ∈ is, cell_code env (path_pose d steps sx ex i) (path_pose d steps sy ey i)
        (path_pose d steps sz ez i) = some 0 := by
  constructor
  · intro h
    induction is with
    | nil => simp
    | cons i is ih =>
      unfold traverse_path at h
      split at h
      · simp at h
      · rename_i c hc
        by_cases h0 : c = 0
        · subst h0
          simp only [ne_eq, not_true_eq_false, if_false] at h
          intro j hj
          rcases List.mem_cons.mp hj with rfl | hj
          · exact hc
          · exact ih h j hj
        · simp [h0] at h
  · exact traverse_path_free env d steps sx sy sz ex ey ez is

/-- The point of pass `i` is `start + i · (end - start) / steps`, when `steps` is
`ceil(distance / cell_size)` and at least `1`. -/
theorem path_pose_eq (d cs a b : α) (i : Int) (hsteps : 1 ≤ ⌈d / cs⌉) :
    path_pose d ⌈d / cs⌉ a b i = a + (i : α) * (b - a) / ((⌈d / cs⌉ : Int) : α) := by
  have hd : d ≠ 0 := by
    intro h0
    rw [h0, zero_div, Int.ceil_zero] at hsteps
    omega
  have hs : ((⌈d / cs⌉ : Int) : α) ≠ 0 := by
    have : (⌈d / cs⌉ : Int) ≠ 0 := by omega
    exact_mod_cast this
  unfold path_pose
  field_simp
  ring

/-- C18: for end points in free in-bounds cells (`check_pose_with_environment` is `0` for
both), with `steps = ceil(distance / cell_size)`, `check_environment_for_obstacle` returns
true if and only if the cells containing the points `start + i·(end - start)/steps` for
`i = 1, ..., steps-2` all have occupancy code `0`. The loop tests these points and no
other (neither `i = 0` nor `i = steps`, the end points), and when `steps <= 2` it tests
none and the result is true. -/
theorem check_environment_for_obstacle_samples (m : Libm α) (env : EnvironmentDescription α)
    (sx sy sz ex ey ez : α) (hs : check_pose_with_environment env sx sy sz = some 0)
    (he : check_pose_with_environment env ex ey ez = some 0) :
    (check_environment_for_obstacle m env sx sy sz ex ey ez = some true ↔
      ∀ i : Int, 1 ≤ i → i ≤ path_steps m env sx sy sz ex ey ez - 2 →
        cell_code env
          (sx + (i : α) * (ex - sx) / ((path_steps m env sx sy sz ex ey ez : Int) : α))
          (sy + (i : α) * (ey - sy) / ((path_steps m env sx sy sz ex ey ez : Int) : α))
          (sz + (i : α) * (ez - sz) / ((path_steps m env sx sy sz ex ey ez : Int) : α)) =
            some 0) ∧
    (∀ i : Int, i ∈ loop_indices (path_steps m env sx sy sz ex ey ez) ↔
      1 ≤ i ∧ i ≤ path_steps m env sx sy sz ex ey ez - 2) ∧
    (path_steps m env sx sy sz ex ey ez ≤ 2 →
      loop_indices (path_steps m env sx sy sz ex ey ez) = [] ∧
      check_environment_for_obstacle m env sx sy sz ex ey ez = some true) := by
  rw [check_environment_for_obstacle_loop m env sx sy sz ex ey ez hs he, traverse_path_true_iff]
  refine ⟨?_, fun i => mem_loop_indices_iff _ i, ?_⟩
  · constructor
    · intro h i h1 h2
      have hi := h i ((mem_loop_indices_iff _ i).mpr ⟨h1, h2⟩)
      have hst : 1 ≤ ⌈path_distance m sx sy sz ex ey ez / env.cell_size⌉ := by
        unfold path_steps at h2
        omega
      unfold path_steps
      rw [← path_pose_eq _ _ sx ex i hst, ← path_pose_eq _ _ sy ey i hst,
        ← path_pose_eq _ _ sz ez i hst]
      exact hi
    · intro h i hi
      obtain ⟨h1, h2⟩ := (mem_loop_indices_iff _ i).mp hi
      have hst : 1 ≤ ⌈path_distance m sx sy sz ex ey ez / env.cell_size⌉ := by
        unfold path_steps at h2
        omega
      have := h i h1 h2
      unfold path_steps at this ⊢
      rw [← path_pose_eq _ _ sx ex i hst, ← path_pose_eq _ _ sy ey i hst,
        ← path_pose_eq _ _ sz ez i hst] at this
      exact this
  · intro h2
    have hnil : loop_indices (path_steps m env sx sy sz ex ey ez) = [] := by
      unfold loop_indices
      rw [show (path_steps m env sx sy sz ex ey ez - 2).toNat = 0 by omega]
      rfl
    refine ⟨hnil, ?_⟩
    rw [hnil]
    simp

end samples

/-- Over the reals the distance from `(0.5, 0.5, 0.5)` to `(3.5, 0.5, 0.5)` is `3`. -/
theorem row_distance :
    path_distance ⟨Real.sqrt, Real.exp, Real.pi⟩ (1 / 2 : ℝ) (1 / 2) (1 / 2)
      (7 / 2) (1 / 2) (1 / 2) = 3 := by
  unfold path_distance
  simp only []
  rw [show ((7 / 2 : ℝ) - 1 / 2) * (7 / 2 - 1 / 2) +
    (1 / 2 - 1 / 2) * (1 / 2 - 1 / 2) + (1 / 2 - 1 / 2) * (1 / 2 - 1 / 2) = 3 ^ 2 by
    norm_num]
  exact Real.sqrt_sq (by norm_num)

/-- C17 (counterexample): on `row_env`, a row of four cells of size `1`
with its obstacle in cell `(2,0,0)`, the points `(0.5, 0.5, 0.5)` and `(3.5, 0.5, 0.5)`
lie in free in-bounds cells, 3 m apart, so `steps = 3`. The interior sample `k = 2`,
`start + 2·(end - start)/3 = (2.5, 0.5, 0.5)`, lies in the obstacle cell. The loop
`for (i = 1; i < steps - 1; i++)` runs for `i = 1` alone, and
`check_environment_for_obstacle` returns true. -/
theorem last_interior_sample_not_tested :
    check_pose_with_environment (row_env : EnvironmentDescription ℝ) (1 / 2) (1 / 2)
      (1 / 2) = some 0 ∧
    check_pose_with_environment (row_env : EnvironmentDescription ℝ) (7 / 2) (1 / 2)
      (1 / 2) = some 0 ∧
    path_steps ⟨Real.sqrt, Real.exp, Real.pi⟩ (row_env : EnvironmentDescription ℝ) (1 / 2)
      (1 / 2) (1 / 2) (7 / 2) (1 / 2) (1 / 2) = 3 ∧
    loop_indices 3 = [1] ∧
    cell_code (row_env : EnvironmentDescription ℝ) (1 / 2 + 2 * (7 / 2 - 1 / 2) / 3)
      (1 / 2 + 2 * (1 / 2 - 1 / 2) / 3) (1 / 2 + 2 * (1 / 2 - 1 / 2) / 3) = some 1 ∧
    check_environment_for_obstacle ⟨Real.sqrt, Real.exp, Real.pi⟩
      (row_env : EnvironmentDescription ℝ) (1 / 2) (1 / 2) (1 / 2) (7 / 2) (1 / 2)
      (1 / 2) = some true := by
  have hs : check_pose_with_environment (row_env : EnvironmentDescription ℝ) (1 / 2) (1 / 2)
      (1 / 2) = some 0 := by
    norm_num [check_pose_with_environment, row_env, to_int, vec_at, indexFrom3D]
  have he : check_pose_with_environment (row_env : EnvironmentDescription ℝ) (7 / 2) (1 / 2)
      (1 / 2) = some 0 := by
    norm_num [check_pose_with_environment, row_env, to_int, vec_at, indexFrom3D]
    rfl
  have hsteps : path_steps ⟨Real.sqrt, Real.exp, Real.pi⟩
      (row_env : EnvironmentDescription ℝ) (1 / 2) (1 / 2) (1 / 2) (7 / 2) (1 / 2)
      (1 / 2) = 3 := by
    simp only [path_steps, row_distance]
    norm_num [row_env]
  refine ⟨hs, he, hsteps, by decide, ?_, ?_⟩
  · norm_num [cell_code, row_env, vec_at, indexFrom3D]
    rfl
  · rw [check_environment_for_obstacle_loop _ _ _ _ _ _ _ _ hs he, hsteps, row_distance,
      show loop_indices 3 = [1] by decide]
    norm_num [traverse_path, cell_code, path_pose, row_env, vec_at, indexFrom3D]

section tested_samples

variable {α : Type} [LinearOrderedField α] [FloorRing α]

/-- C17 (amended): on a grid with `cell_size > 0` and one occupancy code per cell, for
end points in free in-bounds cells and `steps = ceil(distance / cell_size)`,
`check_environment_for_obstacle` returns false whenever a sample point
`start + k·(end - start)/steps` with `1 <= k <= steps - 2` lies in a cell whose occupancy
code is not `0`. The range is that of the loop, `i < steps - 1`: the sample
`k = steps - 1` is not among the values the loop takes. -/
theorem check_environment_for_obstacle_blocked (m : Libm α) (env : EnvironmentDescription α)
    (sx sy sz ex ey ez : α) (hcs : 0 < env.cell_size)
    (hEnv : (env.Env.length : Int) = env.num_cells.x * env.num_cells.y * env.num_cells.z)
    (hs : check_pose_with_environment env sx sy sz = some 0)
    (he : check_pose_with_environment env ex ey ez = some 0) (k : Int) (hk1 : 1 ≤ k)
    (hk2 : k ≤ path_steps m env sx sy sz ex ey ez - 2)
    (hcell : cell_code env
      (sx + (k : α) * (ex - sx) / ((path_steps m env sx sy sz ex ey ez : Int) : α))
      (sy + (k : α) * (ey - sy) / ((path_steps m env sx sy sz ex ey ez : Int) : α))
      (sz + (k : α) * (ez - sz) / ((path_steps m env sx sy sz ex ey ez : Int) : α)) ≠
        some 0) :
    check_environment_for_obstacle m env sx sy sz ex ey ez = some false ∧
    path_steps m env sx sy sz ex ey ez - 1 ∉
      loop_indices (path_steps m env sx sy sz ex ey ez) := by
  constructor
  · rw [check_environment_for_obstacle_loop m env sx sy sz ex ey ez hs he]
    apply traverse_path_blocked
    · intro i hi
      obtain ⟨t, ht0, ht1, hp⟩ := sample_on_segment _ _ i hi
      simp only [path_steps, hp]
      exact cell_code_on_segment env sx sy sz ex ey ez t hcs hEnv hs he ht0 ht1
    · refine ⟨k, (mem_loop_indices_iff _ k).mpr ⟨hk1, hk2⟩, ?_⟩
      have hst : 1 ≤ ⌈path_distance m sx sy sz ex ey ez / env.cell_size⌉ := by
        unfold path_steps at hk2
        omega
      unfold path_steps at hcell ⊢
      rw [path_pose_eq _ _ sx ex k hst, path_pose_eq _ _ sy ey k hst,
        path_pose_eq _ _ sz ez k hst]
      exact hcell
  · intro hmem
    have := (mem_loop_indices_iff _ _).mp hmem
    omega

end tested_samples

set_option maxRecDepth 1000000 in
/-- C17 (witness): on `blocked_env`, between `(0.1, 0.1, 0.5)` and `(3.1, 4.1, 0.5)`,
`steps = 5` and the sample `k = 2` lies in the obstacle cell `(1,1,0)`: the answer is
false. -/
theorem check_environment_for_obstacle_blocked_witness :
    ((0 : ℚ) < (blocked_env : EnvironmentDescription ℚ).cell_size ∧
      check_pose_with_environment (blocked_env : EnvironmentDescription ℚ) (1 / 10) (1 / 10)
        (1 / 2) = some 0 ∧
      check_pose_with_environment (blocked_env : EnvironmentDescription ℚ) (31 / 10)
        (41 / 10) (1 / 2) = some 0 ∧
      path_steps libm_q (blocked_env : EnvironmentDescription ℚ) (1 / 10) (1 / 10) (1 / 2)
        (31 / 10) (41 / 10) (1 / 2) = 5 ∧
      cell_code (blocked_env : EnvironmentDescription ℚ)
        ((1 / 10) + ((2 : Int) : ℚ) * (31 / 10 - 1 / 10) / ((5 : Int) : ℚ))
        ((1 / 10) + ((2 : Int) : ℚ) * (41 / 10 - 1 / 10) / ((5 : Int) : ℚ))
        ((1 / 2) + ((2 : Int) : ℚ) * (1 / 2 - 1 / 2) / ((5 : Int) : ℚ)) = some 1) ∧
    check_environment_for_obstacle libm_q (blocked_env : EnvironmentDescription ℚ) (1 / 10)
      (1 / 10) (1 / 2) (31 / 10) (41 / 10) (1 / 2) = some false :=
  ⟨⟨by with_unfolding_all decide, by with_unfolding_all rfl, by with_unfolding_all rfl,
      by with_unfolding_all rfl, by with_unfolding_all rfl⟩,
    (check_environment_for_obstacle_blocked libm_q (blocked_env : EnvironmentDescription ℚ)
      (1 / 10) (1 / 10) (1 / 2) (31 / 10) (41 / 10) (1 / 2) (by with_unfolding_all decide)
      (by with_unfolding_all decide) (by with_unfolding_all rfl) (by with_unfolding_all rfl)
      2 (by decide) (by with_unfolding_all decide) (by with_unfolding_all decide)).1⟩

set_option maxRecDepth 1000000 in
/-- C18 (witness): on `blocked_env` the points `(0.1, 0.1, 0.5)` and `(3.1, 4.1, 0.5)` lie
in free in-bounds cells. -/
theorem check_environment_for_obstacle_samples_witness :
    (check_pose_with_environment (blocked_env : EnvironmentDescription ℚ) (1 / 10) (1 / 10)
        (1 / 2) = some 0 ∧
      check_pose_with_environment (blocked_env : EnvironmentDescription ℚ) (31 / 10)
        (41 / 10) (1 / 2) = some 0) ∧
    path_steps libm_q (blocked_env : EnvironmentDescription ℚ) (1 / 10) (1 / 10) (1 / 2)
      (31 / 10) (41 / 10) (1 / 2) = 5 ∧
    cell_code (blocked_env : EnvironmentDescription ℚ)
      ((1 / 10) + ((2 : Int) : ℚ) * (31 / 10 - 1 / 10) / ((5 : Int) : ℚ))
      ((1 / 10) + ((2 : Int) : ℚ) * (41 / 10 - 1 / 10) / ((5 : Int) : ℚ))
      ((1 / 2) + ((2 : Int) : ℚ) * (1 / 2 - 1 / 2) / ((5 : Int) : ℚ)) = some 1 ∧
    ¬ check_environment_for_obstacle libm_q (blocked_env : EnvironmentDescription ℚ) (1 / 10)
      (1 / 10) (1 / 2) (31 / 10) (41 / 10) (1 / 2) = some true := by
  have h := check_environment_for_obstacle_samples libm_q
    (blocked_env : EnvironmentDescription ℚ) (1 / 10) (1 / 10) (1 / 2) (31 / 10) (41 / 10)
    (1 / 2) (by with_unfolding_all rfl) (by with_unfolding_all rfl)
  have hsteps : path_steps libm_q (blocked_env : EnvironmentDescription ℚ) (1 / 10) (1 / 10)
      (1 / 2) (31 / 10) (41 / 10) (1 / 2) = 5 := by with_unfolding_all rfl
  have hcode : cell_code (blocked_env : EnvironmentDescription ℚ)
      ((1 / 10) + ((2 : Int) : ℚ) * (31 / 10 - 1 / 10) / ((5 : Int) : ℚ))
      ((1 / 10) + ((2 : Int) : ℚ) * (41 / 10 - 1 / 10) / ((5 : Int) : ℚ))
      ((1 / 2) + ((2 : Int) : ℚ) * (1 / 2 - 1 / 2) / ((5 : Int) : ℚ)) = some 1 := by
    with_unfolding_all rfl
  refine ⟨⟨by with_unfolding_all rfl, by with_unfolding_all rfl⟩, hsteps, hcode, ?_⟩
  intro ht
  have h2 := h.1.mp ht 2 (by decide) (by rw [hsteps]; decide)
  rw [hsteps, hcode] at h2
  exact absurd h2 (by decide)


/-! ### Later text frames and the range of the dense index -/

set_option maxRecDepth 1000000 in
/-- C19 (the code departs from the claim): the wind-holding instance has loaded
`ethanol_frame`, so cell `0` holds concentration `0.5` and wind `(0.01, 0.02, 0.03)`. It
then loads `later_frame`, whose only data line, `1 0 0 700 1 2 3`, names cell `1`. After
the load cell `1` holds the values of that line, and cell `0`, which no data line names,
holds `0` in `C`, `U`, `V` and `W`: the loop body has first run on the eighth header line,
`reserved`, read as `x = y = z = 0` with values `0`. -/
theorem later_text_frame_parses_header_line :
    after_ethanol.map (fun s => (s.first_reading, s.C, s.U, s.V, s.W)) =
      some (false, [1 / 2, 0, 0, 0, 0, 0, 0, 0], [1 / 100, 0, 0, 0, 0, 0, 0, 0],
        [1 / 50, 0, 0, 0, 0, 0, 0, 0], [3 / 100, 0, 0, 0, 0, 0, 0, 0]) ∧
    (after_ethanol.bind (fun s => load_data_from_logfile (free_env 8)
        (frames_only [ethanol_frame, later_frame]) zero_locals s 1)).map
        (fun s => (s.C, s.U, s.V, s.W)) =
      some ([0, 7 / 10, 0, 0, 0, 0, 0, 0], [0, 1 / 1000, 0, 0, 0, 0, 0, 0],
        [0, 1 / 500, 0, 0, 0, 0, 0, 0], [0, 3 / 1000, 0, 0, 0, 0, 0, 0]) ∧
    after_ethanol.map (fun s => read_concentration_line s "reserved".toList) =
      after_ethanol.map (fun s => read_concentration_line s "0 0 0 0 0 0 0".toList) := by
  refine ⟨?_, ?_, ?_⟩ <;> with_unfolding_all rfl

set_option maxRecDepth 1000000 in
/-- C20 (the code departs from the claim): on the dense instance of `ethanol_frame`, with
`2×2×2` cells of size `1` and `C` of size `8`, the query at `(1.5, 1.5, 1.5)` resolves to
`xx = yy = zz = 2`, which passes the bounds check `xx > num_cells.x`; the linear index is
`2 + 2·2 + 2·4 = 14`, not smaller than `8`, and the read of `C` is outside the vector. -/
theorem dense_index_past_the_field (m : Libm ℚ) :
    after_ethanol.map (fun s => (s.filament_log, s.envDesc.num_cells.x,
      s.envDesc.num_cells.y, s.envDesc.num_cells.z, s.C.length)) =
      some (false, 2, 2, 2, 8) ∧
    after_ethanol.map (fun s =>
      (axis_index s.envDesc.min_coord.x s.envDesc.cell_size (3 / 2),
        axis_index s.envDesc.min_coord.y s.envDesc.cell_size (3 / 2),
        axis_index s.envDesc.min_coord.z s.envDesc.cell_size (3 / 2))) = some (2, 2, 2) ∧
    after_ethanol.map (fun s => indexFrom3D s.envDesc 2 2 2) = some 14 ∧
    after_ethanol.map (fun s => vec_at s.C 14) = some none ∧
    after_ethanol.map (fun s => get_gas_concentration m s (3 / 2) (3 / 2) (3 / 2)) =
      some none := by
  refine ⟨?_, ?_, ?_, ?_, ?_⟩ <;> with_unfolding_all rfl


/-! ### The cells read by the visibility walk -/

section walk

variable {α : Type} [LinearOrderedField α] [FloorRing α]

/-- C21: over an ordered field such as the reals, with `cell_size > 0`: when
`check_pose_with_environment` is `0` for both end points, every point the loop of
`check_environment_for_obstacle` tests resolves by `floor((pose - min)/cell_size)` to a
cell index in `[0, num_cells)` on each axis; the linear index `indexFrom3D(x_idx, y_idx,
z_idx)` then lies in `[0, nx·ny·nz)`, and the lookup in an occupancy array `Env` of length
`nx·ny·nz` is inside the array. -/
theorem loop_samples_inside_grid (m : Libm α) (env : EnvironmentDescription α)
    (sx sy sz ex ey ez : α) (hcs : 0 < env.cell_size)
    (hs : check_pose_with_environment env sx sy sz = some 0)
    (he : check_pose_with_environment env ex ey ez = some 0) :
    ∀ i ∈ loop_indices (path_steps m env sx sy sz ex ey ez), ∀ x_idx y_idx z_idx : Int,
      x_idx = ⌊(path_pose (path_distance m sx sy sz ex ey ez)
        (path_steps m env sx sy sz ex ey ez) sx ex i - env.min_coord.x) / env.cell_size⌋ →
      y_idx = ⌊(path_pose (path_distance m sx sy sz ex ey ez)
        (path_steps m env sx sy sz ex ey ez) sy ey i - env.min_coord.y) / env.cell_size⌋ →
      z_idx = ⌊(path_pose (path_distance m sx sy sz ex ey ez)
        (path_steps m env sx sy sz ex ey ez) sz ez i - env.min_coord.z) / env.cell_size⌋ →
      (0 ≤ x_idx ∧ x_idx < env.num_cells.x) ∧ (0 ≤ y_idx ∧ y_idx < env.num_cells.y) ∧
      (0 ≤ z_idx ∧ z_idx < env.num_cells.z) ∧
      (0 ≤ indexFrom3D env x_idx y_idx z_idx ∧
        indexFrom3D env x_idx y_idx z_idx <
          env.num_cells.x * env.num_cells.y * env.num_cells.z) ∧
      ((env.Env.length : Int) = env.num_cells.x * env.num_cells.y * env.num_cells.z →
        ∃ c, vec_at env.Env (indexFrom3D env x_idx y_idx z_idx) = some c) := by
  intro i hi x_idx y_idx z_idx hxi hyi hzi
  obtain ⟨t, ht0, ht1, hp⟩ := sample_on_segment (path_distance m sx sy sz ex ey ez)
    env.cell_size i hi
  obtain ⟨⟨sx1, sy1, sz1⟩, ⟨sx2, sy2, sz2⟩, _⟩ := check_pose_free env sx sy sz hcs hs
  obtain ⟨⟨ex1, ey1, ez1⟩, ⟨ex2, ey2, ez2⟩, _⟩ := check_pose_free env ex ey ez hcs he
  have hx := axis_between env.min_coord.x env.cell_size sx ex t _ hcs sx1 ex1 sx2 ex2 ht0 ht1
  have hy := axis_between env.min_coord.y env.cell_size sy ey t _ hcs sy1 ey1 sy2 ey2 ht0 ht1
  have hz := axis_between env.min_coord.z env.cell_size sz ez t _ hcs sz1 ez1 sz2 ez2 ht0 ht1
  simp only [path_steps, hp] at hxi hyi hzi
  rw [← hxi] at hx
  rw [← hyi] at hy
  rw [← hzi] at hz
  have hr := indexFrom3D_range env x_idx y_idx z_idx hx hy hz
  exact ⟨hx, hy, hz, hr, fun hEnv => vec_at_some _ _ hr.1 (by rw [hEnv]; exact hr.2)⟩

end walk

set_option maxRecDepth 1000000 in
/-- C21 (witness): on `blocked_env`, between `(0.1, 0.1, 0.5)` and `(3.1, 4.1, 0.5)`, the
point of pass `i = 2` resolves to a cell whose linear index is below `4·5·1`. -/
theorem loop_samples_inside_grid_witness :
    ((0 : ℚ) < (blocked_env : EnvironmentDescription ℚ).cell_size ∧
      check_pose_with_environment (blocked_env : EnvironmentDescription ℚ) (1 / 10) (1 / 10)
        (1 / 2) = some 0 ∧
      check_pose_with_environment (blocked_env : EnvironmentDescription ℚ) (31 / 10)
        (41 / 10) (1 / 2) = some 0 ∧
      (2 : Int) ∈ loop_indices (path_steps libm_q (blocked_env : EnvironmentDescription ℚ)
        (1 / 10) (1 / 10) (1 / 2) (31 / 10) (41 / 10) (1 / 2))) ∧
    indexFrom3D (blocked_env : EnvironmentDescription ℚ)
      ⌊(path_pose (path_distance libm_q (1 / 10 : ℚ) (1 / 10) (1 / 2) (31 / 10) (41 / 10) (1 / 2))
        (path_steps libm_q (blocked_env : EnvironmentDescription ℚ) (1 / 10) (1 / 10) (1 / 2)
          (31 / 10) (41 / 10) (1 / 2)) (1 / 10) (31 / 10) 2 -
        (blocked_env : EnvironmentDescription ℚ).min_coord.x) /
        (blocked_env : EnvironmentDescription ℚ).cell_size⌋
      ⌊(path_pose (path_distance libm_q (1 / 10 : ℚ) (1 / 10) (1 / 2) (31 / 10) (41 / 10) (1 / 2))
        (path_steps libm_q (blocked_env : EnvironmentDescription ℚ) (1 / 10) (1 / 10) (1 / 2)
          (31 / 10) (41 / 10) (1 / 2)) (1 / 10) (41 / 10) 2 -
        (blocked_env : EnvironmentDescription ℚ).min_coord.y) /
        (blocked_env : EnvironmentDescription ℚ).cell_size⌋
      ⌊(path_pose (path_distance libm_q (1 / 10 : ℚ) (1 / 10) (1 / 2) (31 / 10) (41 / 10) (1 / 2))
        (path_steps libm_q (blocked_env : EnvironmentDescription ℚ) (1 / 10) (1 / 10) (1 / 2)
          (31 / 10) (41 / 10) (1 / 2)) (1 / 2) (1 / 2) 2 -
        (blocked_env : EnvironmentDescription ℚ).min_coord.z) /
        (blocked_env : EnvironmentDescription ℚ).cell_size⌋ <
      (blocked_env : EnvironmentDescription ℚ).num_cells.x *
        (blocked_env : EnvironmentDescription ℚ).num_cells.y *
        (blocked_env : EnvironmentDescription ℚ).num_cells.z := by
  have hcs : (0 : ℚ) < (blocked_env : EnvironmentDescription ℚ).cell_size := by
    with_unfolding_all decide
  have hs : check_pose_with_environment (blocked_env : EnvironmentDescription ℚ) (1 / 10)
      (1 / 10) (1 / 2) = some 0 := by with_unfolding_all rfl
  have he : check_pose_with_environment (blocked_env : EnvironmentDescription ℚ) (31 / 10)
      (41 / 10) (1 / 2) = some 0 := by with_unfolding_all rfl
  have hi : (2 : Int) ∈ loop_indices (path_steps libm_q
      (blocked_env : EnvironmentDescription ℚ) (1 / 10) (1 / 10) (1 / 2) (31 / 10) (41 / 10)
      (1 / 2)) := by with_unfolding_all decide
  exact ⟨⟨hcs, hs, he, hi⟩,
    (loop_samples_inside_grid libm_q (blocked_env : EnvironmentDescription ℚ) (1 / 10)
      (1 / 10) (1 / 2) (31 / 10) (41 / 10) (1 / 2) hcs hs he 2 hi _ _ _ rfl rfl rfl).2.2.2.1.2⟩

/-! ### The linear index -/

/-- C23: for positive cell counts `nx`, `ny`, `nz`, `indexFrom3D` on the cells
`0 <= x < nx`, `0 <= y < ny`, `0 <= z < nz` is a bijection onto `[0, nx·ny·nz)`: its value
`x + y·nx + z·nx·ny` lies in `[0, nx·ny·nz)`, two different in-range cells never share a
linear index, and every index of `[0, nx·ny·nz)` is that of an in-range cell. The partial
sums and products of the expression lie in `[0, nx·ny·nz)` as well. -/
theorem indexFrom3D_bijection {α : Type} (env : EnvironmentDescription α)
    (hx : 0 < env.num_cells.x) (hy : 0 < env.num_cells.y) (hz : 0 < env.num_cells.z) :
    (∀ x y z : Int, 0 ≤ x → x < env.num_cells.x → 0 ≤ y → y < env.num_cells.y → 0 ≤ z →
      z < env.num_cells.z →
      indexFrom3D env x y z = x + y * env.num_cells.x + z * env.num_cells.x * env.num_cells.y ∧
      0 ≤ indexFrom3D env x y z ∧
      indexFrom3D env x y z < env.num_cells.x * env.num_cells.y * env.num_cells.z ∧
      (0 ≤ y * env.num_cells.x ∧
        x + y * env.num_cells.x < env.num_cells.x * env.num_cells.y * env.num_cells.z) ∧
      (0 ≤ z * env.num_cells.x ∧
        z * env.num_cells.x < env.num_cells.x * env.num_cells.y * env.num_cells.z) ∧
      (0 ≤ z * env.num_cells.x * env.num_cells.y ∧
        z * env.num_cells.x * env.num_cells.y <
          env.num_cells.x * env.num_cells.y * env.num_cells.z)) ∧
    (∀ x y z x1 y1 z1 : Int, 0 ≤ x → x < env.num_cells.x → 0 ≤ y → y < env.num_cells.y →
      0 ≤ z → z < env.num_cells.z → 0 ≤ x1 → x1 < env.num_cells.x → 0 ≤ y1 →
      y1 < env.num_cells.y → 0 ≤ z1 → z1 < env.num_cells.z →
      indexFrom3D env x y z = indexFrom3D env x1 y1 z1 → x = x1 ∧ y = y1 ∧ z = z1) ∧
    (∀ i : Int, 0 ≤ i → i < env.num_cells.x * env.num_cells.y * env.num_cells.z →
      ∃ x y z : Int, (0 ≤ x ∧ x < env.num_cells.x) ∧ (0 ≤ y ∧ y < env.num_cells.y) ∧
        (0 ≤ z ∧ z < env.num_cells.z) ∧ indexFrom3D env x y z = i) := by
  refine ⟨?_, ?_, ?_⟩
  · intro x y z hx0 hx1 hy0 hy1 hz0 hz1
    have hr := indexFrom3D_range env x y z ⟨hx0, hx1⟩ ⟨hy0, hy1⟩ ⟨hz0, hz1⟩
    have h1 : 0 ≤ y * env.num_cells.x := mul_nonneg hy0 hx.le
    have h2 : 0 ≤ z * env.num_cells.x := mul_nonneg hz0 hx.le
    have h3 : 0 ≤ z * env.num_cells.x * env.num_cells.y := mul_nonneg h2 hy.le
    have h4 : y * env.num_cells.x ≤ (env.num_cells.y - 1) * env.num_cells.x :=
      mul_le_mul_of_nonneg_right (by omega) hx.le
    have h5 : z * env.num_cells.x ≤ (env.num_cells.z - 1) * env.num_cells.x :=
      mul_le_mul_of_nonneg_right (by omega) hx.le
    have h6 : z * env.num_cells.x * env.num_cells.y ≤
        (env.num_cells.z - 1) * env.num_cells.x * env.num_cells.y :=
      mul_le_mul_of_nonneg_right h5 hy.le
    have hxy : 0 < env.num_cells.x * env.num_cells.y := mul_pos hx hy
    have hxz : 0 < env.num_cells.x * env.num_cells.z := mul_pos hx hz
    refine ⟨rfl, hr.1, hr.2, ⟨h1, ?_⟩, ⟨h2, ?_⟩, ⟨h3, ?_⟩⟩
    · nlinarith
    · nlinarith
    · nlinarith
  · intro x y z x1 y1 z1 hx0 hx1 hy0 hy1 hz0 hz1 hx0' hx1' hy0' hy1' hz0' hz1' h
    unfold indexFrom3D at h
    have e : x + env.num_cells.x * (y + env.num_cells.y * z) =
        x1 + env.num_cells.x * (y1 + env.num_cells.y * z1) := by linarith
    have ex : x = x1 := by
      have := congrArg (fun v => v % env.num_cells.x) e
      simp only [Int.add_mul_emod_self_left] at this
      rwa [Int.emod_eq_of_lt hx0 hx1, Int.emod_eq_of_lt hx0' hx1'] at this
    subst ex
    have e2 : y + env.num_cells.y * z = y1 + env.num_cells.y * z1 :=
      mul_left_cancel₀ hx.ne.symm (by linarith)
    have ey : y = y1 := by
      have := congrArg (fun v => v % env.num_cells.y) e2
      simp only [Int.add_mul_emod_self_left] at this
      rwa [Int.emod_eq_of_lt hy0 hy1, Int.emod_eq_of_lt hy0' hy1'] at this
    subst ey
    have ez : z = z1 := mul_left_cancel₀ hy.ne.symm (by linarith)
    exact ⟨rfl, rfl, ez⟩
  · intro i hi0 hi1
    refine ⟨i % env.num_cells.x, i / env.num_cells.x % env.num_cells.y,
      i / env.num_cells.x / env.num_cells.y,
      ⟨Int.emod_nonneg _ hx.ne.symm, Int.emod_lt_of_pos _ hx⟩,
      ⟨Int.emod_nonneg _ hy.ne.symm, Int.emod_lt_of_pos _ hy⟩, ⟨?_, ?_⟩, ?_⟩
    · exact Int.ediv_nonneg (Int.ediv_nonneg hi0 hx.le) hy.le
    · have h1 : i / env.num_cells.x < env.num_cells.y * env.num_cells.z := by
        apply Int.ediv_lt_of_lt_mul hx
        linarith
      apply Int.ediv_lt_of_lt_mul hy
      linarith
    · unfold indexFrom3D
      have h1 := Int.emod_add_ediv i env.num_cells.x
      have h2 := Int.emod_add_ediv (i / env.num_cells.x) env.num_cells.y
      nlinarith

/-- C23 (witness): the grid of `4×5×1` cells: cell `(3, 4, 0)` has linear index `19`. -/
theorem indexFrom3D_bijection_witness :
    ((0 : Int) < (open_env : EnvironmentDescription ℚ).num_cells.x ∧
      (0 : Int) < (open_env : EnvironmentDescription ℚ).num_cells.y ∧
      (0 : Int) < (open_env : EnvironmentDescription ℚ).num_cells.z) ∧
    indexFrom3D (open_env : EnvironmentDescription ℚ) 3 4 0 <
      (open_env : EnvironmentDescription ℚ).num_cells.x *
        (open_env : EnvironmentDescription ℚ).num_cells.y *
        (open_env : EnvironmentDescription ℚ).num_cells.z ∧
    indexFrom3D (open_env : EnvironmentDescription ℚ) 3 4 0 = 19 :=
  ⟨⟨by decide, by decide, by decide⟩,
    ((indexFrom3D_bijection (open_env : EnvironmentDescription ℚ) (by decide) (by decide)
      (by decide)).1 3 4 0 (by decide) (by decide) (by decide) (by decide) (by decide)
      (by decide)).2.2.1, by decide⟩


/-! ### The gas service -/

section gas_service

variable {α : Type} [LinearOrderedField α] [FloorRing α]

/-- The keys of a set after an insertion: the new key and those it held. -/
theorem mem_set_insert {K : Type} [LinearOrder K] (k g : K) (s : List K) :
    g ∈ set_insert k s ↔ g = k ∨ g ∈ s := by
  induction s with
  | nil => simp [set_insert]
  | cons k1 s ih =>
    unfold set_insert
    split
    · simp
    · split
      · rename_i h
        subst h
        simp
      · simp only [List.mem_cons, ih]
        tauto

/-- An insertion keeps the set strictly increasing. -/
theorem set_insert_sorted {K : Type} [LinearOrder K] (k : K) (s : List K)
    (h : s.Sorted (· < ·)) : (set_insert k s).Sorted (· < ·) := by
  induction s with
  | nil => simp [set_insert]
  | cons k1 s ih =>
    rw [List.sorted_cons] at h
    unfold set_insert
    split
    · rename_i hlt
      rw [List.sorted_cons]
      refine ⟨fun b hb => ?_, List.sorted_cons.mpr h⟩
      rcases List.mem_cons.mp hb with rfl | hb
      · exact hlt
      · exact lt_trans hlt (h.1 b hb)
    · split
      · exact List.sorted_cons.mpr h
      · rename_i h1 h2
        rw [List.sorted_cons]
        refine ⟨fun b hb => ?_, ih h.2⟩
        rcases (mem_set_insert k b s).mp hb with rfl | hb
        · exact lt_of_le_of_ne (not_lt.mp h1) (fun e => h2 e.symm)
        · exact h.1 b hb

omit [LinearOrderedField α] [FloorRing α] in
/-- The first loop of `get_gas_value_srv` from a strictly increasing set: the set stays
strictly increasing and gains the gas types of the instances. -/
theorem foldl_set_insert (insts : List (sim_obj α)) (acc : List (List Char))
    (h : acc.Sorted (· < ·)) :
    (insts.foldl (fun gas_types inst => set_insert inst.gas_type gas_types) acc).Sorted
        (· < ·) ∧
      ∀ g, g ∈ insts.foldl (fun gas_types inst => set_insert inst.gas_type gas_types) acc ↔
        g ∈ acc ∨ ∃ s ∈ insts, s.gas_type = g := by
  induction insts generalizing acc with
  | nil => exact ⟨h, fun g => by simp⟩
  | cons s rest ih =>
    obtain ⟨h1, h2⟩ := ih (set_insert s.gas_type acc) (set_insert_sorted _ _ h)
    refine ⟨h1, fun g => ?_⟩
    rw [List.foldl_cons, h2 g, mem_set_insert]
    simp only [List.mem_cons, exists_eq_or_imp]
    constructor
    · rintro ((rfl | hg) | hg)
      · exact Or.inr (Or.inl rfl)
      · exact Or.inl hg
      · exact Or.inr (Or.inr hg)
    · rintro (hg | rfl | hg)
      · exact Or.inl (Or.inr hg)
      · exact Or.inl (Or.inl rfl)
      · exact Or.inr hg

/-- When every instance answers the query, `get_all_gases_single_cell` returns one entry
per requested gas type, in the order of the request: the sum of the concentrations of the
instances of that type. -/
theorem get_all_gases_single_cell_entries (m : Libm α) (insts : List (sim_obj α))
    (x y z : α) (gas_types : List (List Char))
    (h : ∀ s ∈ insts, ∃ c, get_gas_concentration m s x y z = some c) :
    ∃ cell, get_all_gases_single_cell m insts x y z gas_types = some cell ∧
      cell.length = gas_types.length ∧
      ∀ j g, gas_types.get? j = some g →
        cell.get? j = some (((insts.filter (fun s => s.gas_type = g)).map
          (fun s => (get_gas_concentration m s x y z).getD 0)).sum) := by
  obtain ⟨out, hout, hsum⟩ := add_concentrations_at m x y z insts h
    (gas_types.foldl (fun byType g => map_assign g 0 byType) [])
  refine ⟨gas_types.map (fun g => map_at out g), by simp [get_all_gases_single_cell, hout],
    by simp, fun j g hj => ?_⟩
  simp only [List.get?_eq_getElem?, List.getElem?_map] at hj ⊢
  rw [hj, Option.map_some', hsum g, map_at_init gas_types g [] rfl, zero_add]

/-- The second loop of `get_gas_value_srv`: it appends one entry per remaining request, the
answer of `get_all_gases_single_cell` at that position. -/
theorem gas_value_loop_positions (m : Libm α) (insts : List (sim_obj α))
    (types : List (List Char)) (req_y req_z : List α) (xs : List α) (i : Nat)
    (positions : List (List α)) (hy : i + xs.length ≤ req_y.length)
    (hz : i + xs.length ≤ req_z.length)
    (hq : ∀ k x y z, xs.get? k = some x → req_y.get? (i + k) = some y →
      req_z.get? (i + k) = some z →
      ∀ s ∈ insts, ∃ c, get_gas_concentration m s x y z = some c) :
    ∃ out, gas_value_loop m insts types req_y req_z i xs positions = some (positions ++ out) ∧
      out.length = xs.length ∧
      ∀ k x y z, xs.get? k = some x → req_y.get? (i + k) = some y →
        req_z.get? (i + k) = some z →
        out.get? k = get_all_gases_single_cell m insts x y z types := by
  induction xs generalizing i positions with
  | nil => exact ⟨[], by simp [gas_value_loop], rfl, fun k x y z hk => by simp at hk⟩
  | cons x xs ih =>
    simp only [List.length_cons] at hy hz
    obtain ⟨y, hy1⟩ : ∃ y, req_y.get? i = some y := ⟨_, List.get?_eq_get (by omega)⟩
    obtain ⟨z, hz1⟩ : ∃ z, req_z.get? i = some z := ⟨_, List.get?_eq_get (by omega)⟩
    obtain ⟨cell, hcell, _⟩ := get_all_gases_single_cell_entries m insts x y z types
      (hq 0 x y z rfl hy1 hz1)
    obtain ⟨out, hout, hlen, hget⟩ := ih (i + 1) (positions ++ [cell]) (by omega) (by omega)
      (fun k x1 y1 z1 hx hy2 hz2 =>
        hq (k + 1) x1 y1 z1 hx (by rw [← hy2]; congr 1; omega) (by rw [← hz2]; congr 1; omega))
    refine ⟨cell :: out, ?_, by simp [hlen], fun k x1 y1 z1 hx hy2 hz2 => ?_⟩
    · rw [gas_value_loop]
      simp only [hy1, hz1, hcell, hout, List.append_assoc, List.singleton_append]
    · cases k with
      | zero =>
        simp only [List.get?_cons_zero, Option.some.injEq] at hx
        rw [Nat.add_zero, hy1] at hy2
        rw [Nat.add_zero, hz1] at hz2
        simp only [Option.some.injEq] at hy2 hz2
        subst hx hy2 hz2
        simpa using hcell.symm
      | succ k =>
        simp only [List.get?_cons_succ] at hx ⊢
        exact hget k x1 y1 z1 hx (by rw [← hy2]; congr 1; omega) (by rw [← hz2]; congr 1; omega)

/-- C22: for every list of instances and every request with a `y` and a `z` for each `x`
whose queries all have an answer, `get_gas_value_srv` returns: as `gas_type` the gas types
of the instances in a strictly increasing list (sorted, each type once); as `positions`
one entry per requested position, in request order; and each entry's concentration list
has the length of the gas-type list, with entry `j` holding the concentration of gas type
`j`, the sum over the instances of that type. -/
theorem get_gas_value_srv_response (m : Libm α) (insts : List (sim_obj α))
    (req_x req_y req_z : List α) (hy : req_x.length ≤ req_y.length)
    (hz : req_x.length ≤ req_z.length)
    (hq : ∀ i x y z, req_x.get? i = some x → req_y.get? i = some y →
      req_z.get? i = some z → ∀ s ∈ insts, ∃ c, get_gas_concentration m s x y z = some c) :
    ∃ gas_type positions,
      get_gas_value_srv m insts req_x req_y req_z = some (gas_type, positions) ∧
      gas_type.Sorted (· < ·) ∧ (∀ g, g ∈ gas_type ↔ ∃ s ∈ insts, s.gas_type = g) ∧
      positions.length = req_x.length ∧
      ∀ i x y z, req_x.get? i = some x → req_y.get? i = some y → req_z.get? i = some z →
        ∃ cell, positions.get? i = some cell ∧ cell.length = gas_type.length ∧
          ∀ j g, gas_type.get? j = some g →
            cell.get? j = some (((insts.filter (fun s => s.gas_type = g)).map
              (fun s => (get_gas_concentration m s x y z).getD 0)).sum) := by
  obtain ⟨hsorted, hmem⟩ := foldl_set_insert insts [] List.sorted_nil
  obtain ⟨out, hout, hlen, hget⟩ := gas_value_loop_positions m insts
    (collect_gas_types insts) req_y req_z req_x 0 [] (by omega) (by omega)
    (fun k x y z hx hy1 hz1 => hq k x y z hx (by simpa using hy1) (by simpa using hz1))
  refine ⟨collect_gas_types insts, out, ?_, hsorted, fun g => ?_, hlen,
    fun i x y z hx hy1 hz1 => ?_⟩
  · simp only [get_gas_value_srv, hout, List.nil_append]
  · simpa using hmem g
  · obtain ⟨cell, hcell, hl, hj⟩ := get_all_gases_single_cell_entries m insts x y z
      (collect_gas_types insts) (hq i x y z hx hy1 hz1)
    refine ⟨cell, ?_, hl, hj⟩
    rw [hget i x y z hx (by simpa using hy1) (by simpa using hz1), hcell]

end gas_service

set_option maxRecDepth 1000000 in
/-- C22 (witness): two methane instances holding `3` and `4` and an ethanol instance
holding `5`, asked for the origin twice: the gas types are `[ethanol, methane]` and each
position reports `[5, 7]`. -/
theorem get_gas_value_srv_response_witness :
    get_gas_value_srv libm_q
        [dense_instance "methane".toList 3, dense_instance "ethanol".toList 5,
          dense_instance "methane".toList 4] [0, 0] [0, 0] [0, 0] =
      some (["ethanol".toList, "methane".toList], [[5, 7], [5, 7]]) ∧
    ∃ gas_type positions,
      get_gas_value_srv libm_q
        [dense_instance "methane".toList 3, dense_instance "ethanol".toList 5,
          dense_instance "methane".toList 4] [0, 0] [0, 0] [0, 0] =
        some (gas_type, positions) ∧
      gas_type.Sorted (· < ·) ∧ positions.length = 2 := by
  have hq : ∀ (i : Nat) (x y z : ℚ), [(0 : ℚ), 0].get? i = some x →
      [(0 : ℚ), 0].get? i = some y → [(0 : ℚ), 0].get? i = some z →
      ∀ s ∈ [dense_instance "methane".toList 3, dense_instance "ethanol".toList 5,
        dense_instance "methane".toList 4],
        ∃ c, get_gas_concentration libm_q s x y z = some c := by
    intro i x y z hx hy hz s hs
    have e : ∀ v : ℚ, [(0 : ℚ), 0].get? i = some v → v = 0 := by
      intro v hv
      have := List.get?_mem hv
      simpa using this
    rw [e x hx, e y hy, e z hz]
    simp only [List.mem_cons, List.mem_singleton, List.not_mem_nil, or_false] at hs
    rcases hs with rfl | rfl | rfl
    · exact ⟨3, by with_unfolding_all rfl⟩
    · exact ⟨5, by with_unfolding_all rfl⟩
    · exact ⟨4, by with_unfolding_all rfl⟩
  obtain ⟨gas_type, positions, h, hs, _, hl, _⟩ := get_gas_value_srv_response libm_q
    [dense_instance "methane".toList 3, dense_instance "ethanol".toList 5,
      dense_instance "methane".toList 4] [0, 0] [0, 0] [0, 0] (by decide) (by decide) hq
  exact ⟨by with_unfolding_all rfl, gas_type, positions, h, hs, hl⟩

end GadenPlayer
